import Mathlib

/-!
# Process supervisor (`jobsupervisor/monit_job_supervisor.go`)

A shallow embedding of `monitJobSupervisor`.  The collaborators of the
supervisor (monit client, command runner, logger, clock) are interfaces; they
are embedded as a `World` of scripted answers: the `k`-th call of a method gets
the `k`-th answer of that method.  The state that is passed through the code is
the `Trace`, the list of collaborator calls made so far, in order.
-/

namespace JobSupervisor

/-! ## Errors -/

/-- Go `error` values as the supervisor builds and receives them: `new msg` is
an error with message `msg` (what `bosherr.Errorf` builds from its formatted
message, or what a collaborator returns), `wrap cause msg` is
`bosherr.WrapError(cause, msg)`. -/
inductive Err where
  | new (msg : String)
  | wrap (cause : Err) (msg : String)
deriving DecidableEq, Repr

/-- Modelled from the spec: the message of an error of `bosh-utils/errors`
(the package is vendored outside the supervisor's file).  `bosherr.Errorf`
yields the formatted message, `bosherr.WrapError(cause, msg)` yields
`<msg>: <cause>`, as in "Partitioning ephemeral disk '<path>': <cause>". -/
def Err.Error : Err → String
  | .new msg => msg
  | .wrap cause msg => msg ++ ": " ++ cause.Error

/-! ## Data model -/

/-- The `boshmonit.Service` record. -/
structure Service where
  Name : String
  Monitored : Bool
  Pending : Bool
  Errored : Bool
  Status : String
  StatusMessage : String
deriving DecidableEq, Repr

/-- The `boshmonit.Status` interface: `ServicesInGroup(name)` and
`GetIncarnation()`. -/
structure MonitStatus where
  ServicesInGroup : String → List Service
  GetIncarnation : Except Err Int

/-- The result `(stdout, stderr, exitStatus, err)` of `CmdRunner.RunCommand`. -/
structure CmdResult where
  stdout : String
  stderr : String
  exitStatus : Int
  err : Option Err
deriving DecidableEq, Repr

/-- The `MonitReloadOptions` record; the delay is a `time.Duration`
(nanoseconds). -/
structure MonitReloadOptions where
  MaxTries : Int
  MaxCheckTries : Int
  DelayBetweenCheckTries : Int
deriving DecidableEq, Repr

/-- The collaborator calls a supervisor operation makes. -/
inductive Call where
  | clientServicesInGroup (group : String)
  | clientStartService (name : String)
  | clientStopService (name : String)
  | clientUnmonitorService (name : String)
  | clientStatus
  | runCommand (cmd : String) (args : List String)
  | logDebug (tag : String) (msg : String)
  | logError (tag : String) (msg : String)
  | timeSleep (d : Int)
  | newTimer (d : Int)
  | timerSelect
  | clockSleep (d : Int)
  | fsReadFile (path : String)
  | fsWriteFile (path : String) (content : List Nat)
  | fsRemoveAll (path : String)
deriving DecidableEq, Repr

abbrev Trace := List Call

/-- Scripted collaborators: the answer of the `k`-th call of each method. -/
structure World where
  servicesInGroupResults : Nat → String → Except Err (List String)
  startServiceResults : Nat → String → Option Err
  stopServiceResults : Nat → String → Option Err
  unmonitorServiceResults : Nat → String → Option Err
  statusResults : Nat → Except Err MonitStatus
  runCommandResults : Nat → String → List String → CmdResult
  timerFired : Nat → Bool

def monitJobSupervisorLogTag : String := "monitJobSupervisor"

/-- `time.Minute` in nanoseconds. -/
def Minute : Int := 60000000000

/-- `time.Millisecond` in nanoseconds. -/
def Millisecond : Int := 1000000

/-! ## Counting calls in a trace -/

def Call.isStatus : Call → Bool
  | .clientStatus => true
  | _ => false

def Call.isRunCommand : Call → Bool
  | .runCommand _ _ => true
  | _ => false

def Call.isServicesInGroup : Call → Bool
  | .clientServicesInGroup _ => true
  | _ => false

def Call.isStopService : Call → Bool
  | .clientStopService _ => true
  | _ => false

def Call.isTimerSelect : Call → Bool
  | .timerSelect => true
  | _ => false

def Call.isSleep : Call → Bool
  | .timeSleep _ => true
  | .clockSleep _ => true
  | _ => false

def numStatus (tr : Trace) : Nat := tr.countP Call.isStatus

def numRunCommand (tr : Trace) : Nat := tr.countP Call.isRunCommand

def numServicesInGroup (tr : Trace) : Nat := tr.countP Call.isServicesInGroup

def numStopService (tr : Trace) : Nat := tr.countP Call.isStopService

def numTimerSelect (tr : Trace) : Nat := tr.countP Call.isTimerSelect

def numSleep (tr : Trace) : Nat := tr.countP Call.isSleep

/-! ## `Status` -/

/-- The `for _, service := range ...` loop of `Status`, with the current value
of the named result `status`. -/
def statusLoop : List Service → String → String
  | [], status => status
  | service :: rest, status =>
    if service.Status = "starting" then "starting"
    else if !service.Monitored || service.Status ≠ "running" then statusLoop rest "failing"
    else statusLoop rest status

/-- `monitJobSupervisor.Status`. -/
def Status (w : World) (tr : Trace) : String × Trace :=
  let tr1 := tr ++ [Call.logDebug monitJobSupervisorLogTag "Getting monit status"]
  match w.statusResults (numStatus tr1) with
  | .error _ => ("unknown", tr1 ++ [Call.clientStatus])
  | .ok monitStatus =>
    (statusLoop (monitStatus.ServicesInGroup "vcap") "running", tr1 ++ [Call.clientStatus])

/-! ## `Reload` -/

/-- `monitJobSupervisor.getIncarnation`. -/
def getIncarnation (w : World) (tr : Trace) : Except Err Int × Trace :=
  match w.statusResults (numStatus tr) with
  | .error err => (.error err, tr ++ [Call.clientStatus])
  | .ok monitStatus => (monitStatus.GetIncarnation, tr ++ [Call.clientStatus])

/-- How a loop of `Reload` ends: the function returns, or the loop runs out
and leaves `currentIncarnation`. -/
inductive Flow where
  | ret (err : Option Err)
  | next (currentIncarnation : Int)
deriving DecidableEq, Repr

/-- The inner loop `for checkI := 0; checkI < MaxCheckTries; checkI++`, by the
number of iterations that remain. -/
def checkLoop (w : World) (opts : MonitReloadOptions) (oldIncarnation : Int) :
    Nat → Int → Trace → Flow × Trace
  | 0, currentIncarnation, tr => (.next currentIncarnation, tr)
  | n + 1, _, tr =>
    match getIncarnation w tr with
    | (.error err, tr1) => (.ret (some (.wrap err "Getting monit incarnation")), tr1)
    | (.ok currentIncarnation, tr1) =>
      if oldIncarnation ≠ currentIncarnation then (.ret none, tr1)
      else
        checkLoop w opts oldIncarnation n currentIncarnation
          (tr1 ++ [Call.logDebug monitJobSupervisorLogTag
                    ("Waiting for monit to reload: before=" ++ toString oldIncarnation
                      ++ " after=" ++ toString currentIncarnation),
                   Call.timeSleep opts.DelayBetweenCheckTries])

/-- The outer loop `for reloadI := 0; reloadI < MaxTries; reloadI++`, by the
number of iterations that remain. -/
def reloadLoop (w : World) (opts : MonitReloadOptions) (oldIncarnation : Int) :
    Nat → Int → Trace → Flow × Trace
  | 0, currentIncarnation, tr => (.next currentIncarnation, tr)
  | n + 1, currentIncarnation, tr =>
    let r := w.runCommandResults (numRunCommand tr) "monit" ["reload"]
    let tr1 := tr ++ [Call.runCommand "monit" ["reload"]]
    let tr2 := match r.err with
      | some err =>
        tr1 ++ [Call.logError monitJobSupervisorLogTag ("Failed to reload monit " ++ err.Error)]
      | none => tr1
    match checkLoop w opts oldIncarnation opts.MaxCheckTries.toNat currentIncarnation tr2 with
    | (.ret err, tr3) => (.ret err, tr3)
    | (.next currentIncarnation, tr3) => reloadLoop w opts oldIncarnation n currentIncarnation tr3

/-- `monitJobSupervisor.Reload`; `none` is the `nil` error. -/
def Reload (w : World) (opts : MonitReloadOptions) (tr : Trace) : Option Err × Trace :=
  match getIncarnation w tr with
  | (.error err, tr1) => (some (.wrap err "Getting monit incarnation"), tr1)
  | (.ok oldIncarnation, tr1) =>
    match reloadLoop w opts oldIncarnation opts.MaxTries.toNat 0 tr1 with
    | (.ret err, tr2) => (err, tr2)
    | (.next currentIncarnation, tr2) =>
      (some (.new ("Failed to reload monit: before=" ++ toString oldIncarnation
                    ++ " after=" ++ toString currentIncarnation)), tr2)

/-! ## `Stop` -/

/-- The loop over `serviceNames` that issues the stop commands. -/
def stopServices (w : World) : List String → Trace → Option Err × Trace
  | [], tr => (none, tr)
  | serviceName :: rest, tr =>
    let tr1 := tr ++ [Call.logDebug monitJobSupervisorLogTag
                        ("Stopping service '" ++ serviceName ++ "'")]
    match w.stopServiceResults (numStopService tr1) serviceName with
    | some err =>
      (some (.wrap err ("Stopping service '" ++ serviceName ++ "'")),
        tr1 ++ [Call.clientStopService serviceName])
    | none => stopServices w rest (tr1 ++ [Call.clientStopService serviceName])

/-- The loop over the services of one poll, with `servicesToBeStopped` so far:
an error as soon as a service is errored, else the names still to be stopped. -/
def scanServices : List Service → List String → Except Err (List String)
  | [], servicesToBeStopped => .ok servicesToBeStopped
  | service :: rest, servicesToBeStopped =>
    let servicesToBeStopped :=
      if service.Monitored || service.Pending then servicesToBeStopped ++ [service.Name]
      else servicesToBeStopped
    if service.Errored then
      .error (.new ("Stopping service '" ++ service.Name ++ "' errored with message '"
                      ++ service.StatusMessage ++ "'"))
    else scanServices rest servicesToBeStopped

/-- The polling loop `for { ... }` of `Stop`; it has no bound of its own, so it
runs on fuel (one unit per iteration) and is `none` when the fuel is used up. -/
def stopLoop (w : World) : Nat → List String → Trace → Option (Option Err × Trace)
  | 0, _, _ => none
  | fuel + 1, servicesToBeStopped, tr =>
    if w.timerFired (numTimerSelect tr) then
      some (some (.new ("Timed out waiting for services '"
                          ++ String.intercalate ", " servicesToBeStopped
                          ++ "' to stop after 10 minutes")),
            tr ++ [Call.timerSelect])
    else
      let tr1 := tr ++ [Call.timerSelect]
      match w.statusResults (numStatus tr1) with
      | .error err => some (some (.wrap err "Getting monit status"), tr1 ++ [Call.clientStatus])
      | .ok status =>
        let tr2 := tr1 ++ [Call.clientStatus]
        match scanServices (status.ServicesInGroup "vcap") [] with
        | .error err => some (some err, tr2)
        | .ok servicesToBeStopped =>
          if servicesToBeStopped.length = 0 then some (none, tr2)
          else stopLoop w fuel servicesToBeStopped (tr2 ++ [Call.clockSleep (500 * Millisecond)])

/-- `monitJobSupervisor.Stop`, with the fuel of its polling loop. -/
def Stop (w : World) (fuel : Nat) (tr : Trace) : Option (Option Err × Trace) :=
  match w.servicesInGroupResults (numServicesInGroup tr) "vcap" with
  | .error err =>
    some (some (.wrap err "Getting vcap services"), tr ++ [Call.clientServicesInGroup "vcap"])
  | .ok serviceNames =>
    match stopServices w serviceNames (tr ++ [Call.clientServicesInGroup "vcap"]) with
    | (some err, tr1) => some (some err, tr1)
    | (none, tr1) => stopLoop w fuel [] (tr1 ++ [Call.newTimer (10 * Minute)])

/-! ## Reading the script -/

/-- The incarnation that `getIncarnation` takes from one answer of the status
query. -/
def incarnationOf : Except Err MonitStatus → Except Err Int
  | .error err => .error err
  | .ok monitStatus => monitStatus.GetIncarnation

/-- The names of the services that are monitored or pending, in order. -/
def pendingNames (services : List Service) : List String :=
  (services.filter (fun service => service.Monitored || service.Pending)).map Service.Name

/-- The first errored service of a list. -/
def firstErrored (services : List Service) : Option Service :=
  services.find? (fun service => service.Errored)

/-- The error `Stop` builds for an errored service. -/
def erroredErr (service : Service) : Err :=
  .new ("Stopping service '" ++ service.Name ++ "' errored with message '"
          ++ service.StatusMessage ++ "'")

/-! ## Sample worlds -/

/-- A status answer with the given incarnation and services of group `vcap`. -/
def sampleStatus (incarnation : Int) (services : List Service) : MonitStatus where
  ServicesInGroup := fun name => if name = "vcap" then services else []
  GetIncarnation := .ok incarnation

/-- A service with the given name, flags and status text. -/
def sampleService (name : String) (monitored pending errored : Bool) (status : String) :
    Service where
  Name := name
  Monitored := monitored
  Pending := pending
  Errored := errored
  Status := status
  StatusMessage := "message of " ++ name

/-- A world with services `a` and `b` in which every call succeeds and every
status query gives the answers of `statuses`. -/
def sampleWorld (statuses : Nat → Except Err MonitStatus) : World where
  servicesInGroupResults := fun _ _ => .ok ["a", "b"]
  startServiceResults := fun _ _ => none
  stopServiceResults := fun _ _ => none
  unmonitorServiceResults := fun _ _ => none
  statusResults := statuses
  runCommandResults := fun _ _ _ => { stdout := "", stderr := "", exitStatus := 0, err := none }
  timerFired := fun _ => false

/-- The status query fails. -/
def worldStatusFails : World :=
  sampleWorld (fun _ => .error (.new "connection refused"))

/-- An unmonitored service, then a starting one, then a stopped one. -/
def worldStarting : World :=
  sampleWorld (fun _ => .ok (sampleStatus 1
    [sampleService "a" false false false "unknown",
     sampleService "b" true false false "starting",
     sampleService "c" false false false "stopped"]))

/-- A running service and an unmonitored one. -/
def worldFailing : World :=
  sampleWorld (fun _ => .ok (sampleStatus 1
    [sampleService "a" true false false "running",
     sampleService "b" false false false "running"]))

/-- The number of incarnation checks in a trace of `Reload`: the status
queries made after the first reload command. -/
def numChecks (tr : Trace) : Nat :=
  numStatus (tr.dropWhile (fun c => !c.isRunCommand))

/-- A world whose status queries give the incarnations of `incarnation`. -/
def worldIncarnations (incarnation : Nat → Int) : World :=
  sampleWorld (fun k => .ok (sampleStatus (incarnation k) []))

/-- Incarnations 9, 9, then 3: the incarnation goes down. -/
def worldIncarnationDrops : World :=
  worldIncarnations (fun k => if k < 2 then 9 else 3)

/-- Incarnations 5, 5, 5, then 7. -/
def worldIncarnations5557 : World :=
  worldIncarnations (fun k => if k < 3 then 5 else 7)

/-- The incarnation is 5 at every query. -/
def worldIncarnationConstant : World :=
  worldIncarnations (fun _ => 5)

/-- As `worldIncarnationConstant`, but the reload command fails. -/
def worldReloadCommandFails : World :=
  { worldIncarnationConstant with
    runCommandResults := fun _ _ _ =>
      { stdout := "", stderr := "monit: not running", exitStatus := 1,
        err := some (.new "exit status 1") } }

/-- The services of group `vcap` in the answer to status query `k`. -/
def pollServices (w : World) (k : Nat) : List Service :=
  match w.statusResults k with
  | .ok status => status.ServicesInGroup "vcap"
  | .error _ => []

/-- Timer check `t` and status query `s` leave `Stop` waiting: the timer has not
fired, the query succeeds, no service of the group is errored and some service
is monitored or pending. -/
def Waiting (w : World) (t s : Nat) : Prop :=
  w.timerFired t = false ∧ (∃ status, w.statusResults s = .ok status)
    ∧ firstErrored (pollServices w s) = none ∧ pendingNames (pollServices w s) ≠ []

/-- A world whose status queries give the services of `services`. -/
def worldPolls (services : Nat → List Service) : World :=
  sampleWorld (fun k => .ok (sampleStatus 1 (services k)))

/-- Both services are errored at the first poll; `b` is also still monitored. -/
def worldTwoErrored : World :=
  worldPolls (fun _ =>
    [sampleService "a" false false true "failed",
     sampleService "b" true false true "failed"])

/-- At the first poll `a` is pending and `b` is errored, neither is monitored. -/
def worldPendingThenErrored : World :=
  worldPolls (fun _ =>
    [sampleService "a" false true false "unknown",
     sampleService "b" false false true "failed"])

/-- No service is monitored at the first poll, but `a` is still pending; at the
second poll nothing is left. -/
def worldUnmonitoredPending : World :=
  worldPolls (fun k =>
    if k = 0 then
      [sampleService "a" false true false "unknown",
       sampleService "b" false false false "unknown"]
    else
      [sampleService "a" false false false "unknown",
       sampleService "b" false false false "unknown"])

/-- No service is monitored at the first poll, but `b` is errored. -/
def worldUnmonitoredErrored : World :=
  worldPolls (fun _ =>
    [sampleService "a" false false false "unknown",
     sampleService "b" false false true "failed"])

/-- Nothing is monitored, pending or errored. -/
def worldAllStopped : World :=
  worldPolls (fun _ =>
    [sampleService "a" false false false "unknown",
     sampleService "b" false false false "unknown"])

/-- Service `a` stays monitored, `b` stays pending, `c` is stopped, and the
timer has fired at its third check. -/
def worldNeverStops : World :=
  { worldPolls (fun _ =>
      [sampleService "a" true false false "running",
       sampleService "c" false false false "unknown",
       sampleService "b" false true false "unknown"]) with
    timerFired := fun k => decide (2 ≤ k) }

/-! ## `Start` and `Unmonitor` -/

def Call.isStartService : Call → Bool
  | .clientStartService _ => true
  | _ => false

def Call.isUnmonitorService : Call → Bool
  | .clientUnmonitorService _ => true
  | _ => false

def numStartService (tr : Trace) : Nat := tr.countP Call.isStartService

def numUnmonitorService (tr : Trace) : Nat := tr.countP Call.isUnmonitorService

/-- The loop of `Start` over `services`. -/
def startServices (w : World) : List String → Trace → Option Err × Trace
  | [], tr => (none, tr)
  | service :: rest, tr =>
    let tr1 := tr ++ [Call.logDebug monitJobSupervisorLogTag ("Starting service " ++ service)]
    match w.startServiceResults (numStartService tr1) service with
    | some err =>
      (some (.wrap err ("Starting service " ++ service)),
        tr1 ++ [Call.clientStartService service])
    | none => startServices w rest (tr1 ++ [Call.clientStartService service])

/-- `monitJobSupervisor.Start`. -/
def Start (w : World) (tr : Trace) : Option Err × Trace :=
  match w.servicesInGroupResults (numServicesInGroup tr) "vcap" with
  | .error err =>
    (some (.wrap err "Getting vcap services"), tr ++ [Call.clientServicesInGroup "vcap"])
  | .ok services => startServices w services (tr ++ [Call.clientServicesInGroup "vcap"])

/-- The loop of `Unmonitor` over `services`. -/
def unmonitorServices (w : World) : List String → Trace → Option Err × Trace
  | [], tr => (none, tr)
  | service :: rest, tr =>
    let tr1 := tr ++ [Call.logDebug monitJobSupervisorLogTag ("Unmonitoring service " ++ service)]
    match w.unmonitorServiceResults (numUnmonitorService tr1) service with
    | some err =>
      (some (.wrap err ("Unmonitoring service " ++ service)),
        tr1 ++ [Call.clientUnmonitorService service])
    | none => unmonitorServices w rest (tr1 ++ [Call.clientUnmonitorService service])

/-- `monitJobSupervisor.Unmonitor`. -/
def Unmonitor (w : World) (tr : Trace) : Option Err × Trace :=
  match w.servicesInGroupResults (numServicesInGroup tr) "vcap" with
  | .error err =>
    (some (.wrap err "Getting vcap services"), tr ++ [Call.clientServicesInGroup "vcap"])
  | .ok services => unmonitorServices w services (tr ++ [Call.clientServicesInGroup "vcap"])

/-- The services a trace has start calls for, in call order. -/
def startedServices (tr : Trace) : List String :=
  tr.filterMap (fun c => match c with
    | .clientStartService name => some name
    | _ => none)

/-- The services a trace has unmonitor calls for, in call order. -/
def unmonitoredServices (tr : Trace) : List String :=
  tr.filterMap (fun c => match c with
    | .clientUnmonitorService name => some name
    | _ => none)

/-! ## `AddJob` -/

/-- The file system of the supervisor, as scripted answers: the `k`-th call of
`ReadFile` and of `WriteFile`.  File contents are lists of bytes. -/
structure FileSystem where
  readFileResults : Nat → String → Except Err (List Nat)
  writeFileResults : Nat → String → List Nat → Option Err

def Call.isReadFile : Call → Bool
  | .fsReadFile _ => true
  | _ => false

def Call.isWriteFile : Call → Bool
  | .fsWriteFile _ _ => true
  | _ => false

def numReadFile (tr : Trace) : Nat := tr.countP Call.isReadFile

def numWriteFile (tr : Trace) : Nat := tr.countP Call.isWriteFile

/-- Padding of `fmt` for a `0` flag: zeros in front, up to the width. -/
def zeroPad (width : Nat) (digits : List Char) : List Char :=
  List.replicate (width - digits.length) '0' ++ digits

/-- The verb `%04d` of `fmt.Sprintf` on an `int`: the decimal digits, padded
with zeros to a width of 4; a minus sign comes first and counts in the width. -/
def sprintf04d (n : Int) : String :=
  if n < 0 then String.mk ('-' :: zeroPad 3 (Nat.toDigits 10 n.natAbs))
  else String.mk (zeroPad 4 (Nat.toDigits 10 n.natAbs))

/-- The `targetFilename` of `AddJob`:
`fmt.Sprintf("%04d_%s.monitrc", jobIndex, jobName)`. -/
def targetFilename (jobIndex : Int) (jobName : String) : String :=
  sprintf04d jobIndex ++ "_" ++ jobName ++ ".monitrc"

/-- `monitJobSupervisor.AddJob`.  `filepathJoin` is `filepath.Join` of the Go
library and `monitJobsDir` is what `dirProvider.MonitJobsDir()` returns. -/
def AddJob (fs : FileSystem) (filepathJoin : String → String → String) (monitJobsDir : String)
    (jobName : String) (jobIndex : Int) (configPath : String) (tr : Trace) :
    Option Err × Trace :=
  let targetConfigPath := filepathJoin monitJobsDir (targetFilename jobIndex jobName)
  match fs.readFileResults (numReadFile tr) configPath with
  | .error err =>
    (some (.wrap err "Reading job config from file"), tr ++ [Call.fsReadFile configPath])
  | .ok configContent =>
    let tr1 := tr ++ [Call.fsReadFile configPath]
    match fs.writeFileResults (numWriteFile tr1) targetConfigPath configContent with
    | some err =>
      (some (.wrap err "Writing to job config file"),
        tr1 ++ [Call.fsWriteFile targetConfigPath configContent])
    | none => (none, tr1 ++ [Call.fsWriteFile targetConfigPath configContent])

/-- The services `a`, `b`, `c`; the second start call and the second unmonitor
call fail. -/
def worldSecondCallFails : World :=
  { sampleWorld (fun _ => .error (.new "not used")) with
    servicesInGroupResults := fun _ _ => .ok ["a", "b", "c"]
    startServiceResults := fun k _ => if k = 1 then some (.new "start failed") else none
    unmonitorServiceResults := fun k _ =>
      if k = 1 then some (.new "unmonitor failed") else none }

/-- The config file holds the bytes 1, 2, 3 and every write succeeds. -/
def fsSample : FileSystem where
  readFileResults := fun _ path =>
    if path = "/jobs/web/monit" then .ok [1, 2, 3] else .error (.new "no such file")
  writeFileResults := fun _ _ _ => none

/-- The number that a list of decimal digits denotes. -/
def decimalValue (digits : List Char) : Nat :=
  digits.foldl (fun n c => 10 * n + (c.toNat - '0'.toNat)) 0

/-- A stand-in for `filepath.Join` on plain names. -/
def joinSample (dir file : String) : String := dir ++ "/" ++ file

end JobSupervisor

/-!
# Disk layout manager (`platform/linux_platform.go`)

The platform file itself is not among the sources; its operations are modelled
from the specification, with the tests of `platform/linux_platform_test.go` as
the record of names and call shapes.  Collaborators answer as functions of
their arguments, and every operation returns its error (`none` is `nil`)
together with the list of collaborator calls it made, in order.
-/

namespace Platform

open JobSupervisor (Err)

/-! ## Data model -/

/-- The type tag of a partition. -/
inductive PartitionType where
  | swap
  | linux
deriving DecidableEq, Repr

/-- A partition of a plan: a size in bytes (an unsigned 64-bit value) and a
type tag (the field `Type` of the record). -/
structure Partition where
  SizeInBytes : Nat
  Kind : PartitionType
deriving DecidableEq, Repr

/-- The file system a partition is formatted with. -/
inductive FileSystemType where
  | swap
  | ext4
  | xfs
deriving DecidableEq, Repr

/-- The `DiskSettings` record. -/
structure DiskSettings where
  ID : String
  Path : String
  FileSystemType : String
  MountOptions : List String
  Partitioner : String
deriving DecidableEq, Repr

/-- The options of the platform that the disk operations read. -/
structure LinuxOptions where
  UsePreformattedPersistentDisk : Bool
  CreatePartitionIfNoEphemeralDisk : Bool
  SkipDiskSetup : Bool
deriving DecidableEq, Repr

/-- The fixed paths the disk operations use. -/
structure Dirs where
  dataDir : String
  storeMigrationDir : String
  managedDiskSettingsPath : String
deriving DecidableEq, Repr

/-- The answer of device path resolution: `(realPath, timedOut, error)`. -/
structure ResolveResult where
  realPath : String
  timedOut : Bool
  err : Option Err
deriving DecidableEq, Repr

/-- The collaborator calls a disk operation makes. -/
inductive DiskCall where
  | resolve (settings : DiskSettings)
  | mkdirAll (path : String)
  | rootDevice
  | deviceSize (device : String)
  | memStats
  | partition (device : String) (partitioner : String) (plan : List Partition)
  | format (partitionPath : String) (fsType : FileSystemType)
  | mount (partitionPath : String) (mountPoint : String) (options : List String)
  | swapOn (partitionPath : String)
  | unmount (target : String)
  | remount (mountPoint : String)
  | isMounted (target : String)
  | isMountPoint (path : String)
  | writeFile (path : String) (content : String)
deriving DecidableEq, Repr

/-- The collaborators of the disk operations.  `rootDevice` stands for the
search of the root mount: the whole-disk path of the root device and the index
of the root partition.  `minRootEphemeralSpace` is the fixed minimum of free
space on the root disk. -/
structure DiskEnv where
  resolve : DiskSettings → ResolveResult
  mkdirAll : String → Option Err
  rootDevice : Except Err (String × Nat)
  deviceSize : String → Except Err Nat
  memTotal : Except Err Nat
  minRootEphemeralSpace : Nat
  partition : String → String → List Partition → Option Err
  format : String → FileSystemType → Option Err
  mount : String → String → List String → Option Err
  swapOn : String → Option Err
  unmount : String → Bool × Option Err
  isMounted : String → Bool × Option Err
  isMountPoint : String → String × Bool × Option Err
  writeFile : String → String → Option Err

/-! ## Device classification and partition paths -/

/-- The class of a device path. -/
inductive DeviceClass where
  | generic
  | nvme
  | mapper
deriving DecidableEq, Repr

/-- Whether `s` starts with `pre`, character by character. -/
def startsWith (pre s : String) : Bool :=
  pre.toList.isPrefixOf s.toList

/-- Modelled from the spec: the classification of a device path in
`linux_platform.go`, "prefix `/dev/nvme` → `nvme`; prefix `/dev/mapper/` →
`mapper`; otherwise `generic`". -/
def classifyDevice (path : String) : DeviceClass :=
  if startsWith "/dev/nvme" path then .nvme
  else if startsWith "/dev/mapper/" path then .mapper
  else .generic

/-- Modelled from the spec: `partitionPath` of `linux_platform.go`, "`nvme` →
`{path}p{N}`; `mapper` → `{path}-part{N}`; `generic` → `{path}{N}`". -/
def partitionPath (path : String) (n : Nat) : String :=
  match classifyDevice path with
  | .nvme => path ++ "p" ++ toString n
  | .mapper => path ++ "-part" ++ toString n
  | .generic => path ++ toString n

/-! ## Running the steps of an operation -/

/-- One fallible step: the call is recorded, and a failure is wrapped with the
name of the stage. -/
def perform (answer : Option Err) (stage : String) (call : DiskCall)
    (calls : List DiskCall) : Option Err × List DiskCall :=
  match answer with
  | some err => (some (.wrap err stage), calls ++ [call])
  | none => (none, calls ++ [call])

/-- Sequencing: a failed step aborts the operation, no later step runs. -/
def andThen (res : Option Err × List DiskCall)
    (next : List DiskCall → Option Err × List DiskCall) : Option Err × List DiskCall :=
  match res with
  | (some err, calls) => (some err, calls)
  | (none, calls) => next calls

/-! ## Ephemeral disk -/

/-- The number of values of an unsigned 64-bit size. -/
def uint64Size : Nat := 2 ^ 64

/-- Modelled from the spec: the ephemeral sizing of `linux_platform.go`.  "If
desired swap size is provided and non-zero: plan = [swap(desired),
linux(total-desired)].  If desired swap size is provided and zero: plan =
[linux(total)].  If not provided: read total system memory M and device size D.
If D > 2M: plan = [swap(M), linux(D-M)]; else plan = [swap(D/2), linux(D/2)]
(integer division)".  The sizes are unsigned 64-bit values, so the subtraction
`total - desired` wraps around. -/
def ephemeralPlan (total mem : Nat) (desiredSwapSizeInBytes : Option Nat) : List Partition :=
  match desiredSwapSizeInBytes with
  | some desired =>
    if desired = 0 then [{ SizeInBytes := total, Kind := .linux }]
    else
      [{ SizeInBytes := desired, Kind := .swap },
       { SizeInBytes := (total + uint64Size - desired) % uint64Size, Kind := .linux }]
  | none =>
    if total > 2 * mem then
      [{ SizeInBytes := mem, Kind := .swap }, { SizeInBytes := total - mem, Kind := .linux }]
    else
      [{ SizeInBytes := total / 2, Kind := .swap }, { SizeInBytes := total / 2, Kind := .linux }]

/-- The total size of a plan, as a natural number. -/
def planSize (plan : List Partition) : Nat :=
  (plan.map Partition.SizeInBytes).sum

/-- Modelled from the spec: the stages of ephemeral setup after the plan is
known.  "Apply plan to the device via partitioning; format the swap partition
as swap filesystem and the data partition as ext4; mount the data partition at
the fixed ephemeral data directory; activate the swap partition."  The
partitions of the plan follow the `start` partitions the device already has. -/
def applyEphemeralPlan (env : DiskEnv) (dirs : Dirs) (device : String) (start : Nat)
    (plan : List Partition) (calls : List DiskCall) : Option Err × List DiskCall :=
  andThen (perform (env.partition device "" plan)
      ("Partitioning ephemeral disk '" ++ device ++ "'")
      (.partition device "" plan) calls) fun calls =>
  match plan with
  | [_, _] =>
    let swapPartitionPath := partitionPath device (start + 1)
    let dataPartitionPath := partitionPath device (start + 2)
    andThen (perform (env.format swapPartitionPath .swap) "Formatting swap"
      (.format swapPartitionPath .swap) calls) fun calls =>
    andThen (perform (env.format dataPartitionPath .ext4) "Formatting data partition with ext4"
      (.format dataPartitionPath .ext4) calls) fun calls =>
    andThen (perform (env.mount dataPartitionPath dirs.dataDir []) "Mounting data partition"
      (.mount dataPartitionPath dirs.dataDir []) calls) fun calls =>
    perform (env.swapOn swapPartitionPath) "Mounting swap" (.swapOn swapPartitionPath) calls
  | _ =>
    let dataPartitionPath := partitionPath device (start + 1)
    andThen (perform (env.format dataPartitionPath .ext4) "Formatting data partition with ext4"
      (.format dataPartitionPath .ext4) calls) fun calls =>
    perform (env.mount dataPartitionPath dirs.dataDir []) "Mounting data partition"
      (.mount dataPartitionPath dirs.dataDir []) calls

/-- Modelled from the spec: the sizing stage of ephemeral setup on `device`,
whose size (for the root disk, its remaining free space) is `total`; the memory
is read only when no swap size is given. -/
def partitionEphemeralDisk (env : DiskEnv) (dirs : Dirs) (device : String) (start : Nat)
    (total : Nat) (desiredSwapSizeInBytes : Option Nat) (calls : List DiskCall) :
    Option Err × List DiskCall :=
  match desiredSwapSizeInBytes with
  | some desired =>
    applyEphemeralPlan env dirs device start (ephemeralPlan total 0 (some desired)) calls
  | none =>
    match env.memTotal with
    | .error err => (some (.wrap err "Calculating partition sizes"), calls ++ [.memStats])
    | .ok mem =>
      applyEphemeralPlan env dirs device start (ephemeralPlan total mem none)
        (calls ++ [.memStats])

/-- Modelled from the spec: `SetupEphemeralDiskWithPath` of `linux_platform.go`
(sections "Ephemeral disk sizing", "Ephemeral disk absent — root-disk fallback"
and "Idempotent re-invocation"; the scrub policy is left out).  The data
directory is ensured first; the skip flag ends the operation there.  With a
device path the plan is applied to that device; without one, and when the
configuration permits it, to the root disk after its root partition, if the
remaining space exceeds the minimum. -/
def SetupEphemeralDiskWithPath (env : DiskEnv) (dirs : Dirs) (opts : LinuxOptions)
    (devicePath : String) (desiredSwapSizeInBytes : Option Nat) :
    Option Err × List DiskCall :=
  andThen (perform (env.mkdirAll dirs.dataDir) "Creating data dir"
    (.mkdirAll dirs.dataDir) []) fun calls =>
  if opts.SkipDiskSetup then (none, calls)
  else if devicePath = "" then
    if opts.CreatePartitionIfNoEphemeralDisk then
      match env.rootDevice with
      | .error err =>
        (some (.wrap err "Finding root partition device"), calls ++ [.rootDevice])
      | .ok (rootDevicePath, rootPartitionIndex) =>
        match env.deviceSize rootDevicePath with
        | .error err =>
          (some (.wrap err "Getting root device remaining size"),
            calls ++ [.rootDevice, .deviceSize rootDevicePath])
        | .ok remaining =>
          if remaining > env.minRootEphemeralSpace then
            partitionEphemeralDisk env dirs rootDevicePath rootPartitionIndex remaining
              desiredSwapSizeInBytes (calls ++ [.rootDevice, .deviceSize rootDevicePath])
          else
            (some (.new "Insufficient remaining disk space for ephemeral partition"),
              calls ++ [.rootDevice, .deviceSize rootDevicePath])
    else (some (.new "cannot use root partition as ephemeral disk"), calls)
  else
    match env.deviceSize devicePath with
    | .error err =>
      (some (.wrap err "Getting device size"), calls ++ [.deviceSize devicePath])
    | .ok total =>
      partitionEphemeralDisk env dirs devicePath 0 total desiredSwapSizeInBytes
        (calls ++ [.deviceSize devicePath])

/-! ## Persistent disk -/

/-- Modelled from the spec: the file system of a persistent disk, "`ext4`
default; `xfs` accepted; any other value is rejected". -/
def persistentFileSystem (requested : String) : Option FileSystemType :=
  if requested = "" then some .ext4
  else if requested = "ext4" then some .ext4
  else if requested = "xfs" then some .xfs
  else none

/-- Modelled from the spec: the target of the persistent disk operations, "the
single data-partition path using the device-class suffix rule (index 1), except
when preformatted-disk mode is configured, in which case the whole resolved
device path is used directly". -/
def persistentTarget (opts : LinuxOptions) (realPath : String) : String :=
  if opts.UsePreformattedPersistentDisk then realPath else partitionPath realPath 1

/-- Modelled from the spec: `MountPersistentDisk` of `linux_platform.go`
(section "Persistent disk mount").  A mount point that already holds the target
is left alone; one that holds another device sends the new target to the
migration-target directory; otherwise the mount point is created, the disk is
partitioned and formatted unless preformatted, mounted with its options, and
the managed-disk record is written. -/
def MountPersistentDisk (env : DiskEnv) (dirs : Dirs) (opts : LinuxOptions)
    (diskSettings : DiskSettings) (mountPoint : String) : Option Err × List DiskCall :=
  let resolved := env.resolve diskSettings
  match resolved.err with
  | some err => (some (.wrap err "Getting real device path"), [.resolve diskSettings])
  | none =>
    let realPath := resolved.realPath
    let target := persistentTarget opts realPath
    let calls := [DiskCall.resolve diskSettings, DiskCall.isMountPoint mountPoint]
    match env.isMountPoint mountPoint with
    | (_, _, some err) => (some (.wrap err "Checking mount point"), calls)
    | (device, true, none) =>
      if device = target then (none, calls)
      else
        andThen (perform (env.mkdirAll dirs.storeMigrationDir) "Creating directory"
          (.mkdirAll dirs.storeMigrationDir) calls) fun calls =>
        perform (env.mount target dirs.storeMigrationDir diskSettings.MountOptions)
          "Mounting partition"
          (.mount target dirs.storeMigrationDir diskSettings.MountOptions) calls
    | (_, false, none) =>
      andThen (perform (env.mkdirAll mountPoint) "Creating directory"
        (.mkdirAll mountPoint) calls) fun calls =>
      andThen
        (if opts.UsePreformattedPersistentDisk then (none, calls)
         else
          andThen (perform
            (env.partition realPath diskSettings.Partitioner
              [{ SizeInBytes := 0, Kind := .linux }])
            "Partitioning disk"
            (.partition realPath diskSettings.Partitioner
              [{ SizeInBytes := 0, Kind := .linux }]) calls) fun calls =>
          match persistentFileSystem diskSettings.FileSystemType with
          | none => (some (.new "unsupported filesystem"), calls)
          | some fsType =>
            perform (env.format target fsType) "Formatting partition"
              (.format target fsType) calls) fun calls =>
      andThen (perform (env.mount target mountPoint diskSettings.MountOptions)
        "Mounting partition" (.mount target mountPoint diskSettings.MountOptions) calls)
        fun calls =>
      perform (env.writeFile dirs.managedDiskSettingsPath diskSettings.ID)
        "Writing managed disk settings"
        (.writeFile dirs.managedDiskSettingsPath diskSettings.ID) calls

/-- Modelled from the spec: `UnmountPersistentDisk` of `linux_platform.go`
(section "Persistent disk unmount"): a resolution timeout is "not mounted, no
error"; otherwise the unmount primitive runs on the target and its result is
returned unchanged. -/
def UnmountPersistentDisk (env : DiskEnv) (opts : LinuxOptions) (diskSettings : DiskSettings) :
    (Bool × Option Err) × List DiskCall :=
  let resolved := env.resolve diskSettings
  if resolved.timedOut then ((false, none), [.resolve diskSettings])
  else
    match resolved.err with
    | some err =>
      ((false, some (.wrap err "Getting real device path")), [.resolve diskSettings])
    | none =>
      let target := persistentTarget opts resolved.realPath
      (env.unmount target, [.resolve diskSettings, .unmount target])

/-- Modelled from the spec: `IsPersistentDiskMounted` of `linux_platform.go`,
the is-mounted check of the same target, as its tests describe it: a resolution
timeout is "not mounted, no error"; otherwise the is-mounted primitive runs on
the target. -/
def IsPersistentDiskMounted (env : DiskEnv) (opts : LinuxOptions)
    (diskSettings : DiskSettings) : (Bool × Option Err) × List DiskCall :=
  let resolved := env.resolve diskSettings
  if resolved.timedOut then ((false, none), [.resolve diskSettings])
  else
    match resolved.err with
    | some err =>
      ((false, some (.wrap err "Getting real device path")), [.resolve diskSettings])
    | none =>
      let target := persistentTarget opts resolved.realPath
      (env.isMounted target, [.resolve diskSettings, .isMounted target])

/-! ## Sample environments -/

/-- The directories of the tests. -/
def sampleDirs : Dirs where
  dataDir := "/fake-dir/data"
  storeMigrationDir := "/fake-dir/store_migration_target"
  managedDiskSettingsPath := "/fake-dir/bosh/managed_disk_settings.json"

/-- No option is set. -/
def sampleOptions : LinuxOptions where
  UsePreformattedPersistentDisk := false
  CreatePartitionIfNoEphemeralDisk := false
  SkipDiskSetup := false

/-- The disk settings of the tests. -/
def sampleDisk : DiskSettings where
  ID := "fake-unique-id"
  Path := "fake-volume-id"
  FileSystemType := ""
  MountOptions := ["mntOpt1", "mntOpt2"]
  Partitioner := ""

/-- Every collaborator succeeds: the disk resolves to `realPath`, the device
has `size` bytes, the memory has `mem` bytes, and `mounted` is what the mount
point check answers. -/
def sampleEnv (realPath : String) (size mem : Nat) (mounted : String × Bool) : DiskEnv where
  resolve := fun _ => { realPath := realPath, timedOut := false, err := none }
  mkdirAll := fun _ => none
  rootDevice := .ok ("/dev/vda", 1)
  deviceSize := fun _ => .ok size
  memTotal := .ok mem
  minRootEphemeralSpace := 1024 * 1024 * 1024 - 1
  partition := fun _ _ _ => none
  format := fun _ _ => none
  mount := fun _ _ _ => none
  swapOn := fun _ => none
  unmount := fun _ => (true, none)
  isMounted := fun _ => (true, none)
  isMountPoint := fun _ => (mounted.1, mounted.2, none)
  writeFile := fun _ _ => none

/-! ## Reading the calls -/

/-- The partition calls of a list of calls: device, partitioner, plan. -/
def partitionCalls (calls : List DiskCall) : List (String × String × List Partition) :=
  calls.filterMap (fun c => match c with
    | .partition device partitioner plan => some (device, partitioner, plan)
    | _ => none)

/-- The format calls of a list of calls: partition path and file system. -/
def formatCalls (calls : List DiskCall) : List (String × FileSystemType) :=
  calls.filterMap (fun c => match c with
    | .format path fsType => some (path, fsType)
    | _ => none)

/-- The mount calls of a list of calls: partition path, mount point, options. -/
def mountCalls (calls : List DiskCall) : List (String × String × List String) :=
  calls.filterMap (fun c => match c with
    | .mount path mountPoint options => some (path, mountPoint, options)
    | _ => none)

/-- The swap-on calls of a list of calls. -/
def swapOnCalls (calls : List DiskCall) : List String :=
  calls.filterMap (fun c => match c with
    | .swapOn path => some path
    | _ => none)

/-- The targets of the unmount and remount calls of a list of calls. -/
def unmountOrRemountCalls (calls : List DiskCall) : List String :=
  calls.filterMap (fun c => match c with
    | .unmount target => some target
    | .remount mountPoint => some mountPoint
    | _ => none)

/-- The targets of the is-mounted calls of a list of calls. -/
def isMountedCalls (calls : List DiskCall) : List String :=
  calls.filterMap (fun c => match c with
    | .isMounted target => some target
    | _ => none)

/-- The targets of the unmount calls of a list of calls. -/
def unmountCalls (calls : List DiskCall) : List String :=
  calls.filterMap (fun c => match c with
    | .unmount target => some target
    | _ => none)

/-! ## Commands -/

/-- The collaborators of the operations that run commands: the device path
resolver, and the command runner, which answers a command line (the name of the
command and its arguments). -/
structure CmdEnv where
  resolve : DiskSettings → ResolveResult
  runCommand : List String → JobSupervisor.CmdResult

/-- Whether `sub` occurs in a list of characters. -/
def hasInfix (sub : List Char) : List Char → Bool
  | [] => sub.isEmpty
  | c :: rest => sub.isPrefixOf (c :: rest) || hasInfix sub rest

/-- `strings.Contains` of the Go library. -/
def stringsContains (s substr : String) : Bool :=
  hasInfix substr.toList s.toList

/-! ## Raw ephemeral disks -/

/-- The probe of the partition table of a device. -/
def probeCommand (realPath : String) : List String :=
  ["parted", "-s", realPath, "p"]

/-- The labeling command for the disk at position `i`: a GPT label and one
partition named `raw-ephemeral-i` from 0% to 100%. -/
def labelCommand (realPath : String) (i : Nat) : List String :=
  ["parted", "-s", realPath, "mklabel", "gpt", "unit", "%", "mkpart",
    "raw-ephemeral-" ++ toString i, "0", "100"]

/-- Whether the probe printed "unrecognised disk label" on stdout or stderr. -/
def printsUnrecognisedLabel (probe : JobSupervisor.CmdResult) : Bool :=
  stringsContains probe.stdout "unrecognised disk label"
    || stringsContains probe.stderr "unrecognised disk label"

/-- The answer of the probe of a disk. -/
def probeOf (env : CmdEnv) (device : DiskSettings) : JobSupervisor.CmdResult :=
  env.runCommand (probeCommand (env.resolve device).realPath)

/-- Modelled from the spec: the error of a probe that counts, "an
`unrecognised disk label` signal (in either stream) is treated as no label yet,
not a hard error". -/
def probeFailure (probe : JobSupervisor.CmdResult) : Option Err :=
  if printsUnrecognisedLabel probe then none else probe.err

/-- The error of the labeling command of the disk at position `i`, as
`SetupRawEphemeralDisks` returns it: wrapped with the name of the operation
(the spec fixes that a stage wraps its error, not the words of the name). -/
def labelError (env : CmdEnv) (realPath : String) (i : Nat) : Option Err :=
  (env.runCommand (labelCommand realPath i)).err.map
    (fun err => Err.wrap err "Setting up raw ephemeral disks")

/-- Modelled from the spec: the body of the loop of `SetupRawEphemeralDisks` of
`linux_platform.go` (section "Raw ephemeral disk labeling") for the disk at
position `i`, with the commands it runs: resolve the device, probe its partition
table; a failed probe is an error unless it printed "unrecognised disk label";
"if the probe already shows an existing partition, skip labeling for that
disk"; any other disk is labeled.  The spec does not say which probe output
shows an existing partition: `showsPartition` is that rule, given the answer of
the probe and the position of the disk. -/
def setupRawDisk (showsPartition : JobSupervisor.CmdResult → Nat → Bool) (env : CmdEnv)
    (i : Nat) (device : DiskSettings) : Option Err × List (List String) :=
  let resolved := env.resolve device
  match resolved.err with
  | some err => (some (.wrap err "Getting real device path"), [])
  | none =>
    let probe := env.runCommand (probeCommand resolved.realPath)
    match probeFailure probe with
    | some err =>
      (some (.wrap err "Setting up raw ephemeral disks"), [probeCommand resolved.realPath])
    | none =>
      if showsPartition probe i then (none, [probeCommand resolved.realPath])
      else
        (labelError env resolved.realPath i,
          [probeCommand resolved.realPath, labelCommand resolved.realPath i])

/-- The loop of `SetupRawEphemeralDisks` over the disks from position `i` on; it
stops at the first error. -/
def setupRawDisks (showsPartition : JobSupervisor.CmdResult → Nat → Bool) (env : CmdEnv) :
    Nat → List DiskSettings → Option Err × List (List String)
  | _, [] => (none, [])
  | i, device :: rest =>
    match setupRawDisk showsPartition env i device with
    | (some err, cmds) => (some err, cmds)
    | (none, cmds) =>
      ((setupRawDisks showsPartition env (i + 1) rest).1,
        cmds ++ (setupRawDisks showsPartition env (i + 1) rest).2)

/-- Modelled from the spec: `SetupRawEphemeralDisks` of `linux_platform.go`,
with the commands it runs (the `RunCommands` of the tests); nothing is done when
`SkipDiskSetup` is set. -/
def SetupRawEphemeralDisks (showsPartition : JobSupervisor.CmdResult → Nat → Bool)
    (env : CmdEnv) (opts : LinuxOptions) (devices : List DiskSettings) :
    Option Err × List (List String) :=
  if opts.SkipDiskSetup then (none, []) else setupRawDisks showsPartition env 0 devices

/-- A rule for "the probe shows an existing partition" that passes the tests of
`SetupRawEphemeralDisks`: the probe prints a GPT partition table. -/
def gptShown (probe : JobSupervisor.CmdResult) (_ : Nat) : Bool :=
  stringsContains probe.stdout "Partition Table: gpt"

/-- The lines of a text. -/
def splitLines (cs : List Char) : List (List Char) :=
  cs.foldr (fun c acc =>
    if c = '\n' then [] :: acc
    else match acc with
      | [] => [[c]]
      | line :: rest => (c :: line) :: rest) [[]]

/-- A row of the table that `parted` prints whose field `Number` holds a
number. -/
def isNumberedRow (line : List Char) : Bool :=
  match line.dropWhile (fun c => c = ' ') with
  | c :: _ => c.isDigit
  | [] => false

/-- The probe output shows a numbered partition: the table has a numbered
row. -/
def showsNumberedPartition (stdout : String) : Bool :=
  (splitLines stdout.toList).any isNumberedRow

/-! ## Mountability -/

/-- A line of the dump that `sfdisk -d` prints for a partition. -/
def isPartitionEntry (line : List Char) : Bool :=
  hasInfix " : start=".toList line

/-- Modelled from the spec: `IsPersistentDiskMountable` of `linux_platform.go`
(section "Mountability check"), with the commands it runs: resolve the device,
then probe the partition table with `sfdisk -d`; "presence of at least one
partition entry" is mountable, "no recognized partition table" is not.  For a
failed resolution the model follows the test "when the specified drive does not
exist" of `linux_platform_test.go`, where a resolution that timed out returns
an error: every resolution error is returned, wrapped (the spec and the tests
do not fix the words of the stage name, and no theorem depends on them). -/
def IsPersistentDiskMountable (env : CmdEnv) (diskSettings : DiskSettings) :
    (Bool × Option Err) × List (List String) :=
  let resolved := env.resolve diskSettings
  match resolved.err with
  | some err => ((false, some (.wrap err ("Validating path: " ++ diskSettings.Path))), [])
  | none =>
    let probe := env.runCommand ["sfdisk", "-d", resolved.realPath]
    if stringsContains probe.stderr "unrecognized partition table type" then
      ((false, none), [["sfdisk", "-d", resolved.realPath]])
    else
      (((splitLines probe.stdout.toList).any isPartitionEntry, none),
        [["sfdisk", "-d", resolved.realPath]])

/-! ## The managed disk record -/

/-- The writes of a list of calls to the file at `path`, in call order. -/
def writesTo (path : String) (calls : List DiskCall) : List String :=
  calls.filterMap (fun c => match c with
    | .writeFile p content => if p = path then some content else none
    | _ => none)

/-- Modelled from the spec: reading a file back after the calls, "writing a
ManagedDiskRecord for disk id X then reading it back yields X": the file holds
what the last write stored in it. -/
def readFileString (calls : List DiskCall) (path : String) : Option String :=
  (writesTo path calls).getLast?

/-! ## Sample commands -/

/-- A disk with the given path. -/
def rawDisk (path : String) : DiskSettings where
  ID := ""
  Path := path
  FileSystemType := ""
  MountOptions := []
  Partitioner := ""

/-- The resolver of the tests of `SetupRawEphemeralDisks`: a disk resolves to
its path. -/
def resolveToPath (settings : DiskSettings) : ResolveResult where
  realPath := settings.Path
  timedOut := false
  err := none

/-- A command that succeeds and prints nothing. -/
def emptyResult : JobSupervisor.CmdResult where
  stdout := ""
  stderr := ""
  exitStatus := 0
  err := none

/-- What `parted` prints for a disk with a file system and no partition table,
in the test "labels the raw ephemeral paths for unpartitioned disks". -/
def loopTable (device : String) : String :=
  "Model: Xen Virtual Block Device (xvd)\n"
    ++ "Disk " ++ device ++ ": 40.3GB\n"
    ++ "Sector size (logical/physical): 512B/512B\n"
    ++ "Partition Table: loop\n"
    ++ "\n"
    ++ "Number  Start  End     Size    File system  Flags\n"
    ++ "1      0.00B  40.3GB  40.3GB  ext3\n"

/-- What `parted` prints for a labeled disk, in the tests "does not label the
raw ephemeral paths for already partitioned disks" and "does not give an error
if parted prints 'unrecognised disk label' to stderr and returns an error". -/
def gptTable (device name : String) : String :=
  "Model: Xen Virtual Block Device (xvd)\n"
    ++ "Disk " ++ device ++ ": 40.3GB\n"
    ++ "Sector size (logical/physical): 512B/512B\n"
    ++ "Partition Table: gpt\n"
    ++ "\n"
    ++ "Number  Start   End     Size    File system  Name             Flags\n"
    ++ " 1      1049kB  40.3GB  40.3GB               " ++ name ++ "\n"

/-- What `parted` prints on stdout in the test "does not give an error if
parted prints 'unrecognised disk label' to stdout and returns an error". -/
def gptTableUnrecognised : String :=
  "Model: Xen Virtual Block Device (xvd)\n"
    ++ "Error: /dev/xvda: unrecognised disk label\n"
    ++ "Disk /dev/xvda: 40.3GB\n"
    ++ "Sector size (logical/physical): 512B/512B\n"
    ++ "Partition Table: gpt\n"
    ++ "\n"
    ++ "Number  Start   End     Size    File system  Name             Flags\n"
    ++ " 1      1049kB  40.3GB  40.3GB               raw-ephemeral-0\n"

/-- The commands of the test "labels the raw ephemeral paths for unpartitioned
disks": both probes succeed and print a `loop` table with one numbered
partition. -/
def envUnpartitioned : CmdEnv where
  resolve := resolveToPath
  runCommand := fun cmd =>
    if cmd = probeCommand "/dev/xvdb" then { emptyResult with stdout := loopTable "/dev/xvdb" }
    else if cmd = probeCommand "/dev/xvdc" then
      { emptyResult with stdout := loopTable "/dev/xvdc" }
    else emptyResult

/-- The commands of the test "does not give an error if parted prints
'unrecognised disk label' to stdout and returns an error". -/
def envUnrecognisedOnStdout : CmdEnv where
  resolve := resolveToPath
  runCommand := fun cmd =>
    if cmd = probeCommand "/dev/xvda" then
      { stdout := gptTableUnrecognised, stderr := "", exitStatus := 0,
        err := some (.new "fake-parted-error") }
    else emptyResult

/-- The commands of the test "does not give an error if parted prints
'unrecognised disk label' to stderr and returns an error". -/
def envUnrecognisedOnStderr : CmdEnv where
  resolve := resolveToPath
  runCommand := fun cmd =>
    if cmd = probeCommand "/dev/xvda" then
      { stdout := gptTable "/dev/xvda" "raw-ephemeral-0",
        stderr := "Error: /dev/xvda: unrecognised disk label", exitStatus := 0,
        err := some (.new "fake-parted-error") }
    else emptyResult

/-- A disk without a label: the probe fails and prints "unrecognised disk
label" and no table. -/
def envNoLabel : CmdEnv where
  resolve := resolveToPath
  runCommand := fun cmd =>
    if cmd = probeCommand "/dev/xvda" then
      { stdout := "", stderr := "Error: /dev/xvda: unrecognised disk label", exitStatus := 1,
        err := some (.new "exit status 1") }
    else emptyResult

/-- The resolver of the test "when the specified drive does not exist" of
`IsPersistentDiskMountable`: the resolution times out, with an error. -/
def envResolutionTimesOut : CmdEnv where
  resolve := fun _ =>
    { realPath := "/fake/device", timedOut := true, err := some (.new "fake-timeout-error") }
  runCommand := fun _ => emptyResult

/-- The resolution of the device path times out, as in the test "when device
path cannot be resolved due to timeout" of `UnmountPersistentDisk`. -/
def envUnmountTimesOut : DiskEnv :=
  { sampleEnv "" 0 0 ("", false) with
    resolve := fun _ =>
      { realPath := "", timedOut := true,
        err := some (.new "fake-get-real-device-path-err") } }

/-- The resolution of the device path fails without a timeout, as in the test
"when device path cannot be resolved" of `UnmountPersistentDisk`. -/
def envUnmountResolveFails : DiskEnv :=
  { sampleEnv "" 0 0 ("", false) with
    resolve := fun _ =>
      { realPath := "", timedOut := false,
        err := some (.new "fake-get-real-device-path-err") } }

/-- The unmount primitive fails, as in the test "returns error if unmounting
fails". -/
def envUnmountFails : DiskEnv :=
  { sampleEnv "/dev/nvme2n1" 0 0 ("", false) with
    unmount := fun _ => (false, some (.new "fake-unmount-err")) }

end Platform

namespace JobSupervisor

/-- The second check fails: incarnation 5 at the capture and at the first
check, then the status query fails. -/
def worldSecondCheckFails : World :=
  sampleWorld (fun k =>
    if k < 2 then .ok (sampleStatus 5 []) else .error (.new "connection refused"))

/-! ## `RemoveAllJobs` and `MonitorJobFailures` -/

def Call.isRemoveAll : Call → Bool
  | .fsRemoveAll _ => true
  | _ => false

def numRemoveAll (tr : Trace) : Nat := tr.countP Call.isRemoveAll

/-- `monitJobSupervisor.RemoveAllJobs`: it returns what `fs.RemoveAll` returns
for the monit jobs directory.  `removeAllResults` is the answer of the `k`-th
call of `fs.RemoveAll` and `monitJobsDir` is what `dirProvider.MonitJobsDir()`
returns. -/
def RemoveAllJobs (removeAllResults : Nat → String → Option Err) (monitJobsDir : String)
    (tr : Trace) : Option Err × Trace :=
  (removeAllResults (numRemoveAll tr) monitJobsDir, tr ++ [Call.fsRemoveAll monitJobsDir])

/-- `monitJobSupervisor.MonitorJobFailures`, as far as its result goes:
`listenAndServe` is what `serv.ListenAndServe()` returns for a server at the
given address. -/
def MonitorJobFailures (listenAndServe : String → Option Err) (jobFailuresServerPort : Int) :
    Option Err :=
  match listenAndServe ("127.0.0.1:" ++ toString jobFailuresServerPort) with
  | some err => some (.wrap err "Listen for SMTP")
  | none => none

/-- The removal of the jobs directory fails. -/
def removeAllFails : Nat → String → Option Err :=
  fun _ _ => some (.new "permission denied")

/-! ## Lemmas on traces -/

@[simp] theorem numStatus_append (tr tr' : Trace) :
    numStatus (tr ++ tr') = numStatus tr + numStatus tr' := by
  simp [numStatus, List.countP_append]

@[simp] theorem numRunCommand_append (tr tr' : Trace) :
    numRunCommand (tr ++ tr') = numRunCommand tr + numRunCommand tr' := by
  simp [numRunCommand, List.countP_append]

@[simp] theorem numServicesInGroup_append (tr tr' : Trace) :
    numServicesInGroup (tr ++ tr') = numServicesInGroup tr + numServicesInGroup tr' := by
  simp [numServicesInGroup, List.countP_append]

@[simp] theorem numStopService_append (tr tr' : Trace) :
    numStopService (tr ++ tr') = numStopService tr + numStopService tr' := by
  simp [numStopService, List.countP_append]

@[simp] theorem numTimerSelect_append (tr tr' : Trace) :
    numTimerSelect (tr ++ tr') = numTimerSelect tr + numTimerSelect tr' := by
  simp [numTimerSelect, List.countP_append]

@[simp] theorem numSleep_append (tr tr' : Trace) :
    numSleep (tr ++ tr') = numSleep tr + numSleep tr' := by
  simp [numSleep, List.countP_append]

@[simp] theorem numStatus_nil : numStatus [] = 0 := rfl

@[simp] theorem numStatus_cons (c : Call) (tr : Trace) :
    numStatus (c :: tr) = (if c.isStatus then 1 else 0) + numStatus tr := by
  simp [numStatus, List.countP_cons, Nat.add_comm]

@[simp] theorem numRunCommand_nil : numRunCommand [] = 0 := rfl

@[simp] theorem numRunCommand_cons (c : Call) (tr : Trace) :
    numRunCommand (c :: tr) = (if c.isRunCommand then 1 else 0) + numRunCommand tr := by
  simp [numRunCommand, List.countP_cons, Nat.add_comm]

@[simp] theorem numServicesInGroup_nil : numServicesInGroup [] = 0 := rfl

@[simp] theorem numServicesInGroup_cons (c : Call) (tr : Trace) :
    numServicesInGroup (c :: tr)
      = (if c.isServicesInGroup then 1 else 0) + numServicesInGroup tr := by
  simp [numServicesInGroup, List.countP_cons, Nat.add_comm]

@[simp] theorem numStopService_nil : numStopService [] = 0 := rfl

@[simp] theorem numStopService_cons (c : Call) (tr : Trace) :
    numStopService (c :: tr) = (if c.isStopService then 1 else 0) + numStopService tr := by
  simp [numStopService, List.countP_cons, Nat.add_comm]

@[simp] theorem numTimerSelect_nil : numTimerSelect [] = 0 := rfl

@[simp] theorem numTimerSelect_cons (c : Call) (tr : Trace) :
    numTimerSelect (c :: tr) = (if c.isTimerSelect then 1 else 0) + numTimerSelect tr := by
  simp [numTimerSelect, List.countP_cons, Nat.add_comm]

@[simp] theorem numSleep_nil : numSleep [] = 0 := rfl

@[simp] theorem numSleep_cons (c : Call) (tr : Trace) :
    numSleep (c :: tr) = (if c.isSleep then 1 else 0) + numSleep tr := by
  simp [numSleep, List.countP_cons, Nat.add_comm]

/-! ## `Status` -/

/-- Without a starting service the loop of `Status` ends in `failing` when a
service is unmonitored or not running, and keeps its value otherwise. -/
theorem statusLoop_no_starting (services : List Service) (status : String)
    (hns : ∀ s ∈ services, s.Status ≠ "starting") :
    statusLoop services status
      = if ∃ s ∈ services, s.Monitored = false ∨ s.Status ≠ "running" then "failing"
        else status := by
  induction services generalizing status with
  | nil => simp [statusLoop]
  | cons s rest ih =>
    have h1 : s.Status ≠ "starting" := hns s (List.mem_cons_self _ _)
    have h2 : ∀ t ∈ rest, t.Status ≠ "starting" := fun t ht => hns t (List.mem_cons_of_mem _ ht)
    by_cases hbad : s.Monitored = false ∨ s.Status ≠ "running"
    · have hc : (!s.Monitored || decide (s.Status ≠ "running")) = true := by
        rcases hbad with h | h <;> simp [h]
      rw [statusLoop, if_neg h1, if_pos hc, ih _ h2]
      have : ∃ t ∈ s :: rest, t.Monitored = false ∨ t.Status ≠ "running" :=
        ⟨s, List.mem_cons_self _ _, hbad⟩
      rw [if_pos this]
      split <;> rfl
    · have hc : ¬ (!s.Monitored || decide (s.Status ≠ "running")) = true := by
        intro h
        apply hbad
        simpa using h
      rw [statusLoop, if_neg h1, if_neg hc, ih _ h2]
      have : (∃ t ∈ s :: rest, t.Monitored = false ∨ t.Status ≠ "running")
          ↔ ∃ t ∈ rest, t.Monitored = false ∨ t.Status ≠ "running" := by
        simp only [List.mem_cons, exists_eq_or_imp]
        exact ⟨fun h => h.resolve_left hbad, Or.inr⟩
      simp only [this]

/-- A starting service makes the loop of `Status` end in `starting`. -/
theorem statusLoop_starting (services : List Service) (status : String)
    (hs : ∃ s ∈ services, s.Status = "starting") :
    statusLoop services status = "starting" := by
  induction services generalizing status with
  | nil => simp at hs
  | cons s rest ih =>
    by_cases h1 : s.Status = "starting"
    · rw [statusLoop, if_pos h1]
    · have hr : ∃ t ∈ rest, t.Status = "starting" := by
        obtain ⟨t, ht, hst⟩ := hs
        rcases List.mem_cons.mp ht with rfl | ht
        · exact absurd hst h1
        · exact ⟨t, ht, hst⟩
      rw [statusLoop, if_neg h1]
      split
      · exact ih _ hr
      · exact ih _ hr

/-- C1: when the status query of the monit client returns an error, `Status`
returns the string "unknown" (its result is a string, there is no error to
raise), whatever the services. -/
theorem Status_unknown_on_query_error (w : World) (tr : Trace) (err : Err)
    (h : w.statusResults (numStatus tr) = .error err) :
    (Status w tr).1 = "unknown" := by
  simp [Status, Call.isStatus, h]

theorem Status_unknown_on_query_error_witness :
    worldStatusFails.statusResults (numStatus []) = .error (.new "connection refused")
      ∧ (Status worldStatusFails []).1 = "unknown" :=
  ⟨rfl, Status_unknown_on_query_error worldStatusFails [] (.new "connection refused") rfl⟩

/-- C2: when the status query succeeds and some service of group "vcap" has
status "starting", `Status` returns "starting", wherever that service stands in
the list and whatever the other services are. -/
theorem Status_starting_if_any_starting (w : World) (tr : Trace) (monitStatus : MonitStatus)
    (h : w.statusResults (numStatus tr) = .ok monitStatus)
    (hs : ∃ s ∈ monitStatus.ServicesInGroup "vcap", s.Status = "starting") :
    (Status w tr).1 = "starting" := by
  simp [Status, Call.isStatus, h, statusLoop_starting _ _ hs]

theorem Status_starting_if_any_starting_witness :
    (∃ monitStatus, worldStarting.statusResults (numStatus []) = .ok monitStatus
        ∧ ∃ s ∈ monitStatus.ServicesInGroup "vcap", s.Status = "starting")
      ∧ (Status worldStarting []).1 = "starting" :=
  ⟨⟨_, rfl, sampleService "b" true false false "starting", by decide, rfl⟩,
   Status_starting_if_any_starting worldStarting [] _ rfl
     ⟨sampleService "b" true false false "starting", by decide, rfl⟩⟩

/-- C3: when the status query succeeds and no service of the group is
"starting", `Status` returns "failing" if and only if some service of the group
is not monitored or has a status other than "running", and returns "running"
otherwise (so for an empty group). -/
theorem Status_failing_iff (w : World) (tr : Trace) (monitStatus : MonitStatus)
    (h : w.statusResults (numStatus tr) = .ok monitStatus)
    (hns : ∀ s ∈ monitStatus.ServicesInGroup "vcap", s.Status ≠ "starting") :
    ((Status w tr).1 = "failing"
        ↔ ∃ s ∈ monitStatus.ServicesInGroup "vcap", s.Monitored = false ∨ s.Status ≠ "running")
      ∧ ((¬ ∃ s ∈ monitStatus.ServicesInGroup "vcap",
              s.Monitored = false ∨ s.Status ≠ "running")
          → (Status w tr).1 = "running")
      ∧ (monitStatus.ServicesInGroup "vcap" = [] → (Status w tr).1 = "running") := by
  have hS : (Status w tr).1
      = if ∃ s ∈ monitStatus.ServicesInGroup "vcap", s.Monitored = false ∨ s.Status ≠ "running"
        then "failing" else "running" := by
    have hl := statusLoop_no_starting _ "running" hns
    simp [Status, Call.isStatus, h, hl]
  refine ⟨?_, ?_, ?_⟩
  · rw [hS]
    constructor
    · intro hf
      by_contra hn
      rw [if_neg hn] at hf
      exact absurd hf (by decide)
    · intro hx
      rw [if_pos hx]
  · intro hn
    rw [hS, if_neg hn]
  · intro he
    rw [hS, he]
    simp

theorem Status_failing_iff_witness :
    (∃ monitStatus, worldFailing.statusResults (numStatus []) = .ok monitStatus
        ∧ (∀ s ∈ monitStatus.ServicesInGroup "vcap", s.Status ≠ "starting")
        ∧ ((Status worldFailing []).1 = "failing"
            ↔ ∃ s ∈ monitStatus.ServicesInGroup "vcap",
                s.Monitored = false ∨ s.Status ≠ "running"))
      ∧ (Status worldFailing []).1 = "failing" :=
  ⟨⟨_, rfl, by decide,
    (Status_failing_iff worldFailing [] _ rfl (by decide)).1⟩, by decide⟩

/-! ## `Reload` -/

theorem getIncarnation_eq (w : World) (tr : Trace) :
    getIncarnation w tr
      = (incarnationOf (w.statusResults (numStatus tr)), tr ++ [Call.clientStatus]) := by
  unfold getIncarnation incarnationOf
  cases w.statusResults (numStatus tr) <;> rfl

/-- One check that finds the old incarnation: the loop logs, sleeps and goes on. -/
theorem checkLoop_step_same (w : World) (opts : MonitReloadOptions) (old : Int) (n : Nat)
    (cur : Int) (tr : Trace)
    (h : incarnationOf (w.statusResults (numStatus tr)) = .ok old) :
    checkLoop w opts old (n + 1) cur tr
      = checkLoop w opts old n old
          (tr ++ [Call.clientStatus] ++ [Call.logDebug monitJobSupervisorLogTag
                    ("Waiting for monit to reload: before=" ++ toString old
                      ++ " after=" ++ toString old),
                   Call.timeSleep opts.DelayBetweenCheckTries]) := by
  rw [checkLoop, getIncarnation_eq, h]
  simp

/-- One check that finds another incarnation: `Reload` returns success. -/
theorem checkLoop_step_changed (w : World) (opts : MonitReloadOptions) (old c : Int) (n : Nat)
    (cur : Int) (tr : Trace)
    (h : incarnationOf (w.statusResults (numStatus tr)) = .ok c) (hne : c ≠ old) :
    checkLoop w opts old (n + 1) cur tr = (.ret none, tr ++ [Call.clientStatus]) := by
  rw [checkLoop, getIncarnation_eq, h]
  simp [Ne.symm hne]

/-- One check whose query fails: `Reload` returns the wrapped error. -/
theorem checkLoop_step_error (w : World) (opts : MonitReloadOptions) (old : Int) (n : Nat)
    (cur : Int) (tr : Trace) (err : Err)
    (h : incarnationOf (w.statusResults (numStatus tr)) = .error err) :
    checkLoop w opts old (n + 1) cur tr
      = (.ret (some (.wrap err "Getting monit incarnation")), tr ++ [Call.clientStatus]) := by
  rw [checkLoop, getIncarnation_eq, h]

/-- The inner loop when all its checks find the old incarnation. -/
theorem checkLoop_same (w : World) (opts : MonitReloadOptions) (old : Int) :
    ∀ (n : Nat) (cur : Int) (tr : Trace),
    (∀ j < n, incarnationOf (w.statusResults (numStatus tr + j)) = .ok old) →
    ∃ tr', checkLoop w opts old n cur tr = (.next (if n = 0 then cur else old), tr')
      ∧ numStatus tr' = numStatus tr + n
      ∧ numRunCommand tr' = numRunCommand tr
      ∧ numSleep tr' = numSleep tr + n := by
  intro n
  induction n with
  | zero =>
    intro cur tr _
    exact ⟨tr, by simp [checkLoop], by simp, rfl, by simp⟩
  | succ n ih =>
    intro cur tr h
    have h0 := h 0 (Nat.succ_pos n)
    rw [Nat.add_zero] at h0
    obtain ⟨tr', e, h1, h2, h3⟩ := ih old
      (tr ++ [Call.clientStatus] ++ [Call.logDebug monitJobSupervisorLogTag
                    ("Waiting for monit to reload: before=" ++ toString old
                      ++ " after=" ++ toString old),
                   Call.timeSleep opts.DelayBetweenCheckTries])
      (by
        intro j hj
        have := h (j + 1) (Nat.succ_lt_succ hj)
        simpa [Call.isStatus, Nat.add_assoc, Nat.add_comm 1 j] using this)
    refine ⟨tr', ?_, ?_, ?_, ?_⟩
    · rw [checkLoop_step_same w opts old n cur tr h0, e]
      cases n <;> simp
    · rw [h1]; simp [Call.isStatus]; omega
    · rw [h2]; simp [Call.isRunCommand]
    · rw [h3]; simp [Call.isSleep]; omega

/-- The inner loop when check `j` is the first that finds another incarnation. -/
theorem checkLoop_changed (w : World) (opts : MonitReloadOptions) (old c : Int) (hne : c ≠ old) :
    ∀ (n j : Nat) (cur : Int) (tr : Trace), j < n →
    (∀ i < j, incarnationOf (w.statusResults (numStatus tr + i)) = .ok old) →
    incarnationOf (w.statusResults (numStatus tr + j)) = .ok c →
    ∃ tr', checkLoop w opts old n cur tr = (.ret none, tr')
      ∧ numStatus tr' = numStatus tr + j + 1
      ∧ numRunCommand tr' = numRunCommand tr
      ∧ numSleep tr' = numSleep tr + j
      ∧ tr'.getLast? = some Call.clientStatus := by
  intro n
  induction n with
  | zero => intro j cur tr hj; omega
  | succ n ih =>
    intro j cur tr hj hsame hc
    cases j with
    | zero =>
      rw [Nat.add_zero] at hc
      exact ⟨_, checkLoop_step_changed w opts old c n cur tr hc hne,
        by simp [Call.isStatus], by simp [Call.isRunCommand], by simp [Call.isSleep], by simp⟩
    | succ j =>
      have h0 := hsame 0 (Nat.succ_pos j)
      rw [Nat.add_zero] at h0
      obtain ⟨tr', e, h1, h2, h3, h4⟩ := ih j old
        (tr ++ [Call.clientStatus] ++ [Call.logDebug monitJobSupervisorLogTag
                    ("Waiting for monit to reload: before=" ++ toString old
                      ++ " after=" ++ toString old),
                   Call.timeSleep opts.DelayBetweenCheckTries])
        (Nat.lt_of_succ_lt_succ hj)
        (by
          intro i hi
          have := hsame (i + 1) (Nat.succ_lt_succ hi)
          simpa [Call.isStatus, Nat.add_assoc, Nat.add_comm 1 i] using this)
        (by simpa [Call.isStatus, Nat.add_assoc, Nat.add_comm 1 j] using hc)
      refine ⟨tr', ?_, ?_, ?_, ?_, h4⟩
      · rw [checkLoop_step_same w opts old n cur tr h0, e]
      · rw [h1]; simp [Call.isStatus]; omega
      · rw [h2]; simp [Call.isRunCommand]
      · rw [h3]; simp [Call.isSleep]; omega

/-- One turn of the outer loop: the reload command, whose result only reaches
the log, then the inner loop. -/
theorem reloadLoop_step (w : World) (opts : MonitReloadOptions) (old : Int) (m : Nat)
    (cur : Int) (tr : Trace) :
    ∃ tr2, numStatus tr2 = numStatus tr ∧ numRunCommand tr2 = numRunCommand tr + 1
      ∧ numSleep tr2 = numSleep tr
      ∧ (∀ err tr3, checkLoop w opts old opts.MaxCheckTries.toNat cur tr2 = (.ret err, tr3) →
          reloadLoop w opts old (m + 1) cur tr = (.ret err, tr3))
      ∧ (∀ cur' tr3, checkLoop w opts old opts.MaxCheckTries.toNat cur tr2 = (.next cur', tr3) →
          reloadLoop w opts old (m + 1) cur tr = reloadLoop w opts old m cur' tr3) := by
  cases h : (w.runCommandResults (numRunCommand tr) "monit" ["reload"]).err with
  | none =>
    refine ⟨tr ++ [Call.runCommand "monit" ["reload"]], by simp [Call.isStatus],
      by simp [Call.isRunCommand], by simp [Call.isSleep], ?_, ?_⟩
    · intro err tr3 e
      simp [reloadLoop, h, e]
    · intro cur' tr3 e
      simp [reloadLoop, h, e]
  | some err =>
    refine ⟨tr ++ [Call.runCommand "monit" ["reload"],
        Call.logError monitJobSupervisorLogTag ("Failed to reload monit " ++ err.Error)],
      by simp [Call.isStatus], by simp [Call.isRunCommand], by simp [Call.isSleep], ?_, ?_⟩
    · intro err' tr3 e
      simp [reloadLoop, h, e]
    · intro cur' tr3 e
      simp [reloadLoop, h, e]

/-- The outer loop when all its checks find the old incarnation. -/
theorem reloadLoop_same (w : World) (opts : MonitReloadOptions) (old : Int) :
    ∀ (m : Nat) (cur : Int) (tr : Trace),
    (∀ j < m * opts.MaxCheckTries.toNat,
        incarnationOf (w.statusResults (numStatus tr + j)) = .ok old) →
    ∃ tr', reloadLoop w opts old m cur tr
        = (.next (if m * opts.MaxCheckTries.toNat = 0 then cur else old), tr')
      ∧ numStatus tr' = numStatus tr + m * opts.MaxCheckTries.toNat
      ∧ numRunCommand tr' = numRunCommand tr + m
      ∧ numSleep tr' = numSleep tr + m * opts.MaxCheckTries.toNat := by
  intro m
  induction m with
  | zero =>
    intro cur tr _
    exact ⟨tr, by simp [reloadLoop], by simp, rfl, by simp⟩
  | succ m ih =>
    intro cur tr h
    obtain ⟨tr2, a1, a2, a3, _, enext⟩ := reloadLoop_step w opts old m cur tr
    obtain ⟨tr3, e3, b1, b2, b3⟩ := checkLoop_same w opts old opts.MaxCheckTries.toNat cur tr2
      (by
        intro j hj
        rw [a1]
        exact h j (by rw [Nat.succ_mul]; omega))
    obtain ⟨tr4, e4, c1, c2, c3⟩ := ih
      (if opts.MaxCheckTries.toNat = 0 then cur else old) tr3
      (by
        intro j hj
        rw [b1, a1, Nat.add_assoc]
        exact h _ (by rw [Nat.succ_mul]; omega))
    refine ⟨tr4, ?_, ?_, ?_, ?_⟩
    · rw [enext _ _ e3, e4]
      by_cases hC : opts.MaxCheckTries.toNat = 0
      · simp [hC]
      · have : (m + 1) * opts.MaxCheckTries.toNat ≠ 0 :=
          Nat.mul_ne_zero (Nat.succ_ne_zero m) hC
        simp [hC, this]
    · rw [c1, b1, a1, Nat.succ_mul]; omega
    · rw [c2, b2, a2]; omega
    · rw [c3, b3, a3, Nat.succ_mul]; omega

/-- The outer loop when check `k` (counted from 0 over all turns) is the first
that finds another incarnation. -/
theorem reloadLoop_changed (w : World) (opts : MonitReloadOptions) (old c : Int)
    (hne : c ≠ old) :
    ∀ (m k : Nat) (cur : Int) (tr : Trace), k < m * opts.MaxCheckTries.toNat →
    (∀ i < k, incarnationOf (w.statusResults (numStatus tr + i)) = .ok old) →
    incarnationOf (w.statusResults (numStatus tr + k)) = .ok c →
    ∃ tr', reloadLoop w opts old m cur tr = (.ret none, tr')
      ∧ numStatus tr' = numStatus tr + k + 1
      ∧ numSleep tr' = numSleep tr + k
      ∧ tr'.getLast? = some Call.clientStatus := by
  intro m
  induction m with
  | zero => intro k cur tr hk; simp at hk
  | succ m ih =>
    intro k cur tr hk hsame hc
    obtain ⟨tr2, a1, _, a3, eret, enext⟩ := reloadLoop_step w opts old m cur tr
    by_cases hkC : k < opts.MaxCheckTries.toNat
    · obtain ⟨tr3, e3, b1, _, b3, b4⟩ := checkLoop_changed w opts old c hne
        opts.MaxCheckTries.toNat k cur tr2 hkC (by rw [a1]; exact hsame) (by rw [a1]; exact hc)
      refine ⟨tr3, ?_, ?_, ?_, b4⟩
      · rw [eret _ _ e3]
      · rw [b1, a1]
      · rw [b3, a3]
    · obtain ⟨tr3, e3, b1, _, b3⟩ := checkLoop_same w opts old opts.MaxCheckTries.toNat cur tr2
        (by
          intro j hj
          rw [a1]
          exact hsame j (by omega))
      rw [Nat.succ_mul] at hk
      obtain ⟨tr4, e4, c1, c3, c4⟩ := ih (k - opts.MaxCheckTries.toNat)
        (if opts.MaxCheckTries.toNat = 0 then cur else old) tr3 (by omega)
        (by
          intro i hi
          rw [b1, a1, Nat.add_assoc]
          exact hsame _ (by omega))
        (by
          rw [b1, a1, Nat.add_assoc]
          have : opts.MaxCheckTries.toNat + (k - opts.MaxCheckTries.toNat) = k := by omega
          rw [this]
          exact hc)
      refine ⟨tr4, ?_, ?_, ?_, c4⟩
      · rw [enext _ _ e3, e4]
      · rw [c1, b1, a1]; omega
      · rw [c3, b3, a3]; omega

/-- The inner loop reads the world only through its status queries, and the
trace only through the number of status queries made. -/
theorem checkLoop_indep (w w' : World) (opts : MonitReloadOptions) (old : Int)
    (hw : w.statusResults = w'.statusResults) :
    ∀ (n : Nat) (cur : Int) (tr tr' : Trace), numStatus tr = numStatus tr' →
    (checkLoop w opts old n cur tr).1 = (checkLoop w' opts old n cur tr').1
      ∧ numStatus (checkLoop w opts old n cur tr).2
          = numStatus (checkLoop w' opts old n cur tr').2 := by
  intro n
  induction n with
  | zero =>
    intro cur tr tr' h
    simp [checkLoop, h]
  | succ n ih =>
    intro cur tr tr' h
    rw [checkLoop, checkLoop, getIncarnation_eq, getIncarnation_eq, hw, h]
    cases incarnationOf (w'.statusResults (numStatus tr')) with
    | error err => simp [h]
    | ok c =>
      by_cases hc : old = c
      · subst hc
        simp only [ne_eq, not_true_eq_false, if_false]
        apply ih
        simp [h]
      · simp [hc, h]

/-- The outer loop reads the world only through its status queries: the result
of the reload command does not reach the result of the loop. -/
theorem reloadLoop_indep (w w' : World) (opts : MonitReloadOptions) (old : Int)
    (hw : w.statusResults = w'.statusResults) :
    ∀ (m : Nat) (cur : Int) (tr tr' : Trace), numStatus tr = numStatus tr' →
    (reloadLoop w opts old m cur tr).1 = (reloadLoop w' opts old m cur tr').1 := by
  intro m
  induction m with
  | zero =>
    intro cur tr tr' _
    simp [reloadLoop]
  | succ m ih =>
    intro cur tr tr' h
    obtain ⟨tr2, a1, _, _, eret, enext⟩ := reloadLoop_step w opts old m cur tr
    obtain ⟨tr2', a1', _, _, eret', enext'⟩ := reloadLoop_step w' opts old m cur tr'
    obtain ⟨h1, h2⟩ := checkLoop_indep w w' opts old hw opts.MaxCheckTries.toNat cur tr2 tr2'
      (by rw [a1, a1', h])
    cases e : checkLoop w opts old opts.MaxCheckTries.toNat cur tr2 with
    | mk f tr3 =>
      cases e' : checkLoop w' opts old opts.MaxCheckTries.toNat cur tr2' with
      | mk f' tr3' =>
        rw [e, e'] at h1 h2
        simp only at h1 h2
        subst h1
        cases f with
        | ret err => rw [eret _ _ e, eret' _ _ e']
        | next cur' =>
          rw [enext _ _ e, enext' _ _ e']
          exact ih cur' tr3 tr3' h2


/-- C4: with `MaxTries >= 1` and `MaxCheckTries >= 1`, `Reload` returns
success at the first incarnation check whose value differs from the
incarnation captured before the first reload.  Query 0 is the capture and
query `k` is check `k`, one of the `MaxTries * MaxCheckTries` checks allowed;
the checks before it find the captured value `c`, check `k` finds `c'`.  Only
`c' ≠ c` is asked of `c'`, so a smaller value succeeds like a larger one: the
run ends with success, and its last call is that check. -/
theorem Reload_succeeds_at_first_changed_check (w : World) (opts : MonitReloadOptions)
    (tr : Trace) (c c' : Int) (k : Nat)
    (_hT : 1 ≤ opts.MaxTries) (_hC : 1 ≤ opts.MaxCheckTries)
    (hk1 : 1 ≤ k) (hk : k ≤ opts.MaxTries.toNat * opts.MaxCheckTries.toNat)
    (hold : incarnationOf (w.statusResults (numStatus tr)) = .ok c)
    (hsame : ∀ i, 1 ≤ i → i < k → incarnationOf (w.statusResults (numStatus tr + i)) = .ok c)
    (hnew : incarnationOf (w.statusResults (numStatus tr + k)) = .ok c')
    (hne : c' ≠ c) :
    (Reload w opts tr).1 = none
      ∧ numStatus (Reload w opts tr).2 = numStatus tr + k + 1
      ∧ (Reload w opts tr).2.getLast? = some Call.clientStatus := by
  obtain ⟨tr', e, h1, _, h4⟩ := reloadLoop_changed w opts c c' hne opts.MaxTries.toNat (k - 1) 0
    (tr ++ [Call.clientStatus]) (by omega)
    (by
      intro i hi
      have := hsame (i + 1) (by omega) (by omega)
      simpa [Call.isStatus, Nat.add_assoc, Nat.add_comm 1 i] using this)
    (by
      have : numStatus (tr ++ [Call.clientStatus]) + (k - 1) = numStatus tr + k := by
        simp [Call.isStatus]; omega
      rw [this]
      exact hnew)
  have hR : Reload w opts tr = (none, tr') := by
    rw [Reload, getIncarnation_eq, hold]
    simp only [e]
  rw [hR]
  refine ⟨rfl, ?_, h4⟩
  simp only [h1]
  simp [Call.isStatus]
  omega

theorem Reload_succeeds_at_first_changed_check_witness :
    (Reload worldIncarnationDrops
        { MaxTries := 2, MaxCheckTries := 1, DelayBetweenCheckTries := 0 } []).1 = none
      ∧ numStatus (Reload worldIncarnationDrops
          { MaxTries := 2, MaxCheckTries := 1, DelayBetweenCheckTries := 0 } []).2
          = numStatus [] + 2 + 1
      ∧ (Reload worldIncarnationDrops
          { MaxTries := 2, MaxCheckTries := 1, DelayBetweenCheckTries := 0 } []).2.getLast?
          = some Call.clientStatus :=
  Reload_succeeds_at_first_changed_check worldIncarnationDrops
    { MaxTries := 2, MaxCheckTries := 1, DelayBetweenCheckTries := 0 } [] 9 3 2
    (by decide) (by decide) (by decide) (by decide) rfl
    (by
      intro i h1 h2
      have : i = 1 := by omega
      subst this
      rfl)
    rfl (by decide)

/-- C5, as stated, fails: with incarnations 5, 5, 5, 7 and `MaxTries=1`,
`MaxCheckTries=4`, `Reload` does not succeed on its 4th check; no 4th check is
made, and three allowed checks are enough for the same success. -/
theorem Reload_5557_not_on_fourth_check :
    ¬ ((Reload worldIncarnations5557
          { MaxTries := 1, MaxCheckTries := 4, DelayBetweenCheckTries := 0 } []).1 = none
        ∧ numChecks (Reload worldIncarnations5557
          { MaxTries := 1, MaxCheckTries := 4, DelayBetweenCheckTries := 0 } []).2 = 4)
      ∧ (Reload worldIncarnations5557
          { MaxTries := 1, MaxCheckTries := 3, DelayBetweenCheckTries := 0 } []).1 = none := by
  decide

/-- C5, amended: when successive status calls return incarnations 5, 5, 5, 7
and the options are `MaxTries=1`, `MaxCheckTries=4`, `Reload` returns success
at the 4th status query, which is its 3rd check of the incarnation (the 1st
query captures the old incarnation before the reload). -/
theorem Reload_5557_succeeds_on_third_check (w : World) (delay : Int)
    (h0 : incarnationOf (w.statusResults 0) = .ok 5)
    (h1 : incarnationOf (w.statusResults 1) = .ok 5)
    (h2 : incarnationOf (w.statusResults 2) = .ok 5)
    (h3 : incarnationOf (w.statusResults 3) = .ok 7) :
    (Reload w { MaxTries := 1, MaxCheckTries := 4, DelayBetweenCheckTries := delay } []).1 = none
      ∧ numStatus (Reload w
          { MaxTries := 1, MaxCheckTries := 4, DelayBetweenCheckTries := delay } []).2 = 4
      ∧ numChecks (Reload w
          { MaxTries := 1, MaxCheckTries := 4, DelayBetweenCheckTries := delay } []).2 = 3 := by
  cases h : (w.runCommandResults 0 "monit" ["reload"]).err <;>
    simp [Reload, reloadLoop, checkLoop, getIncarnation_eq, h, h0, h1, h2, h3, Call.isStatus,
      Call.isRunCommand, numChecks, List.dropWhile]

theorem Reload_5557_succeeds_on_third_check_witness :
    (Reload worldIncarnations5557
        { MaxTries := 1, MaxCheckTries := 4, DelayBetweenCheckTries := 0 } []).1 = none
      ∧ numStatus (Reload worldIncarnations5557
          { MaxTries := 1, MaxCheckTries := 4, DelayBetweenCheckTries := 0 } []).2 = 4
      ∧ numChecks (Reload worldIncarnations5557
          { MaxTries := 1, MaxCheckTries := 4, DelayBetweenCheckTries := 0 } []).2 = 3 :=
  Reload_5557_succeeds_on_third_check worldIncarnations5557 0 rfl rfl rfl rfl

/-- C6: with `MaxTries >= 1` and `MaxCheckTries >= 1`, if every status query
succeeds and returns the same incarnation `c`, `Reload` returns the error
"Failed to reload monit: before=c after=c". -/
theorem Reload_fails_on_constant_incarnation (w : World) (opts : MonitReloadOptions)
    (tr : Trace) (c : Int)
    (hT : 1 ≤ opts.MaxTries) (hC : 1 ≤ opts.MaxCheckTries)
    (hconst : ∀ k, incarnationOf (w.statusResults k) = .ok c) :
    (Reload w opts tr).1
      = some (.new ("Failed to reload monit: before=" ++ toString c ++ " after="
                      ++ toString c)) := by
  obtain ⟨tr', e, _⟩ := reloadLoop_same w opts c opts.MaxTries.toNat 0
    (tr ++ [Call.clientStatus]) (fun j _ => hconst _)
  have hne : opts.MaxTries.toNat * opts.MaxCheckTries.toNat ≠ 0 :=
    Nat.mul_ne_zero (by omega) (by omega)
  rw [if_neg hne] at e
  rw [Reload, getIncarnation_eq, hconst]
  simp only [e]

theorem Reload_fails_on_constant_incarnation_witness :
    (Reload worldIncarnationConstant
        { MaxTries := 2, MaxCheckTries := 3, DelayBetweenCheckTries := 0 } []).1
      = some (.new ("Failed to reload monit: before=" ++ toString (5 : Int) ++ " after="
                      ++ toString (5 : Int))) :=
  Reload_fails_on_constant_incarnation worldIncarnationConstant
    { MaxTries := 2, MaxCheckTries := 3, DelayBetweenCheckTries := 0 } [] 5
    (by decide) (by decide) (fun _ => rfl)

/-- C7: the result of `Reload` (success or the exact error) does not depend on
what the `monit reload` command returns: two runs with the same options and the
same answers to the status queries return the same result, whatever the reload
command (and any collaborator other than the status query) answers. -/
theorem Reload_result_independent_of_reload_command (w w' : World)
    (opts : MonitReloadOptions) (tr : Trace)
    (hw : w.statusResults = w'.statusResults) :
    (Reload w opts tr).1 = (Reload w' opts tr).1 := by
  rw [Reload, Reload, getIncarnation_eq, getIncarnation_eq, hw]
  cases incarnationOf (w'.statusResults (numStatus tr)) with
  | error err => rfl
  | ok old =>
    have h := reloadLoop_indep w w' opts old hw opts.MaxTries.toNat 0
      (tr ++ [Call.clientStatus]) (tr ++ [Call.clientStatus]) rfl
    cases e : reloadLoop w opts old opts.MaxTries.toNat 0 (tr ++ [Call.clientStatus]) with
    | mk f tr2 =>
      cases e' : reloadLoop w' opts old opts.MaxTries.toNat 0 (tr ++ [Call.clientStatus]) with
      | mk f' tr2' =>
        rw [e, e'] at h
        simp only at h
        subst h
        cases f <;> simp [e, e']

theorem Reload_result_independent_of_reload_command_witness :
    worldIncarnationConstant.statusResults = worldReloadCommandFails.statusResults
      ∧ worldIncarnationConstant.runCommandResults 0 "monit" ["reload"]
          ≠ worldReloadCommandFails.runCommandResults 0 "monit" ["reload"]
      ∧ (Reload worldIncarnationConstant
            { MaxTries := 2, MaxCheckTries := 2, DelayBetweenCheckTries := 0 } []).1
          = (Reload worldReloadCommandFails
            { MaxTries := 2, MaxCheckTries := 2, DelayBetweenCheckTries := 0 } []).1 :=
  ⟨rfl, by decide,
   Reload_result_independent_of_reload_command worldIncarnationConstant worldReloadCommandFails
     { MaxTries := 2, MaxCheckTries := 2, DelayBetweenCheckTries := 0 } [] rfl⟩

/-! ## `Stop` -/

/-- The scan of one poll ends in the error of the first errored service. -/
theorem scanServices_errored (services : List Service) (service : Service) :
    ∀ acc : List String, firstErrored services = some service →
    scanServices services acc = .error (erroredErr service) := by
  induction services with
  | nil => intro acc h; simp [firstErrored] at h
  | cons s rest ih =>
    intro acc h
    by_cases he : s.Errored = true
    · have : s = service := by simpa [firstErrored, List.find?, he] using h
      subst this
      simp [scanServices, he, erroredErr]
    · have hr : firstErrored rest = some service := by
        simpa [firstErrored, List.find?, he] using h
      simp only [scanServices, he]
      exact ih _ hr

/-- Without an errored service the scan of one poll collects the names of the
services that are monitored or pending. -/
theorem scanServices_clear (services : List Service) :
    ∀ acc : List String, firstErrored services = none →
    scanServices services acc = .ok (acc ++ pendingNames services) := by
  induction services with
  | nil => intro acc _; simp [scanServices, pendingNames]
  | cons s rest ih =>
    intro acc h
    have he : s.Errored = false := by
      cases hs : s.Errored
      · rfl
      · simp [firstErrored, List.find?, hs] at h
    have hr : firstErrored rest = none := by
      simpa [firstErrored, List.find?, he] using h
    simp only [scanServices, he, Bool.false_eq_true, if_false]
    rw [ih _ hr]
    by_cases hp : (s.Monitored || s.Pending) = true
    · simp [pendingNames, List.filter, hp]
    · simp [pendingNames, List.filter, hp]

/-- When every stop command succeeds the first loop of `Stop` ends without an
error, and it makes no status query, timer check or sleep. -/
theorem stopServices_ok (w : World) (hstop : ∀ i name, w.stopServiceResults i name = none) :
    ∀ (names : List String) (tr : Trace),
    ∃ tr', stopServices w names tr = (none, tr')
      ∧ numStatus tr' = numStatus tr ∧ numTimerSelect tr' = numTimerSelect tr
      ∧ numSleep tr' = numSleep tr := by
  intro names
  induction names with
  | nil => intro tr; exact ⟨tr, rfl, rfl, rfl, rfl⟩
  | cons name rest ih =>
    intro tr
    obtain ⟨tr', e, h1, h2, h3⟩ := ih
      (tr ++ [Call.logDebug monitJobSupervisorLogTag ("Stopping service '" ++ name ++ "'")]
        ++ [Call.clientStopService name])
    refine ⟨tr', ?_, ?_, ?_, ?_⟩
    · rw [stopServices]
      simp only [hstop]
      exact e
    · rw [h1]; simp [Call.isStatus]
    · rw [h2]; simp [Call.isTimerSelect]
    · rw [h3]; simp [Call.isSleep]

/-- With the services listed and every stop command successful, `Stop` reaches
its polling loop with a fresh 10-minute timer. -/
theorem Stop_reaches_loop (w : World) (tr : Trace) (names : List String) (fuel : Nat)
    (hg : w.servicesInGroupResults (numServicesInGroup tr) "vcap" = .ok names)
    (hstop : ∀ i name, w.stopServiceResults i name = none) :
    ∃ tr1, Stop w fuel tr = stopLoop w fuel [] tr1
      ∧ numStatus tr1 = numStatus tr ∧ numTimerSelect tr1 = numTimerSelect tr
      ∧ numSleep tr1 = numSleep tr := by
  obtain ⟨tr', e, h1, h2, h3⟩ := stopServices_ok w hstop names
    (tr ++ [Call.clientServicesInGroup "vcap"])
  refine ⟨tr' ++ [Call.newTimer (10 * Minute)], ?_, ?_, ?_, ?_⟩
  · rw [Stop, hg]
    simp only [e]
  · rw [numStatus_append, h1]; simp [Call.isStatus]
  · rw [numTimerSelect_append, h2]; simp [Call.isTimerSelect]
  · rw [numSleep_append, h3]; simp [Call.isSleep]

/-- A poll that leaves `Stop` waiting: one timer check, one status query, one
sleep of 500ms, and the loop goes on with the names still to be stopped. -/
theorem stopLoop_step_wait (w : World) (fuel : Nat) (prev : List String) (tr : Trace)
    (h : Waiting w (numTimerSelect tr) (numStatus tr)) :
    stopLoop w (fuel + 1) prev tr
      = stopLoop w fuel (pendingNames (pollServices w (numStatus tr)))
          (tr ++ [Call.timerSelect] ++ [Call.clientStatus]
            ++ [Call.clockSleep (500 * Millisecond)]) := by
  obtain ⟨ht, ⟨status, hs⟩, he, hp⟩ := h
  have hpoll : pollServices w (numStatus tr) = status.ServicesInGroup "vcap" := by
    simp [pollServices, hs]
  rw [hpoll] at he hp ⊢
  have hlen : ¬ (pendingNames (status.ServicesInGroup "vcap")).length = 0 := by
    simpa using hp
  rw [stopLoop]
  simp [ht, Call.isStatus, hs, scanServices_clear _ [] he, hlen]

/-- The timer has fired: `Stop` times out with the names it holds. -/
theorem stopLoop_step_timeout (w : World) (fuel : Nat) (prev : List String) (tr : Trace)
    (h : w.timerFired (numTimerSelect tr) = true) :
    stopLoop w (fuel + 1) prev tr
      = some (some (.new ("Timed out waiting for services '" ++ String.intercalate ", " prev
                            ++ "' to stop after 10 minutes")),
              tr ++ [Call.timerSelect]) := by
  rw [stopLoop]
  simp [h]

/-- A poll with an errored service: `Stop` fails at once. -/
theorem stopLoop_step_errored (w : World) (fuel : Nat) (prev : List String) (tr : Trace)
    (service : Service)
    (ht : w.timerFired (numTimerSelect tr) = false)
    (hs : ∃ status, w.statusResults (numStatus tr) = .ok status)
    (he : firstErrored (pollServices w (numStatus tr)) = some service) :
    stopLoop w (fuel + 1) prev tr
      = some (some (erroredErr service), tr ++ [Call.timerSelect] ++ [Call.clientStatus]) := by
  obtain ⟨status, hs⟩ := hs
  have hpoll : pollServices w (numStatus tr) = status.ServicesInGroup "vcap" := by
    simp [pollServices, hs]
  rw [hpoll] at he
  rw [stopLoop]
  simp [ht, Call.isStatus, hs, scanServices_errored _ _ [] he]

/-- A poll with nothing errored, monitored or pending: `Stop` succeeds. -/
theorem stopLoop_step_done (w : World) (fuel : Nat) (prev : List String) (tr : Trace)
    (ht : w.timerFired (numTimerSelect tr) = false)
    (hs : ∃ status, w.statusResults (numStatus tr) = .ok status)
    (he : firstErrored (pollServices w (numStatus tr)) = none)
    (hp : pendingNames (pollServices w (numStatus tr)) = []) :
    stopLoop w (fuel + 1) prev tr
      = some (none, tr ++ [Call.timerSelect] ++ [Call.clientStatus]) := by
  obtain ⟨status, hs⟩ := hs
  have hpoll : pollServices w (numStatus tr) = status.ServicesInGroup "vcap" := by
    simp [pollServices, hs]
  rw [hpoll] at he hp
  rw [stopLoop]
  simp [ht, Call.isStatus, hs, scanServices_clear _ [] he, hp]

/-- After `k` polls that leave it waiting, the loop of `Stop` has made `k` timer
checks, `k` status queries and `k` sleeps, and holds the names of the last of
these polls. -/
theorem stopLoop_wait (w : World) :
    ∀ (k fuel : Nat) (prev : List String) (tr : Trace),
    (∀ j < k, Waiting w (numTimerSelect tr + j) (numStatus tr + j)) →
    ∃ tr', stopLoop w (k + fuel) prev tr
        = stopLoop w fuel
            (if k = 0 then prev else pendingNames (pollServices w (numStatus tr + (k - 1)))) tr'
      ∧ numStatus tr' = numStatus tr + k ∧ numTimerSelect tr' = numTimerSelect tr + k
      ∧ numSleep tr' = numSleep tr + k := by
  intro k
  induction k with
  | zero => intro fuel prev tr _; exact ⟨tr, by simp, rfl, rfl, rfl⟩
  | succ k ih =>
    intro fuel prev tr h
    have h0 := h 0 (Nat.succ_pos k)
    rw [Nat.add_zero, Nat.add_zero] at h0
    have n1 : numStatus (tr ++ [Call.timerSelect] ++ [Call.clientStatus]
        ++ [Call.clockSleep (500 * Millisecond)]) = numStatus tr + 1 := by
      simp [Call.isStatus]
    have n2 : numTimerSelect (tr ++ [Call.timerSelect] ++ [Call.clientStatus]
        ++ [Call.clockSleep (500 * Millisecond)]) = numTimerSelect tr + 1 := by
      simp [Call.isTimerSelect]
    have n3 : numSleep (tr ++ [Call.timerSelect] ++ [Call.clientStatus]
        ++ [Call.clockSleep (500 * Millisecond)]) = numSleep tr + 1 := by
      simp [Call.isSleep]
    obtain ⟨tr', e, h1, h2, h3⟩ := ih fuel (pendingNames (pollServices w (numStatus tr)))
      (tr ++ [Call.timerSelect] ++ [Call.clientStatus] ++ [Call.clockSleep (500 * Millisecond)])
      (by
        intro j hj
        have := h (j + 1) (Nat.succ_lt_succ hj)
        rw [n1, n2, Nat.add_assoc, Nat.add_assoc, Nat.add_comm 1 j]
        exact this)
    refine ⟨tr', ?_, ?_, ?_, ?_⟩
    · have hf : k + 1 + fuel = (k + fuel) + 1 := by omega
      rw [hf, stopLoop_step_wait w (k + fuel) prev tr h0, e, n1]
      cases k with
      | zero => simp
      | succ k =>
        have : numStatus tr + 1 + (k + 1 - 1) = numStatus tr + (k + 1 + 1 - 1) := by omega
        rw [this]
        simp
    · rw [h1, n1]; omega
    · rw [h2, n2]; omega
    · rw [h3, n3]; omega

/-- The loop of `Stop` only adds calls to the trace. -/
theorem stopLoop_extends (w : World) :
    ∀ (fuel : Nat) (prev : List String) (tr : Trace) (r : Option Err × Trace),
    stopLoop w fuel prev tr = some r → ∃ ext, r.2 = tr ++ ext := by
  intro fuel
  induction fuel with
  | zero => intro prev tr r h; simp [stopLoop] at h
  | succ fuel ih =>
    intro prev tr r h
    rw [stopLoop] at h
    split at h
    · injection h with h; subst h; exact ⟨_, rfl⟩
    · simp only at h
      split at h
      · injection h with h; subst h; exact ⟨[Call.timerSelect, Call.clientStatus], by simp⟩
      · split at h
        · injection h with h; subst h; exact ⟨[Call.timerSelect, Call.clientStatus], by simp⟩
        · split at h
          · injection h with h; subst h; exact ⟨[Call.timerSelect, Call.clientStatus], by simp⟩
          · obtain ⟨ext, he⟩ := ih _ _ _ h
            exact ⟨[Call.timerSelect, Call.clientStatus, Call.clockSleep (500 * Millisecond)] ++ ext,
              by rw [he]; simp⟩


/-- With the services listed and every stop command successful, the timer that
`Stop` creates before its polling loop is a 10-minute timer. -/
theorem Stop_timer (w : World) (tr : Trace) (names : List String) (fuel : Nat)
    (r : Option Err × Trace)
    (hg : w.servicesInGroupResults (numServicesInGroup tr) "vcap" = .ok names)
    (hstop : ∀ i name, w.stopServiceResults i name = none)
    (h : Stop w fuel tr = some r) :
    Call.newTimer (10 * Minute) ∈ r.2 := by
  obtain ⟨tr', e, _⟩ := stopServices_ok w hstop names (tr ++ [Call.clientServicesInGroup "vcap"])
  rw [Stop, hg] at h
  simp only [e] at h
  obtain ⟨ext, he⟩ := stopLoop_extends w _ _ _ _ h
  rw [he]
  simp

/-- C8, as stated, fails: when two services are errored in one poll, `Stop`
names the first of them, so for the second one the error does not name "that
service". -/
theorem Stop_errored_names_only_first :
    ¬ (∀ service ∈ pollServices worldTwoErrored 0, service.Errored = true →
        (Stop worldTwoErrored 1 []).map Prod.fst
          = some (some (.new ("Stopping service '" ++ service.Name
              ++ "' errored with message '" ++ service.StatusMessage ++ "'")))) := by
  intro h
  have hb := h (sampleService "b" true false true "failed") (by decide) rfl
  revert hb
  decide

/-- C8, amended: if a status poll of `Stop` shows a service of the group marked
errored, `Stop` fails at once, with no further sleep or poll (its last call is
that status query), and the error names the first errored service of the poll,
in status order, with its status message, whatever the monitored, pending or
errored state of the other services.  Here the poll is poll `k`, reached after
`k` polls that left `Stop` waiting, and the run has fuel for it. -/
theorem Stop_fails_on_first_errored_service (w : World) (tr : Trace) (names : List String)
    (k : Nat) (service : Service) (fuel : Nat)
    (hg : w.servicesInGroupResults (numServicesInGroup tr) "vcap" = .ok names)
    (hstop : ∀ i name, w.stopServiceResults i name = none)
    (hwait : ∀ j < k, Waiting w (numTimerSelect tr + j) (numStatus tr + j))
    (htimer : w.timerFired (numTimerSelect tr + k) = false)
    (hok : ∃ status, w.statusResults (numStatus tr + k) = .ok status)
    (herr : firstErrored (pollServices w (numStatus tr + k)) = some service)
    (hfuel : k < fuel) :
    ∃ tr', Stop w fuel tr
        = some (some (.new ("Stopping service '" ++ service.Name
            ++ "' errored with message '" ++ service.StatusMessage ++ "'")), tr')
      ∧ numStatus tr' = numStatus tr + k + 1
      ∧ numSleep tr' = numSleep tr + k
      ∧ tr'.getLast? = some Call.clientStatus := by
  obtain ⟨tr1, e1, a1, a2, a3⟩ := Stop_reaches_loop w tr names fuel hg hstop
  obtain ⟨tr2, e2, b1, b2, b3⟩ := stopLoop_wait w k (fuel - k) [] tr1
    (by intro j hj; rw [a1, a2]; exact hwait j hj)
  have hf : k + (fuel - k) = fuel := by omega
  have hf' : fuel - k = (fuel - k - 1) + 1 := by omega
  rw [hf] at e2
  rw [hf'] at e2
  rw [stopLoop_step_errored w _ _ tr2 service (by rw [b2, a2]; exact htimer)
    (by rw [b1, a1]; exact hok) (by rw [b1, a1]; exact herr)] at e2
  refine ⟨_, by rw [e1, e2]; rfl, ?_, ?_, by simp⟩
  · simp [Call.isStatus, b1, a1]
  · simp [Call.isSleep, b3, a3]

theorem Stop_fails_on_first_errored_service_witness :
    ∃ tr', Stop worldPendingThenErrored 1 []
        = some (some (.new ("Stopping service '" ++ "b"
            ++ "' errored with message '" ++ "message of b" ++ "'")), tr')
      ∧ numStatus tr' = numStatus [] + 0 + 1
      ∧ numSleep tr' = numSleep [] + 0
      ∧ tr'.getLast? = some Call.clientStatus :=
  Stop_fails_on_first_errored_service worldPendingThenErrored [] ["a", "b"] 0
    (sampleService "b" false false true "failed") 1 rfl (fun _ _ => rfl)
    (fun j hj => absurd hj (Nat.not_lt_zero j)) rfl ⟨_, rfl⟩ rfl (by decide)

/-- C9, as stated, fails: with every stop command successful and no service
monitored at the first poll, `Stop` still sleeps when a service is pending, and
fails when a service is errored. -/
theorem Stop_unmonitored_not_enough :
    ((∀ service ∈ pollServices worldUnmonitoredPending 0, service.Monitored = false)
        ∧ ∃ tr', Stop worldUnmonitoredPending 2 [] = some (none, tr') ∧ numSleep tr' = 1)
      ∧ ((∀ service ∈ pollServices worldUnmonitoredErrored 0, service.Monitored = false)
        ∧ ∀ fuel tr', Stop worldUnmonitoredErrored fuel [] ≠ some (none, tr')) := by
  refine ⟨⟨by decide, _, rfl, by decide⟩, by decide, ?_⟩
  intro fuel tr'
  cases fuel with
  | zero => simp [Stop, worldUnmonitoredErrored, worldPolls, sampleWorld, stopServices, stopLoop]
  | succ n =>
    simp [Stop, worldUnmonitoredErrored, worldPolls, sampleWorld, stopServices, stopLoop,
      Call.isTimerSelect, Call.isStatus, Call.isStopService, Call.isServicesInGroup,
      sampleStatus, scanServices, sampleService]

/-- C9, amended: if every stop command succeeds and, on the first status poll,
every service of the group is neither monitored nor pending nor errored, `Stop`
returns success having performed zero sleeps (and that one poll).  The first
poll takes place: the services of the group are listed, the timer has not fired
at the first check, the status query succeeds, and the run has fuel for one
turn of the loop. -/
theorem Stop_succeeds_without_sleep (w : World) (tr : Trace) (names : List String)
    (fuel : Nat)
    (hg : w.servicesInGroupResults (numServicesInGroup tr) "vcap" = .ok names)
    (hstop : ∀ i name, w.stopServiceResults i name = none)
    (htimer : w.timerFired (numTimerSelect tr) = false)
    (hok : ∃ status, w.statusResults (numStatus tr) = .ok status)
    (hclear : ∀ service ∈ pollServices w (numStatus tr),
      service.Monitored = false ∧ service.Pending = false ∧ service.Errored = false)
    (hfuel : 0 < fuel) :
    ∃ tr', Stop w fuel tr = some (none, tr')
      ∧ numSleep tr' = numSleep tr
      ∧ numStatus tr' = numStatus tr + 1 := by
  obtain ⟨tr1, e1, a1, a2, a3⟩ := Stop_reaches_loop w tr names fuel hg hstop
  have hf : fuel = (fuel - 1) + 1 := by omega
  have he : firstErrored (pollServices w (numStatus tr)) = none := by
    simp only [firstErrored, List.find?_eq_none]
    intro s hs
    simp [(hclear s hs).2.2]
  have hp : pendingNames (pollServices w (numStatus tr)) = [] := by
    simp only [pendingNames, List.map_eq_nil_iff, List.filter_eq_nil_iff]
    intro s hs
    simp [(hclear s hs).1, (hclear s hs).2.1]
  rw [hf, stopLoop_step_done w _ _ tr1 (by rw [a2]; exact htimer) (by rw [a1]; exact hok)
    (by rw [a1]; exact he) (by rw [a1]; exact hp)] at e1
  refine ⟨_, by rw [hf]; exact e1, ?_, ?_⟩
  · simp [Call.isSleep, a3]
  · simp [Call.isStatus, a1]

theorem Stop_succeeds_without_sleep_witness :
    ∃ tr', Stop worldAllStopped 1 [] = some (none, tr')
      ∧ numSleep tr' = numSleep []
      ∧ numStatus tr' = numStatus [] + 1 :=
  Stop_succeeds_without_sleep worldAllStopped [] ["a", "b"] 1 rfl (fun _ _ => rfl) rfl
    ⟨_, rfl⟩ (by decide) (by decide)

/-- C10: when `Stop` finds at the top of its polling loop that the 10-minute
timer has fired, it returns the error "Timed out waiting for services '...' to
stop after 10 minutes" that lists exactly the names, in status order and joined
by ", ", of the services that were monitored or pending in the most recent
completed poll.  Here polls `0..k` left `Stop` waiting and the timer has fired
at the check after poll `k`; the run has fuel for that check. -/
theorem Stop_times_out_listing_pending (w : World) (tr : Trace) (names : List String)
    (k : Nat) (fuel : Nat)
    (hg : w.servicesInGroupResults (numServicesInGroup tr) "vcap" = .ok names)
    (hstop : ∀ i name, w.stopServiceResults i name = none)
    (hwait : ∀ j < k + 1, Waiting w (numTimerSelect tr + j) (numStatus tr + j))
    (hfired : w.timerFired (numTimerSelect tr + (k + 1)) = true)
    (hfuel : k + 1 < fuel) :
    ∃ tr', Stop w fuel tr
        = some (some (.new ("Timed out waiting for services '"
            ++ String.intercalate ", "
                ((((pollServices w (numStatus tr + k)).filter
                    (fun service => service.Monitored || service.Pending)).map Service.Name))
            ++ "' to stop after 10 minutes")), tr')
      ∧ Call.newTimer (10 * Minute) ∈ tr'
      ∧ numStatus tr' = numStatus tr + (k + 1)
      ∧ tr'.getLast? = some Call.timerSelect := by
  obtain ⟨tr1, e1, a1, a2, a3⟩ := Stop_reaches_loop w tr names fuel hg hstop
  obtain ⟨tr2, e2, b1, b2, b3⟩ := stopLoop_wait w (k + 1) (fuel - (k + 1)) [] tr1
    (by intro j hj; rw [a1, a2]; exact hwait j hj)
  have hf : k + 1 + (fuel - (k + 1)) = fuel := by omega
  have hf' : fuel - (k + 1) = (fuel - (k + 1) - 1) + 1 := by omega
  rw [hf] at e2
  rw [hf'] at e2
  rw [stopLoop_step_timeout w _ _ tr2 (by rw [b2, a2]; exact hfired)] at e2
  have hS : Stop w fuel tr = some (some (.new ("Timed out waiting for services '"
            ++ String.intercalate ", " (pendingNames (pollServices w (numStatus tr + k)))
            ++ "' to stop after 10 minutes")), tr2 ++ [Call.timerSelect]) := by
    rw [e1, e2]
    simp [a1]
  refine ⟨_, hS, Stop_timer w tr names fuel _ hg hstop hS, ?_, by simp⟩
  simp [Call.isStatus, b1, a1]

theorem Stop_times_out_listing_pending_witness :
    ∃ tr', Stop worldNeverStops 3 []
        = some (some (.new ("Timed out waiting for services '"
            ++ String.intercalate ", "
                ((((pollServices worldNeverStops (numStatus [] + 1)).filter
                    (fun service => service.Monitored || service.Pending)).map Service.Name))
            ++ "' to stop after 10 minutes")), tr')
      ∧ Call.newTimer (10 * Minute) ∈ tr'
      ∧ numStatus tr' = numStatus [] + (1 + 1)
      ∧ tr'.getLast? = some Call.timerSelect :=
  Stop_times_out_listing_pending worldNeverStops [] ["a", "b"] 1 3 rfl (fun _ _ => rfl)
    (by
      intro j hj
      have : j = 0 ∨ j = 1 := by omega
      rcases this with rfl | rfl
      · exact ⟨rfl, ⟨_, rfl⟩, by decide, by decide⟩
      · exact ⟨rfl, ⟨_, rfl⟩, by decide, by decide⟩)
    rfl (by decide)

/-! ## `Start` and `Unmonitor` -/

@[simp] theorem numStartService_append (tr tr' : Trace) :
    numStartService (tr ++ tr') = numStartService tr + numStartService tr' := by
  simp [numStartService, List.countP_append]

@[simp] theorem numStartService_nil : numStartService [] = 0 := rfl

@[simp] theorem numStartService_cons (c : Call) (tr : Trace) :
    numStartService (c :: tr) = (if c.isStartService then 1 else 0) + numStartService tr := by
  simp [numStartService, List.countP_cons, Nat.add_comm]

@[simp] theorem numUnmonitorService_append (tr tr' : Trace) :
    numUnmonitorService (tr ++ tr') = numUnmonitorService tr + numUnmonitorService tr' := by
  simp [numUnmonitorService, List.countP_append]

@[simp] theorem numUnmonitorService_nil : numUnmonitorService [] = 0 := rfl

@[simp] theorem numUnmonitorService_cons (c : Call) (tr : Trace) :
    numUnmonitorService (c :: tr)
      = (if c.isUnmonitorService then 1 else 0) + numUnmonitorService tr := by
  simp [numUnmonitorService, List.countP_cons, Nat.add_comm]

@[simp] theorem startedServices_append (tr tr' : Trace) :
    startedServices (tr ++ tr') = startedServices tr ++ startedServices tr' := by
  simp [startedServices]

@[simp] theorem unmonitoredServices_append (tr tr' : Trace) :
    unmonitoredServices (tr ++ tr') = unmonitoredServices tr ++ unmonitoredServices tr' := by
  simp [unmonitoredServices]


/-- One start call that succeeds: the loop goes on with the rest. -/
theorem startServices_step_ok (w : World) (service : String) (rest : List String) (tr : Trace)
    (h : w.startServiceResults (numStartService tr) service = none) :
    startServices w (service :: rest) tr
      = startServices w rest
          (tr ++ [Call.logDebug monitJobSupervisorLogTag ("Starting service " ++ service)]
            ++ [Call.clientStartService service]) := by
  rw [startServices]
  simp [Call.isStartService, h]

/-- One start call that fails: the loop returns the wrapped error. -/
theorem startServices_step_fail (w : World) (service : String) (rest : List String)
    (tr : Trace) (err : Err)
    (h : w.startServiceResults (numStartService tr) service = some err) :
    startServices w (service :: rest) tr
      = (some (.wrap err ("Starting service " ++ service)),
          tr ++ [Call.logDebug monitJobSupervisorLogTag ("Starting service " ++ service)]
            ++ [Call.clientStartService service]) := by
  rw [startServices]
  simp [Call.isStartService, h]

/-- When no start call fails the loop starts every service, in order. -/
theorem startServices_all_ok (w : World) :
    ∀ (services : List String) (tr : Trace),
    (∀ i name, services[i]? = some name →
        w.startServiceResults (numStartService tr + i) name = none) →
    (startServices w services tr).1 = none
      ∧ startedServices (startServices w services tr).2 = startedServices tr ++ services := by
  intro services
  induction services with
  | nil => intro tr _; simp [startServices]
  | cons s rest ih =>
    intro tr h
    have h0 := h 0 s (by simp)
    rw [Nat.add_zero] at h0
    rw [startServices_step_ok w s rest tr h0]
    obtain ⟨h1, h2⟩ := ih
      (tr ++ [Call.logDebug monitJobSupervisorLogTag ("Starting service " ++ s)]
        ++ [Call.clientStartService s])
      (by
        intro i name hi
        have := h (i + 1) name (by simpa using hi)
        simpa [Call.isStartService, Nat.add_assoc, Nat.add_comm 1 i] using this)
    refine ⟨h1, ?_⟩
    rw [h2]
    simp [startedServices]

/-- When start call `i` is the first that fails, the loop has started the
services up to and with service `i`, and returns the error of that call. -/
theorem startServices_first_failure (w : World) :
    ∀ (services : List String) (tr : Trace) (i : Nat) (name : String) (err : Err),
    services[i]? = some name →
    (∀ j name', j < i → services[j]? = some name' →
        w.startServiceResults (numStartService tr + j) name' = none) →
    w.startServiceResults (numStartService tr + i) name = some err →
    (startServices w services tr).1 = some (.wrap err ("Starting service " ++ name))
      ∧ startedServices (startServices w services tr).2
          = startedServices tr ++ services.take (i + 1) := by
  intro services
  induction services with
  | nil => intro tr i name err hi; simp at hi
  | cons s rest ih =>
    intro tr i name err hi hbefore hfail
    cases i with
    | zero =>
      have hs : s = name := by simpa using hi
      subst hs
      rw [Nat.add_zero] at hfail
      rw [startServices_step_fail w s rest tr err hfail]
      simp [startedServices]
    | succ i =>
      have h0 := hbefore 0 s (Nat.succ_pos i) (by simp)
      rw [Nat.add_zero] at h0
      rw [startServices_step_ok w s rest tr h0]
      obtain ⟨h1, h2⟩ := ih
        (tr ++ [Call.logDebug monitJobSupervisorLogTag ("Starting service " ++ s)]
          ++ [Call.clientStartService s]) i name err (by simpa using hi)
        (by
          intro j name' hj hj'
          have := hbefore (j + 1) name' (Nat.succ_lt_succ hj) (by simpa using hj')
          simpa [Call.isStartService, Nat.add_assoc, Nat.add_comm 1 j] using this)
        (by simpa [Call.isStartService, Nat.add_assoc, Nat.add_comm 1 i] using hfail)
      refine ⟨h1, ?_⟩
      rw [h2]
      simp [startedServices]

/-- When the loop of `Start` ends without an error, no start call has failed. -/
theorem startServices_ok_only_if (w : World) :
    ∀ (services : List String) (tr : Trace),
    (startServices w services tr).1 = none →
    ∀ i name, services[i]? = some name →
      w.startServiceResults (numStartService tr + i) name = none := by
  intro services
  induction services with
  | nil => intro tr _ i name hi; simp at hi
  | cons s rest ih =>
    intro tr hok i name hi
    cases h0 : w.startServiceResults (numStartService tr) s with
    | some err =>
      rw [startServices_step_fail w s rest tr err h0] at hok
      simp at hok
    | none =>
      rw [startServices_step_ok w s rest tr h0] at hok
      cases i with
      | zero =>
        have hs : s = name := by simpa using hi
        subst hs
        simpa using h0
      | succ i =>
        have := ih _ hok i name (by simpa using hi)
        simpa [Call.isStartService, Nat.add_assoc, Nat.add_comm 1 i] using this

/-- C11: for every list of services returned for the group, `Start` issues the
start calls in listed order and stops at the first failing one.  When call `i`
is the first that fails, the start calls made are the services up to and with
service `i`, and the error wraps the cause under "Starting service <name>";
when no call fails, every service is started and `Start` succeeds; and `Start`
succeeds if and only if no start call fails. -/
theorem Start_stops_at_first_failure (w : World) (tr : Trace) (services : List String)
    (hg : w.servicesInGroupResults (numServicesInGroup tr) "vcap" = .ok services) :
    (∀ i name err, services[i]? = some name →
        (∀ j name', j < i → services[j]? = some name' →
          w.startServiceResults (numStartService tr + j) name' = none) →
        w.startServiceResults (numStartService tr + i) name = some err →
        (Start w tr).1 = some (.wrap err ("Starting service " ++ name))
          ∧ startedServices (Start w tr).2 = startedServices tr ++ services.take (i + 1))
      ∧ ((∀ i name, services[i]? = some name →
            w.startServiceResults (numStartService tr + i) name = none) →
          (Start w tr).1 = none
            ∧ startedServices (Start w tr).2 = startedServices tr ++ services)
      ∧ ((Start w tr).1 = none ↔
          ∀ i name, services[i]? = some name →
            w.startServiceResults (numStartService tr + i) name = none) := by
  have hS : Start w tr = startServices w services (tr ++ [Call.clientServicesInGroup "vcap"]) := by
    rw [Start, hg]
  have hn : numStartService (tr ++ [Call.clientServicesInGroup "vcap"]) = numStartService tr := by
    simp [Call.isStartService]
  have hs : startedServices (tr ++ [Call.clientServicesInGroup "vcap"]) = startedServices tr := by
    simp [startedServices]
  rw [hS]
  refine ⟨?_, ?_, ?_, ?_⟩
  · intro i name err hi hbefore hfail
    have := startServices_first_failure w services (tr ++ [Call.clientServicesInGroup "vcap"])
      i name err hi (by rw [hn]; exact hbefore) (by rw [hn]; exact hfail)
    rw [hs] at this
    exact this
  · intro hall
    have := startServices_all_ok w services (tr ++ [Call.clientServicesInGroup "vcap"])
      (by rw [hn]; exact hall)
    rw [hs] at this
    exact this
  · intro hok
    have := startServices_ok_only_if w services (tr ++ [Call.clientServicesInGroup "vcap"]) hok
    rw [hn] at this
    exact this
  · intro hall
    exact (startServices_all_ok w services (tr ++ [Call.clientServicesInGroup "vcap"])
      (by rw [hn]; exact hall)).1

theorem Start_stops_at_first_failure_witness :
    (Start worldSecondCallFails []).1
        = some (.wrap (.new "start failed") ("Starting service " ++ "b"))
      ∧ startedServices (Start worldSecondCallFails []).2
          = startedServices [] ++ ["a", "b", "c"].take (1 + 1) :=
  (Start_stops_at_first_failure worldSecondCallFails [] ["a", "b", "c"] rfl).1
    1 "b" (.new "start failed") rfl
    (by
      intro j name' hj _
      have : j = 0 := by omega
      subst this
      rfl)
    rfl

/-- One unmonitor call that succeeds: the loop goes on with the rest. -/
theorem unmonitorServices_step_ok (w : World) (service : String) (rest : List String) (tr : Trace)
    (h : w.unmonitorServiceResults (numUnmonitorService tr) service = none) :
    unmonitorServices w (service :: rest) tr
      = unmonitorServices w rest
          (tr ++ [Call.logDebug monitJobSupervisorLogTag ("Unmonitoring service " ++ service)]
            ++ [Call.clientUnmonitorService service]) := by
  rw [unmonitorServices]
  simp [Call.isUnmonitorService, h]

/-- One unmonitor call that fails: the loop returns the wrapped error. -/
theorem unmonitorServices_step_fail (w : World) (service : String) (rest : List String)
    (tr : Trace) (err : Err)
    (h : w.unmonitorServiceResults (numUnmonitorService tr) service = some err) :
    unmonitorServices w (service :: rest) tr
      = (some (.wrap err ("Unmonitoring service " ++ service)),
          tr ++ [Call.logDebug monitJobSupervisorLogTag ("Unmonitoring service " ++ service)]
            ++ [Call.clientUnmonitorService service]) := by
  rw [unmonitorServices]
  simp [Call.isUnmonitorService, h]

/-- When no unmonitor call fails the loop unmonitors every service, in order. -/
theorem unmonitorServices_all_ok (w : World) :
    ∀ (services : List String) (tr : Trace),
    (∀ i name, services[i]? = some name →
        w.unmonitorServiceResults (numUnmonitorService tr + i) name = none) →
    (unmonitorServices w services tr).1 = none
      ∧ unmonitoredServices (unmonitorServices w services tr).2 = unmonitoredServices tr ++ services := by
  intro services
  induction services with
  | nil => intro tr _; simp [unmonitorServices]
  | cons s rest ih =>
    intro tr h
    have h0 := h 0 s (by simp)
    rw [Nat.add_zero] at h0
    rw [unmonitorServices_step_ok w s rest tr h0]
    obtain ⟨h1, h2⟩ := ih
      (tr ++ [Call.logDebug monitJobSupervisorLogTag ("Unmonitoring service " ++ s)]
        ++ [Call.clientUnmonitorService s])
      (by
        intro i name hi
        have := h (i + 1) name (by simpa using hi)
        simpa [Call.isUnmonitorService, Nat.add_assoc, Nat.add_comm 1 i] using this)
    refine ⟨h1, ?_⟩
    rw [h2]
    simp [unmonitoredServices]

/-- When unmonitor call `i` is the first that fails, the loop has unmonitored the
services up to and with service `i`, and returns the error of that call. -/
theorem unmonitorServices_first_failure (w : World) :
    ∀ (services : List String) (tr : Trace) (i : Nat) (name : String) (err : Err),
    services[i]? = some name →
    (∀ j name', j < i → services[j]? = some name' →
        w.unmonitorServiceResults (numUnmonitorService tr + j) name' = none) →
    w.unmonitorServiceResults (numUnmonitorService tr + i) name = some err →
    (unmonitorServices w services tr).1 = some (.wrap err ("Unmonitoring service " ++ name))
      ∧ unmonitoredServices (unmonitorServices w services tr).2
          = unmonitoredServices tr ++ services.take (i + 1) := by
  intro services
  induction services with
  | nil => intro tr i name err hi; simp at hi
  | cons s rest ih =>
    intro tr i name err hi hbefore hfail
    cases i with
    | zero =>
      have hs : s = name := by simpa using hi
      subst hs
      rw [Nat.add_zero] at hfail
      rw [unmonitorServices_step_fail w s rest tr err hfail]
      simp [unmonitoredServices]
    | succ i =>
      have h0 := hbefore 0 s (Nat.succ_pos i) (by simp)
      rw [Nat.add_zero] at h0
      rw [unmonitorServices_step_ok w s rest tr h0]
      obtain ⟨h1, h2⟩ := ih
        (tr ++ [Call.logDebug monitJobSupervisorLogTag ("Unmonitoring service " ++ s)]
          ++ [Call.clientUnmonitorService s]) i name err (by simpa using hi)
        (by
          intro j name' hj hj'
          have := hbefore (j + 1) name' (Nat.succ_lt_succ hj) (by simpa using hj')
          simpa [Call.isUnmonitorService, Nat.add_assoc, Nat.add_comm 1 j] using this)
        (by simpa [Call.isUnmonitorService, Nat.add_assoc, Nat.add_comm 1 i] using hfail)
      refine ⟨h1, ?_⟩
      rw [h2]
      simp [unmonitoredServices]

/-- When the loop of `Unmonitor` ends without an error, no unmonitor call has failed. -/
theorem unmonitorServices_ok_only_if (w : World) :
    ∀ (services : List String) (tr : Trace),
    (unmonitorServices w services tr).1 = none →
    ∀ i name, services[i]? = some name →
      w.unmonitorServiceResults (numUnmonitorService tr + i) name = none := by
  intro services
  induction services with
  | nil => intro tr _ i name hi; simp at hi
  | cons s rest ih =>
    intro tr hok i name hi
    cases h0 : w.unmonitorServiceResults (numUnmonitorService tr) s with
    | some err =>
      rw [unmonitorServices_step_fail w s rest tr err h0] at hok
      simp at hok
    | none =>
      rw [unmonitorServices_step_ok w s rest tr h0] at hok
      cases i with
      | zero =>
        have hs : s = name := by simpa using hi
        subst hs
        simpa using h0
      | succ i =>
        have := ih _ hok i name (by simpa using hi)
        simpa [Call.isUnmonitorService, Nat.add_assoc, Nat.add_comm 1 i] using this

/-- C12: for every list of services returned for the group, `Unmonitor` issues
an unmonitor call for each service in order and aborts on the first failure.
When call `i` is the first that fails, the unmonitor calls made are the services
up to and with service `i`, so no service after it is unmonitored, and the
error wraps the cause under "Unmonitoring service <name>"; when no call fails,
the unmonitor calls made are the listed services, one call each, and the result
is success. -/
theorem Unmonitor_stops_at_first_failure (w : World) (tr : Trace) (services : List String)
    (hg : w.servicesInGroupResults (numServicesInGroup tr) "vcap" = .ok services) :
    (∀ i name err, services[i]? = some name →
        (∀ j name', j < i → services[j]? = some name' →
          w.unmonitorServiceResults (numUnmonitorService tr + j) name' = none) →
        w.unmonitorServiceResults (numUnmonitorService tr + i) name = some err →
        (Unmonitor w tr).1 = some (.wrap err ("Unmonitoring service " ++ name))
          ∧ unmonitoredServices (Unmonitor w tr).2 = unmonitoredServices tr ++ services.take (i + 1))
      ∧ ((∀ i name, services[i]? = some name →
            w.unmonitorServiceResults (numUnmonitorService tr + i) name = none) →
          (Unmonitor w tr).1 = none
            ∧ unmonitoredServices (Unmonitor w tr).2 = unmonitoredServices tr ++ services)
      ∧ ((Unmonitor w tr).1 = none ↔
          ∀ i name, services[i]? = some name →
            w.unmonitorServiceResults (numUnmonitorService tr + i) name = none) := by
  have hS : Unmonitor w tr = unmonitorServices w services (tr ++ [Call.clientServicesInGroup "vcap"]) := by
    rw [Unmonitor, hg]
  have hn : numUnmonitorService (tr ++ [Call.clientServicesInGroup "vcap"]) = numUnmonitorService tr := by
    simp [Call.isUnmonitorService]
  have hs : unmonitoredServices (tr ++ [Call.clientServicesInGroup "vcap"]) = unmonitoredServices tr := by
    simp [unmonitoredServices]
  rw [hS]
  refine ⟨?_, ?_, ?_, ?_⟩
  · intro i name err hi hbefore hfail
    have := unmonitorServices_first_failure w services (tr ++ [Call.clientServicesInGroup "vcap"])
      i name err hi (by rw [hn]; exact hbefore) (by rw [hn]; exact hfail)
    rw [hs] at this
    exact this
  · intro hall
    have := unmonitorServices_all_ok w services (tr ++ [Call.clientServicesInGroup "vcap"])
      (by rw [hn]; exact hall)
    rw [hs] at this
    exact this
  · intro hok
    have := unmonitorServices_ok_only_if w services (tr ++ [Call.clientServicesInGroup "vcap"]) hok
    rw [hn] at this
    exact this
  · intro hall
    exact (unmonitorServices_all_ok w services (tr ++ [Call.clientServicesInGroup "vcap"])
      (by rw [hn]; exact hall)).1

theorem Unmonitor_stops_at_first_failure_witness :
    (Unmonitor worldSecondCallFails []).1
        = some (.wrap (.new "unmonitor failed") ("Unmonitoring service " ++ "b"))
      ∧ unmonitoredServices (Unmonitor worldSecondCallFails []).2
          = unmonitoredServices [] ++ ["a", "b", "c"].take (1 + 1) :=
  (Unmonitor_stops_at_first_failure worldSecondCallFails [] ["a", "b", "c"] rfl).1
    1 "b" (.new "unmonitor failed") rfl
    (by
      intro j name' hj _
      have : j = 0 := by omega
      subst this
      rfl)
    rfl


/-! ## `AddJob` -/

@[simp] theorem numReadFile_append (tr tr' : Trace) :
    numReadFile (tr ++ tr') = numReadFile tr + numReadFile tr' := by
  simp [numReadFile, List.countP_append]

@[simp] theorem numWriteFile_append (tr tr' : Trace) :
    numWriteFile (tr ++ tr') = numWriteFile tr + numWriteFile tr' := by
  simp [numWriteFile, List.countP_append]

@[simp] theorem numReadFile_nil : numReadFile [] = 0 := rfl

@[simp] theorem numReadFile_cons (c : Call) (tr : Trace) :
    numReadFile (c :: tr) = (if c.isReadFile then 1 else 0) + numReadFile tr := by
  simp [numReadFile, List.countP_cons, Nat.add_comm]

@[simp] theorem numWriteFile_nil : numWriteFile [] = 0 := rfl

@[simp] theorem numWriteFile_cons (c : Call) (tr : Trace) :
    numWriteFile (c :: tr) = (if c.isWriteFile then 1 else 0) + numWriteFile tr := by
  simp [numWriteFile, List.countP_cons, Nat.add_comm]

theorem zeroPad_length (width : Nat) (digits : List Char) :
    width ≤ (zeroPad width digits).length := by
  simp only [zeroPad, List.length_append, List.length_replicate]
  omega

theorem toDigitsCore_succ (fuel n : Nat) (ds : List Char) :
    Nat.toDigitsCore 10 (fuel + 1) n ds
      = if n / 10 = 0 then Nat.digitChar (n % 10) :: ds
        else Nat.toDigitsCore 10 fuel (n / 10) (Nat.digitChar (n % 10) :: ds) := by
  simp [Nat.toDigitsCore]

/-- Below 10000 the zero-padded decimal form has exactly four digits. -/
theorem zeroPad_toDigits_four (m : Nat) (h : m < 10000) :
    zeroPad 4 (Nat.toDigits 10 m)
      = [Nat.digitChar (m / 1000), Nat.digitChar (m / 100 % 10),
         Nat.digitChar (m / 10 % 10), Nat.digitChar (m % 10)] := by
  by_cases h1 : m < 10
  · have e : Nat.toDigits 10 m = [Nat.digitChar (m % 10)] := by
      rw [Nat.toDigits, toDigitsCore_succ, if_pos (by omega)]
    rw [e]
    have a : m / 1000 = 0 := by omega
    have b : m / 100 % 10 = 0 := by omega
    have c : m / 10 % 10 = 0 := by omega
    rw [a, b, c]
    rfl
  · by_cases h2 : m < 100
    · have e : Nat.toDigits 10 m = [Nat.digitChar (m / 10 % 10), Nat.digitChar (m % 10)] := by
        have f : m + 1 = (m - 1) + 1 + 1 := by omega
        rw [Nat.toDigits, f, toDigitsCore_succ, if_neg (by omega), toDigitsCore_succ,
          if_pos (by omega)]
      rw [e]
      have a : m / 1000 = 0 := by omega
      have b : m / 100 % 10 = 0 := by omega
      rw [a, b]
      rfl
    · by_cases h3 : m < 1000
      · have e : Nat.toDigits 10 m
            = [Nat.digitChar (m / 10 / 10 % 10), Nat.digitChar (m / 10 % 10),
               Nat.digitChar (m % 10)] := by
          have f : m + 1 = (m - 2) + 1 + 1 + 1 := by omega
          rw [Nat.toDigits, f, toDigitsCore_succ, if_neg (by omega), toDigitsCore_succ,
            if_neg (by omega), toDigitsCore_succ, if_pos (by omega)]
        rw [e]
        have a : m / 1000 = 0 := by omega
        have b : m / 10 / 10 = m / 100 := by omega
        rw [a, b]
        rfl
      · have e : Nat.toDigits 10 m
            = [Nat.digitChar (m / 10 / 10 / 10 % 10), Nat.digitChar (m / 10 / 10 % 10),
               Nat.digitChar (m / 10 % 10), Nat.digitChar (m % 10)] := by
          have f : m + 1 = (m - 3) + 1 + 1 + 1 + 1 := by omega
          rw [Nat.toDigits, f, toDigitsCore_succ, if_neg (by omega), toDigitsCore_succ,
            if_neg (by omega), toDigitsCore_succ, if_neg (by omega), toDigitsCore_succ,
            if_pos (by omega)]
        rw [e]
        have a : m / 10 / 10 / 10 % 10 = m / 1000 := by omega
        have b : m / 10 / 10 = m / 100 := by omega
        rw [a, b]
        rfl

/-- Decimal digit characters are ordered as their digits. -/
theorem digitChar_lt (x y : Nat) (hy : y < 10) (h : x < y) :
    Nat.digitChar x < Nat.digitChar y := by
  interval_cases y <;> interval_cases x <;> decide

theorem cons_lt_cons_head (x y : Char) (xs ys : List Char) (h : x < y) :
    x :: xs < y :: ys :=
  List.Lex.rel h

theorem cons_lt_cons_tail (x : Char) (xs ys : List Char) (h : xs < ys) :
    x :: xs < x :: ys :=
  List.Lex.cons h

/-- Two four-digit forms compare as their numbers, whatever follows them. -/
theorem fourDigits_lt (i j : Nat) (hj : j < 10000) (h : i < j) (ta tb : List Char) :
    [Nat.digitChar (i / 1000), Nat.digitChar (i / 100 % 10),
       Nat.digitChar (i / 10 % 10), Nat.digitChar (i % 10)] ++ ta
      < [Nat.digitChar (j / 1000), Nat.digitChar (j / 100 % 10),
          Nat.digitChar (j / 10 % 10), Nat.digitChar (j % 10)] ++ tb := by
  simp only [List.cons_append, List.nil_append]
  by_cases h3 : i / 1000 = j / 1000
  · rw [h3]
    apply cons_lt_cons_tail
    by_cases h2 : i / 100 % 10 = j / 100 % 10
    · rw [h2]
      apply cons_lt_cons_tail
      by_cases h1 : i / 10 % 10 = j / 10 % 10
      · rw [h1]
        apply cons_lt_cons_tail
        exact cons_lt_cons_head _ _ _ _
          (digitChar_lt (i % 10) (j % 10) (by omega) (by omega))
      · exact cons_lt_cons_head _ _ _ _
          (digitChar_lt (i / 10 % 10) (j / 10 % 10) (by omega) (by omega))
    · exact cons_lt_cons_head _ _ _ _
        (digitChar_lt (i / 100 % 10) (j / 100 % 10) (by omega) (by omega))
  · exact cons_lt_cons_head _ _ _ _
      (digitChar_lt (i / 1000) (j / 1000) (by omega) (by omega))

theorem targetFilename_toList (n : Int) (h0 : 0 ≤ n) (h : n ≤ 9999) (name : String) :
    (targetFilename n name).toList
      = [Nat.digitChar (n.natAbs / 1000), Nat.digitChar (n.natAbs / 100 % 10),
          Nat.digitChar (n.natAbs / 10 % 10), Nat.digitChar (n.natAbs % 10)]
        ++ ('_' :: (name.toList ++ ".monitrc".toList)) := by
  have hn : ¬ n < 0 := by omega
  have hm : n.natAbs < 10000 := by omega
  simp only [targetFilename, sprintf04d, if_neg hn, String.toList, String.data_append,
    zeroPad_toDigits_four _ hm]
  rfl

theorem decimalValue_append_singleton (ds : List Char) (c : Char) :
    decimalValue (ds ++ [c]) = 10 * decimalValue ds + (c.toNat - '0'.toNat) := by
  simp [decimalValue, List.foldl_append]

theorem decimalValue_replicate_zero (k : Nat) (ds : List Char) :
    decimalValue (List.replicate k '0' ++ ds) = decimalValue ds := by
  induction k with
  | zero => simp
  | succ k ih =>
    have h0 : ∀ (l : List Char) (a : Nat),
        List.foldl (fun n c => 10 * n + (c.toNat - '0'.toNat)) a ('0' :: l)
          = List.foldl (fun n c => 10 * n + (c.toNat - '0'.toNat)) (10 * a) l := by
      intro l a; simp
    simp only [decimalValue] at ih ⊢
    rw [List.replicate_succ, List.cons_append, h0]
    exact ih

/-- The digit characters: a decimal digit below 10 prints as a digit character
with that value, and as `0` only when it is 0. -/
theorem digitChar_facts (k : Nat) (h : k < 10) :
    (Nat.digitChar k).isDigit = true ∧ (Nat.digitChar k).toNat - '0'.toNat = k
      ∧ (Nat.digitChar k = '0' → k = 0) := by
  interval_cases k <;> decide

theorem toDigitsCore_append (fuel : Nat) :
    ∀ (n : Nat) (ds : List Char),
    Nat.toDigitsCore 10 fuel n ds = Nat.toDigitsCore 10 fuel n [] ++ ds := by
  induction fuel with
  | zero => intro n ds; simp [Nat.toDigitsCore]
  | succ fuel ih =>
    intro n ds
    rw [toDigitsCore_succ, toDigitsCore_succ]
    by_cases h : n / 10 = 0
    · simp [h]
    · simp only [h, if_false]
      rw [ih (n / 10) (Nat.digitChar (n % 10) :: ds), ih (n / 10) [Nat.digitChar (n % 10)]]
      simp

/-- The decimal digits of a number: digit characters only, none of them a
leading zero unless the number is 0, and they denote the number. -/
theorem toDigitsCore_decimal (fuel : Nat) :
    ∀ n, n < fuel →
    (∀ c ∈ Nat.toDigitsCore 10 fuel n [], c.isDigit = true)
      ∧ decimalValue (Nat.toDigitsCore 10 fuel n []) = n
      ∧ Nat.toDigitsCore 10 fuel n [] ≠ []
      ∧ (0 < n → (Nat.toDigitsCore 10 fuel n []).head? ≠ some '0') := by
  induction fuel with
  | zero => intro n h; omega
  | succ fuel ih =>
    intro n hn
    rw [toDigitsCore_succ]
    by_cases h : n / 10 = 0
    · have hlt : n < 10 := by omega
      obtain ⟨d1, d2, d3⟩ := digitChar_facts n hlt
      have hm : n % 10 = n := Nat.mod_eq_of_lt hlt
      simp only [h, if_true, hm]
      refine ⟨by simpa using d1, by simpa [decimalValue] using d2, by simp, ?_⟩
      intro hpos hhead
      simp only [List.head?_cons, Option.some.injEq] at hhead
      have := d3 hhead
      omega
    · simp only [h, if_false]
      rw [toDigitsCore_append]
      have hq : n / 10 < fuel := by omega
      obtain ⟨i1, i2, i3, i4⟩ := ih (n / 10) hq
      obtain ⟨d1, d2, _⟩ := digitChar_facts (n % 10) (Nat.mod_lt _ (by decide))
      refine ⟨?_, ?_, by simp [i3], ?_⟩
      · intro c hc
        rcases List.mem_append.mp hc with hc | hc
        · exact i1 c hc
        · simp only [List.mem_singleton] at hc
          rw [hc]; exact d1
      · rw [decimalValue_append_singleton, i2, d2]
        omega
      · intro _
        rw [List.head?_append_of_ne_nil _ i3]
        exact i4 (by omega)

theorem toDigits_decimal (n : Nat) :
    (∀ c ∈ Nat.toDigits 10 n, c.isDigit = true)
      ∧ decimalValue (Nat.toDigits 10 n) = n
      ∧ Nat.toDigits 10 n ≠ []
      ∧ (0 < n → (Nat.toDigits 10 n).head? ≠ some '0') :=
  toDigitsCore_decimal (n + 1) n (Nat.lt_succ_self n)

/-- Zero padding of the decimal digits of `n` to a width: digit characters
only, at least `width` of them and no more than the number needs, and they
denote `n`. -/
theorem zeroPad_decimal (width n : Nat) (hw : 1 ≤ width) :
    (∀ c ∈ zeroPad width (Nat.toDigits 10 n), c.isDigit = true)
      ∧ decimalValue (zeroPad width (Nat.toDigits 10 n)) = n
      ∧ width ≤ (zeroPad width (Nat.toDigits 10 n)).length
      ∧ ((zeroPad width (Nat.toDigits 10 n)).length = width
          ∨ (zeroPad width (Nat.toDigits 10 n)).head? ≠ some '0') := by
  obtain ⟨t1, t2, t3, t4⟩ := toDigits_decimal n
  refine ⟨?_, ?_, zeroPad_length _ _, ?_⟩
  · intro c hc
    rcases List.mem_append.mp hc with hc | hc
    · have := (List.mem_replicate.mp hc).2
      rw [this]; decide
    · exact t1 c hc
  · rw [zeroPad, decimalValue_replicate_zero, t2]
  · by_cases hlen : (Nat.toDigits 10 n).length ≤ width
    · left
      simp only [zeroPad, List.length_append, List.length_replicate]
      omega
    · right
      have hz : width - (Nat.toDigits 10 n).length = 0 := by omega
      have hpos : 0 < n := by
        rcases Nat.eq_zero_or_pos n with h0 | h0
        · subst h0
          have : (Nat.toDigits 10 0).length = 1 := by decide
          omega
        · exact h0
      simp only [zeroPad, hz, List.replicate_zero, List.nil_append]
      exact t4 hpos

/-- C13, as stated, fails: for the job index -5 `AddJob` succeeds and writes
the file `-005_web.monitrc`; the numeric prefix is a minus sign and three
digits, not the index zero-padded to at least 4 digits. -/
theorem AddJob_negative_index_three_digits :
    AddJob fsSample joinSample "/var/vcap/monit/job" "web" (-5) "/jobs/web/monit" []
        = (none, [Call.fsReadFile "/jobs/web/monit",
            Call.fsWriteFile (joinSample "/var/vcap/monit/job" "-005_web.monitrc") [1, 2, 3]])
      ∧ targetFilename (-5) "web" = "-005_web.monitrc"
      ∧ ((sprintf04d (-5)).toList.filter Char.isDigit).length = 3 := by
  decide

/-- C13, amended: `AddJob` reads `configPath` and writes what it read to
`filepath.Join(MonitJobsDir, targetFilename)`.  If reading fails, the wrapped
error is returned and no write call is made; if `AddJob` succeeds, its calls are
that read and then one successful write of exactly the content read to the
target path, whose file name is the prefix of the job index, `_`, the job name
and `.monitrc`.  For a job index that is not negative the prefix is the index
in decimal, zero-padded to at least 4 digits: digit characters only, that
denote the index, 4 of them or more, and more than 4 only without a leading
zero.  For a negative job index the prefix is a minus sign and the absolute
value zero-padded to at least 3 digits. -/
theorem AddJob_writes_what_it_read (fs : FileSystem) (filepathJoin : String → String → String)
    (monitJobsDir jobName : String) (jobIndex : Int) (configPath : String) (tr : Trace) :
    (∀ err, fs.readFileResults (numReadFile tr) configPath = .error err →
        AddJob fs filepathJoin monitJobsDir jobName jobIndex configPath tr
          = (some (.wrap err "Reading job config from file"),
              tr ++ [Call.fsReadFile configPath]))
      ∧ ((AddJob fs filepathJoin monitJobsDir jobName jobIndex configPath tr).1 = none →
          ∃ content, fs.readFileResults (numReadFile tr) configPath = .ok content
            ∧ fs.writeFileResults (numWriteFile tr)
                (filepathJoin monitJobsDir
                  (sprintf04d jobIndex ++ "_" ++ jobName ++ ".monitrc")) content = none
            ∧ (AddJob fs filepathJoin monitJobsDir jobName jobIndex configPath tr).2
                = tr ++ [Call.fsReadFile configPath,
                    Call.fsWriteFile
                      (filepathJoin monitJobsDir
                        (sprintf04d jobIndex ++ "_" ++ jobName ++ ".monitrc")) content])
      ∧ (0 ≤ jobIndex →
          (∀ c ∈ (sprintf04d jobIndex).toList, c.isDigit = true)
            ∧ decimalValue (sprintf04d jobIndex).toList = jobIndex.toNat
            ∧ 4 ≤ (sprintf04d jobIndex).toList.length
            ∧ ((sprintf04d jobIndex).toList.length = 4
                ∨ (sprintf04d jobIndex).toList.head? ≠ some '0'))
      ∧ (jobIndex < 0 →
          ∃ digits, (sprintf04d jobIndex).toList = '-' :: digits
            ∧ (∀ c ∈ digits, c.isDigit = true)
            ∧ decimalValue digits = jobIndex.natAbs
            ∧ 3 ≤ digits.length
            ∧ (digits.length = 3 ∨ digits.head? ≠ some '0')) := by
  refine ⟨?_, ?_, ?_, ?_⟩
  · intro err h
    simp [AddJob, h]
  · intro hok
    cases hr : fs.readFileResults (numReadFile tr) configPath with
    | error err => simp [AddJob, hr] at hok
    | ok content =>
      cases hw : fs.writeFileResults (numWriteFile tr)
          (filepathJoin monitJobsDir (targetFilename jobIndex jobName)) content with
      | some err => simp [AddJob, hr, hw, Call.isWriteFile] at hok
      | none =>
        refine ⟨content, rfl, hw, ?_⟩
        simp [AddJob, hr, hw, Call.isWriteFile]
        rfl
  · intro h0
    have hn : ¬ jobIndex < 0 := by omega
    have habs : jobIndex.natAbs = jobIndex.toNat := by omega
    simp only [sprintf04d, if_neg hn, String.toList, habs]
    exact zeroPad_decimal 4 jobIndex.toNat (by decide)
  · intro hneg
    refine ⟨zeroPad 3 (Nat.toDigits 10 jobIndex.natAbs), ?_, ?_⟩
    · simp only [sprintf04d, if_pos hneg, String.toList]
    · exact zeroPad_decimal 3 jobIndex.natAbs (by decide)

theorem AddJob_writes_what_it_read_witness :
    (AddJob fsSample joinSample "/var/vcap/monit/job" "web" 7 "/jobs/web/monit" []).1 = none
      ∧ (∃ content, fsSample.readFileResults (numReadFile []) "/jobs/web/monit" = .ok content
        ∧ fsSample.writeFileResults (numWriteFile [])
            (joinSample "/var/vcap/monit/job" (sprintf04d 7 ++ "_" ++ "web" ++ ".monitrc"))
            content = none
        ∧ (AddJob fsSample joinSample "/var/vcap/monit/job" "web" 7 "/jobs/web/monit" []).2
            = [] ++ [Call.fsReadFile "/jobs/web/monit",
                Call.fsWriteFile
                  (joinSample "/var/vcap/monit/job" (sprintf04d 7 ++ "_" ++ "web" ++ ".monitrc"))
                  content])
      ∧ ((∀ c ∈ (sprintf04d 7).toList, c.isDigit = true)
          ∧ decimalValue (sprintf04d 7).toList = (7 : Int).toNat
          ∧ 4 ≤ (sprintf04d 7).toList.length
          ∧ ((sprintf04d 7).toList.length = 4 ∨ (sprintf04d 7).toList.head? ≠ some '0'))
      ∧ sprintf04d 7 ++ "_" ++ "web" ++ ".monitrc" = "0007_web.monitrc" :=
  ⟨by decide,
   (AddJob_writes_what_it_read fsSample joinSample "/var/vcap/monit/job" "web" 7
      "/jobs/web/monit" []).2.1 (by decide),
   (AddJob_writes_what_it_read fsSample joinSample "/var/vcap/monit/job" "web" 7
      "/jobs/web/monit" []).2.2.1 (by decide),
   by decide⟩

/-- C14, as stated, fails: index 9999 comes before index 10000, but the file
name built for 10000 sorts before the one built for 9999. -/
theorem targetFilename_order_breaks_at_10000 :
    (0 : Int) ≤ 9999 ∧ (9999 : Int) < 10000
      ∧ ¬ (targetFilename 9999 "a" < targetFilename 10000 "b")
      ∧ targetFilename 10000 "b" < targetFilename 9999 "a" := by
  refine ⟨by decide, by decide, ?_, ?_⟩
  · rw [String.lt_iff_toList_lt]
    decide
  · rw [String.lt_iff_toList_lt]
    decide

/-- C14, amended: for every pair of job indices `0 <= i < j <= 9999` and any
job names `a` and `b`, the target file name built for `(i, a)` sorts
lexicographically before the one built for `(j, b)`. -/
theorem targetFilename_order_up_to_9999 (i j : Int) (a b : String)
    (hi : 0 ≤ i) (hij : i < j) (hj : j ≤ 9999) :
    targetFilename i a < targetFilename j b := by
  rw [String.lt_iff_toList_lt, targetFilename_toList i hi (by omega) a,
    targetFilename_toList j (by omega) hj b]
  exact fourDigits_lt _ _ (by omega) (by omega) _ _

theorem targetFilename_order_up_to_9999_witness :
    targetFilename 9 "zzz" < targetFilename 10 "a" :=
  targetFilename_order_up_to_9999 9 10 "zzz" "a" (by decide) (by decide) (by decide)

/-! ## Bounds and failures of `Reload` -/

/-- The inner loop only adds calls to the trace: no reload command, and at most
one status query for each iteration. -/
theorem checkLoop_calls (w : World) (opts : MonitReloadOptions) (old : Int) :
    ∀ (n : Nat) (cur : Int) (tr : Trace),
    ∃ ext, (checkLoop w opts old n cur tr).2 = tr ++ ext
      ∧ numRunCommand ext = 0 ∧ numStatus ext ≤ n := by
  intro n
  induction n with
  | zero => intro cur tr; exact ⟨[], by simp [checkLoop], rfl, by simp⟩
  | succ n ih =>
    intro cur tr
    rw [checkLoop, getIncarnation_eq]
    cases incarnationOf (w.statusResults (numStatus tr)) with
    | error err => exact ⟨[Call.clientStatus], rfl, rfl, by simp [Call.isStatus]⟩
    | ok c =>
      by_cases hc : old = c
      · obtain ⟨ext, e, h1, h2⟩ := ih c
          (tr ++ [Call.clientStatus] ++ [Call.logDebug monitJobSupervisorLogTag
                    ("Waiting for monit to reload: before=" ++ toString old
                      ++ " after=" ++ toString c),
                   Call.timeSleep opts.DelayBetweenCheckTries])
        refine ⟨[Call.clientStatus, Call.logDebug monitJobSupervisorLogTag
                    ("Waiting for monit to reload: before=" ++ toString old
                      ++ " after=" ++ toString c),
                   Call.timeSleep opts.DelayBetweenCheckTries] ++ ext, ?_, ?_, ?_⟩
        · simp only [ne_eq, hc, not_true_eq_false, if_false]
          rw [← hc] at e
          rw [← hc]
          rw [e]
          simp
        · simp [Call.isRunCommand, h1]
        · simp [Call.isStatus]
          omega
      · exact ⟨[Call.clientStatus], by simp [hc], rfl, by simp [Call.isStatus]⟩

/-- One turn of the outer loop begins with the reload command; what follows it
up to the inner loop is at most a log line. -/
theorem reloadLoop_step_calls (w : World) (opts : MonitReloadOptions) (old : Int) (m : Nat)
    (cur : Int) (tr : Trace) :
    ∃ pre, pre.head? = some (Call.runCommand "monit" ["reload"])
      ∧ numRunCommand pre = 1 ∧ numStatus pre = 0
      ∧ (∀ err tr3,
          checkLoop w opts old opts.MaxCheckTries.toNat cur (tr ++ pre) = (.ret err, tr3) →
          reloadLoop w opts old (m + 1) cur tr = (.ret err, tr3))
      ∧ (∀ cur' tr3,
          checkLoop w opts old opts.MaxCheckTries.toNat cur (tr ++ pre) = (.next cur', tr3) →
          reloadLoop w opts old (m + 1) cur tr = reloadLoop w opts old m cur' tr3) := by
  cases h : (w.runCommandResults (numRunCommand tr) "monit" ["reload"]).err with
  | none =>
    refine ⟨[Call.runCommand "monit" ["reload"]], rfl, by simp [Call.isRunCommand],
      by simp [Call.isStatus], ?_, ?_⟩
    · intro err tr3 e
      simp [reloadLoop, h, e]
    · intro cur' tr3 e
      simp [reloadLoop, h, e]
  | some err =>
    refine ⟨[Call.runCommand "monit" ["reload"],
        Call.logError monitJobSupervisorLogTag ("Failed to reload monit " ++ err.Error)],
      rfl, by simp [Call.isRunCommand], by simp [Call.isStatus], ?_, ?_⟩
    · intro err' tr3 e
      simp [reloadLoop, h, e]
    · intro cur' tr3 e
      simp [reloadLoop, h, e]

/-- The calls of the outer loop fall into turns, at most one for each iteration:
a turn begins with the reload command, holds no other command, and holds at
most `MaxCheckTries` status queries. -/
theorem reloadLoop_calls (w : World) (opts : MonitReloadOptions) (old : Int) :
    ∀ (m : Nat) (cur : Int) (tr : Trace),
    ∃ turns : List Trace, (reloadLoop w opts old m cur tr).2 = tr ++ turns.flatten
      ∧ turns.length ≤ m
      ∧ ∀ turn ∈ turns, turn.head? = some (Call.runCommand "monit" ["reload"])
          ∧ numRunCommand turn = 1 ∧ numStatus turn ≤ opts.MaxCheckTries.toNat := by
  intro m
  induction m with
  | zero => intro cur tr; exact ⟨[], by simp [reloadLoop], by simp, by simp⟩
  | succ m ih =>
    intro cur tr
    obtain ⟨pre, p1, p2, p3, eret, enext⟩ := reloadLoop_step_calls w opts old m cur tr
    obtain ⟨ext, e, x1, x2⟩ := checkLoop_calls w opts old opts.MaxCheckTries.toNat cur (tr ++ pre)
    have hturn : (pre ++ ext).head? = some (Call.runCommand "monit" ["reload"])
        ∧ numRunCommand (pre ++ ext) = 1
        ∧ numStatus (pre ++ ext) ≤ opts.MaxCheckTries.toNat := by
      refine ⟨?_, by simp [p2, x1], by simp [p3, x2]⟩
      cases pre with
      | nil => simp at p1
      | cons a rest => simpa using p1
    cases hcl : checkLoop w opts old opts.MaxCheckTries.toNat cur (tr ++ pre) with
    | mk f tr3 =>
      rw [hcl] at e
      simp only at e
      cases f with
      | ret err =>
        refine ⟨[pre ++ ext], ?_, by simp, ?_⟩
        · rw [eret _ _ hcl, e]; simp
        · intro turn ht
          simp only [List.mem_singleton] at ht
          rw [ht]
          exact hturn
      | next cur' =>
        obtain ⟨turns, et, t1, t2⟩ := ih cur' tr3
        refine ⟨(pre ++ ext) :: turns, ?_, by simp; omega, ?_⟩
        · rw [enext _ _ hcl, et, e]; simp
        · intro turn ht
          rcases List.mem_cons.mp ht with h | h
          · rw [h]; exact hturn
          · exact t2 turn h

/-- The totals over the turns of the outer loop. -/
theorem turns_counts (C : Nat) :
    ∀ turns : List Trace,
    (∀ turn ∈ turns, numRunCommand turn = 1 ∧ numStatus turn ≤ C) →
    numRunCommand turns.flatten = turns.length ∧ numStatus turns.flatten ≤ turns.length * C := by
  intro turns
  induction turns with
  | nil => intro _; simp
  | cons t rest ih =>
    intro h
    obtain ⟨h1, h2⟩ := ih (fun turn ht => h turn (List.mem_cons_of_mem _ ht))
    obtain ⟨a1, a2⟩ := h t (List.mem_cons_self _ _)
    refine ⟨by simp [a1, h1]; omega, ?_⟩
    simp only [List.flatten_cons, numStatus_append, List.length_cons, Nat.succ_mul]
    omega

/-- When every turn holds `C` status queries and the total is `m * C`. -/
theorem turns_full (C : Nat) :
    ∀ turns : List Trace,
    (∀ turn ∈ turns, numStatus turn ≤ C) → numStatus turns.flatten = turns.length * C →
    ∀ turn ∈ turns, numStatus turn = C := by
  intro turns
  induction turns with
  | nil => intro _ _ turn ht; simp at ht
  | cons t rest ih =>
    intro h hsum turn ht
    have ht0 := h t (List.mem_cons_self _ _)
    have hrest : ∀ turn ∈ rest, numStatus turn ≤ C :=
      fun turn ht => h turn (List.mem_cons_of_mem _ ht)
    have hle : numStatus rest.flatten ≤ rest.length * C := by
      clear ih hsum ht
      induction rest with
      | nil => simp
      | cons r rest ih2 =>
        have := ih2 (fun turn ht => h turn (by
          rcases List.mem_cons.mp ht with h' | h'
          · rw [h']; exact List.mem_cons_self _ _
          · exact List.mem_cons_of_mem _ (List.mem_cons_of_mem _ h')))
          (fun turn ht => hrest turn (List.mem_cons_of_mem _ ht))
        have hr := hrest r (List.mem_cons_self _ _)
        simp only [List.flatten_cons, numStatus_append, List.length_cons, Nat.succ_mul]
        omega
    simp only [List.flatten_cons, numStatus_append, List.length_cons, Nat.succ_mul] at hsum
    rcases List.mem_cons.mp ht with h' | h'
    · rw [h']; omega
    · exact ih hrest (by omega) turn h'

/-- The trace of `Reload` is the trace of its outer loop when the initial query
succeeds. -/
theorem Reload_trace (w : World) (opts : MonitReloadOptions) (tr : Trace) (c : Int)
    (hold : incarnationOf (w.statusResults (numStatus tr)) = .ok c) :
    (Reload w opts tr).2
      = (reloadLoop w opts c opts.MaxTries.toNat 0 (tr ++ [Call.clientStatus])).2 := by
  rw [Reload, getIncarnation_eq, hold]
  simp only
  cases reloadLoop w opts c opts.MaxTries.toNat 0 (tr ++ [Call.clientStatus]) with
  | mk f tr2 => cases f <;> rfl

/-- C27: `Reload` is bounded by its options (an option below zero counts as
zero).  In every run the calls of `Reload` are the initial status query followed
by at most `MaxTries` turns; each turn begins with the command `monit reload`,
holds no other command, and holds at most `MaxCheckTries` status queries; so the
run holds at most `MaxTries` reload commands and at most
`1 + MaxTries * MaxCheckTries` status queries.  When every query succeeds with
the same incarnation `c`, the bounds are met exactly and `Reload`, which is a
total function, ends with the error "Failed to reload monit". -/
theorem Reload_bounded_by_options (w : World) (opts : MonitReloadOptions) (tr : Trace) :
    ∃ turns : List Trace,
      (Reload w opts tr).2 = tr ++ Call.clientStatus :: turns.flatten
      ∧ turns.length ≤ opts.MaxTries.toNat
      ∧ (∀ turn ∈ turns, turn.head? = some (Call.runCommand "monit" ["reload"])
          ∧ numRunCommand turn = 1 ∧ numStatus turn ≤ opts.MaxCheckTries.toNat)
      ∧ numRunCommand (Reload w opts tr).2 ≤ numRunCommand tr + opts.MaxTries.toNat
      ∧ numStatus (Reload w opts tr).2
          ≤ numStatus tr + 1 + opts.MaxTries.toNat * opts.MaxCheckTries.toNat
      ∧ ∀ c : Int, (∀ k, incarnationOf (w.statusResults k) = .ok c) →
          turns.length = opts.MaxTries.toNat
          ∧ (∀ turn ∈ turns, numStatus turn = opts.MaxCheckTries.toNat)
          ∧ numRunCommand (Reload w opts tr).2 = numRunCommand tr + opts.MaxTries.toNat
          ∧ numStatus (Reload w opts tr).2
              = numStatus tr + 1 + opts.MaxTries.toNat * opts.MaxCheckTries.toNat
          ∧ (Reload w opts tr).1
              = some (.new ("Failed to reload monit: before=" ++ toString c ++ " after="
                  ++ toString (if opts.MaxTries.toNat * opts.MaxCheckTries.toNat = 0
                      then (0 : Int) else c))) := by
  cases hold : incarnationOf (w.statusResults (numStatus tr)) with
  | error err =>
    have hR : Reload w opts tr
        = (some (.wrap err "Getting monit incarnation"), tr ++ [Call.clientStatus]) := by
      rw [Reload, getIncarnation_eq, hold]
    refine ⟨[], by rw [hR]; simp, by simp, by simp, ?_, ?_, ?_⟩
    · rw [hR]; simp [Call.isRunCommand]
    · rw [hR]; simp [Call.isStatus]
    · intro c hconst
      rw [hconst] at hold
      cases hold
  | ok c0 =>
    obtain ⟨turns, e, t1, t2⟩ := reloadLoop_calls w opts c0 opts.MaxTries.toNat 0
      (tr ++ [Call.clientStatus])
    obtain ⟨n1, n2⟩ := turns_counts opts.MaxCheckTries.toNat turns
      (fun turn ht => ⟨(t2 turn ht).2.1, (t2 turn ht).2.2⟩)
    have hle : turns.length * opts.MaxCheckTries.toNat
        ≤ opts.MaxTries.toNat * opts.MaxCheckTries.toNat := Nat.mul_le_mul_right _ t1
    have hT : (Reload w opts tr).2 = tr ++ Call.clientStatus :: turns.flatten := by
      rw [Reload_trace w opts tr c0 hold, e]; simp
    refine ⟨turns, hT, t1, t2, ?_, ?_, ?_⟩
    · rw [hT]; simp [Call.isRunCommand, n1, t1]
    · rw [hT]; simp [Call.isStatus]; omega
    · intro c hconst
      have hc : c0 = c := by
        rw [hconst] at hold
        injection hold with h
        exact h.symm
      subst hc
      obtain ⟨tr', e', s1, s2, _⟩ := reloadLoop_same w opts c0 opts.MaxTries.toNat 0
        (tr ++ [Call.clientStatus]) (fun j _ => hconst _)
      rw [e'] at e
      simp only at e
      have hlen : turns.length = opts.MaxTries.toNat := by
        rw [e] at s2
        simp [Call.isRunCommand, n1] at s2
        omega
      have hsum : numStatus turns.flatten = turns.length * opts.MaxCheckTries.toNat := by
        rw [e] at s1
        simp [Call.isStatus] at s1
        rw [hlen]
        omega
      refine ⟨hlen, turns_full _ turns (fun turn ht => (t2 turn ht).2.2) hsum, ?_, ?_, ?_⟩
      · rw [hT]; simp [Call.isRunCommand, n1]; omega
      · rw [hT]; simp [Call.isStatus, hsum, hlen]; omega
      · rw [Reload, getIncarnation_eq, hold]
        simp only [e']

theorem Reload_bounded_by_options_witness :
    ∃ turns : List Trace,
      (Reload worldIncarnationConstant
          { MaxTries := 2, MaxCheckTries := 3, DelayBetweenCheckTries := 0 } []).2
        = [] ++ Call.clientStatus :: turns.flatten
      ∧ turns.length = 2
      ∧ (∀ turn ∈ turns, numStatus turn = 3)
      ∧ numRunCommand (Reload worldIncarnationConstant
          { MaxTries := 2, MaxCheckTries := 3, DelayBetweenCheckTries := 0 } []).2 = 0 + 2
      ∧ numStatus (Reload worldIncarnationConstant
          { MaxTries := 2, MaxCheckTries := 3, DelayBetweenCheckTries := 0 } []).2 = 0 + 1 + 2 * 3
      ∧ (Reload worldIncarnationConstant
          { MaxTries := 2, MaxCheckTries := 3, DelayBetweenCheckTries := 0 } []).1
          = some (.new ("Failed to reload monit: before=" ++ toString (5 : Int) ++ " after="
              ++ toString (5 : Int))) :=
  (Reload_bounded_by_options worldIncarnationConstant
    { MaxTries := 2, MaxCheckTries := 3, DelayBetweenCheckTries := 0 } []).imp
    (fun _ h => ⟨h.1, (h.2.2.2.2.2 5 (fun _ => rfl)).1, (h.2.2.2.2.2 5 (fun _ => rfl)).2.1,
      (h.2.2.2.2.2 5 (fun _ => rfl)).2.2.1, (h.2.2.2.2.2 5 (fun _ => rfl)).2.2.2.1,
      (h.2.2.2.2.2 5 (fun _ => rfl)).2.2.2.2⟩)

/-- The inner loop when check `j` is the first whose query fails. -/
theorem checkLoop_error (w : World) (opts : MonitReloadOptions) (old : Int) (err : Err) :
    ∀ (n j : Nat) (cur : Int) (tr : Trace), j < n →
    (∀ i < j, incarnationOf (w.statusResults (numStatus tr + i)) = .ok old) →
    incarnationOf (w.statusResults (numStatus tr + j)) = .error err →
    ∃ tr', checkLoop w opts old n cur tr
        = (.ret (some (.wrap err "Getting monit incarnation")), tr')
      ∧ numStatus tr' = numStatus tr + j + 1
      ∧ numRunCommand tr' = numRunCommand tr
      ∧ numSleep tr' = numSleep tr + j
      ∧ tr'.getLast? = some Call.clientStatus := by
  intro n
  induction n with
  | zero => intro j cur tr hj; omega
  | succ n ih =>
    intro j cur tr hj hsame hc
    cases j with
    | zero =>
      rw [Nat.add_zero] at hc
      exact ⟨_, checkLoop_step_error w opts old n cur tr err hc,
        by simp [Call.isStatus], by simp [Call.isRunCommand], by simp [Call.isSleep], by simp⟩
    | succ j =>
      have h0 := hsame 0 (Nat.succ_pos j)
      rw [Nat.add_zero] at h0
      obtain ⟨tr', e, h1, h2, h3, h4⟩ := ih j old
        (tr ++ [Call.clientStatus] ++ [Call.logDebug monitJobSupervisorLogTag
                    ("Waiting for monit to reload: before=" ++ toString old
                      ++ " after=" ++ toString old),
                   Call.timeSleep opts.DelayBetweenCheckTries])
        (Nat.lt_of_succ_lt_succ hj)
        (by
          intro i hi
          have := hsame (i + 1) (Nat.succ_lt_succ hi)
          simpa [Call.isStatus, Nat.add_assoc, Nat.add_comm 1 i] using this)
        (by simpa [Call.isStatus, Nat.add_assoc, Nat.add_comm 1 j] using hc)
      refine ⟨tr', ?_, ?_, ?_, ?_, h4⟩
      · rw [checkLoop_step_same w opts old n cur tr h0, e]
      · rw [h1]; simp [Call.isStatus]; omega
      · rw [h2]; simp [Call.isRunCommand]
      · rw [h3]; simp [Call.isSleep]; omega

/-- The outer loop when check `k` (counted from 0 over all turns) is the first
whose query fails: the loop has run the reload command `k / MaxCheckTries + 1`
times. -/
theorem reloadLoop_error (w : World) (opts : MonitReloadOptions) (old : Int) (err : Err) :
    ∀ (m k : Nat) (cur : Int) (tr : Trace), k < m * opts.MaxCheckTries.toNat →
    (∀ i < k, incarnationOf (w.statusResults (numStatus tr + i)) = .ok old) →
    incarnationOf (w.statusResults (numStatus tr + k)) = .error err →
    ∃ tr', reloadLoop w opts old m cur tr
        = (.ret (some (.wrap err "Getting monit incarnation")), tr')
      ∧ numStatus tr' = numStatus tr + k + 1
      ∧ numRunCommand tr' = numRunCommand tr + (k / opts.MaxCheckTries.toNat + 1)
      ∧ numSleep tr' = numSleep tr + k
      ∧ tr'.getLast? = some Call.clientStatus := by
  intro m
  induction m with
  | zero => intro k cur tr hk; simp at hk
  | succ m ih =>
    intro k cur tr hk hsame hc
    obtain ⟨tr2, a1, a2, a3, eret, enext⟩ := reloadLoop_step w opts old m cur tr
    by_cases hkC : k < opts.MaxCheckTries.toNat
    · obtain ⟨tr3, e3, b1, b2, b3, b4⟩ := checkLoop_error w opts old err
        opts.MaxCheckTries.toNat k cur tr2 hkC (by rw [a1]; exact hsame) (by rw [a1]; exact hc)
      refine ⟨tr3, ?_, ?_, ?_, ?_, b4⟩
      · rw [eret _ _ e3]
      · rw [b1, a1]
      · rw [b2, a2, Nat.div_eq_of_lt hkC]
      · rw [b3, a3]
    · obtain ⟨tr3, e3, b1, b2, b3⟩ := checkLoop_same w opts old opts.MaxCheckTries.toNat cur tr2
        (by
          intro j hj
          rw [a1]
          exact hsame j (by omega))
      rw [Nat.succ_mul] at hk
      have hpos : 0 < opts.MaxCheckTries.toNat := by
        rcases Nat.eq_zero_or_pos opts.MaxCheckTries.toNat with h0 | h0
        · rw [h0] at hk; simp at hk
        · exact h0
      obtain ⟨tr4, e4, c1, c2, c3, c4⟩ := ih (k - opts.MaxCheckTries.toNat)
        (if opts.MaxCheckTries.toNat = 0 then cur else old) tr3 (by omega)
        (by
          intro i hi
          rw [b1, a1, Nat.add_assoc]
          exact hsame _ (by omega))
        (by
          rw [b1, a1, Nat.add_assoc]
          have : opts.MaxCheckTries.toNat + (k - opts.MaxCheckTries.toNat) = k := by omega
          rw [this]
          exact hc)
      refine ⟨tr4, ?_, ?_, ?_, ?_, c4⟩
      · rw [enext _ _ e3, e4]
      · rw [c1, b1, a1]; omega
      · rw [c2, b2, a2, Nat.div_eq_sub_div hpos (Nat.le_of_not_lt hkC)]
        generalize (k - opts.MaxCheckTries.toNat) / opts.MaxCheckTries.toNat = q
        omega
      · rw [c3, b3, a3]; omega

/-- C29: `Reload` does not retry a failed status query.  Query 0 is the initial
incarnation query and query `k >= 1` is check `k`, one of the
`MaxTries * MaxCheckTries` checks allowed; the queries before query `k` succeed
(the checks find the captured incarnation `c`, so the run reaches query `k`)
and query `k` fails with `err`.  `Reload` then returns `err` wrapped as
"Getting monit incarnation", and the failed query is the last call of the run:
`k + 1` status queries, and `(k - 1) / MaxCheckTries + 1` reload commands (none
when `k = 0`), however many tries remain. -/
theorem Reload_returns_at_first_failed_query (w : World) (opts : MonitReloadOptions)
    (tr : Trace) (c : Int) (err : Err) (k : Nat)
    (hk : k ≤ opts.MaxTries.toNat * opts.MaxCheckTries.toNat)
    (hsame : ∀ i < k, incarnationOf (w.statusResults (numStatus tr + i)) = .ok c)
    (hfail : incarnationOf (w.statusResults (numStatus tr + k)) = .error err) :
    (Reload w opts tr).1 = some (.wrap err "Getting monit incarnation")
      ∧ (Err.wrap err "Getting monit incarnation").Error
          = "Getting monit incarnation: " ++ err.Error
      ∧ (Reload w opts tr).2.getLast? = some Call.clientStatus
      ∧ numStatus (Reload w opts tr).2 = numStatus tr + k + 1
      ∧ numRunCommand (Reload w opts tr).2
          = numRunCommand tr + (if k = 0 then 0 else (k - 1) / opts.MaxCheckTries.toNat + 1) := by
  cases k with
  | zero =>
    rw [Nat.add_zero] at hfail
    have hR : Reload w opts tr
        = (some (.wrap err "Getting monit incarnation"), tr ++ [Call.clientStatus]) := by
      rw [Reload, getIncarnation_eq, hfail]
    rw [hR]
    exact ⟨rfl, rfl, by simp, by simp [Call.isStatus], by simp [Call.isRunCommand]⟩
  | succ k =>
    have hold := hsame 0 (Nat.succ_pos k)
    rw [Nat.add_zero] at hold
    obtain ⟨tr', e, h1, h2, _, h4⟩ := reloadLoop_error w opts c err opts.MaxTries.toNat k 0
      (tr ++ [Call.clientStatus]) (by omega)
      (by
        intro i hi
        have := hsame (i + 1) (by omega)
        simpa [Call.isStatus, Nat.add_assoc, Nat.add_comm 1 i] using this)
      (by
        have : numStatus (tr ++ [Call.clientStatus]) + k = numStatus tr + (k + 1) := by
          simp [Call.isStatus]; omega
        rw [this]
        exact hfail)
    have hR : Reload w opts tr = (some (.wrap err "Getting monit incarnation"), tr') := by
      rw [Reload, getIncarnation_eq, hold]
      simp only [e]
    rw [hR]
    refine ⟨rfl, rfl, h4, ?_, ?_⟩
    · simp only [h1]
      simp [Call.isStatus]
      omega
    · simp only [h2]
      simp [Call.isRunCommand]

theorem Reload_returns_at_first_failed_query_witness :
    (Reload worldSecondCheckFails
        { MaxTries := 3, MaxCheckTries := 2, DelayBetweenCheckTries := 0 } []).1
        = some (.wrap (.new "connection refused") "Getting monit incarnation")
      ∧ (Err.wrap (.new "connection refused") "Getting monit incarnation").Error
          = "Getting monit incarnation: " ++ (Err.new "connection refused").Error
      ∧ (Reload worldSecondCheckFails
          { MaxTries := 3, MaxCheckTries := 2, DelayBetweenCheckTries := 0 } []).2.getLast?
          = some Call.clientStatus
      ∧ numStatus (Reload worldSecondCheckFails
          { MaxTries := 3, MaxCheckTries := 2, DelayBetweenCheckTries := 0 } []).2
          = numStatus [] + 2 + 1
      ∧ numRunCommand (Reload worldSecondCheckFails
          { MaxTries := 3, MaxCheckTries := 2, DelayBetweenCheckTries := 0 } []).2
          = numRunCommand [] + (if 2 = 0 then 0 else (2 - 1) / (2 : Int).toNat + 1) :=
  Reload_returns_at_first_failed_query worldSecondCheckFails
    { MaxTries := 3, MaxCheckTries := 2, DelayBetweenCheckTries := 0 } [] 5
    (.new "connection refused") 2 (by decide)
    (by
      intro i hi
      have : i = 0 ∨ i = 1 := by omega
      rcases this with rfl | rfl <;> rfl)
    rfl

/-- C30: `Reload` with no allowed check.  If `MaxTries <= 0` or
`MaxCheckTries <= 0` and the initial incarnation query succeeds with value `c`,
`Reload` makes no status query after the initial one and no sleep (the reload
command still runs `MaxTries` times when only `MaxCheckTries` is not positive),
and it fails with an error that reports before=c and after=0, the zero value
`currentIncarnation` starts with, so the two differ whenever `c` is not 0. -/
theorem Reload_without_allowed_check (w : World) (opts : MonitReloadOptions) (tr : Trace)
    (c : Int)
    (hopts : opts.MaxTries ≤ 0 ∨ opts.MaxCheckTries ≤ 0)
    (hold : incarnationOf (w.statusResults (numStatus tr)) = .ok c) :
    (Reload w opts tr).1
        = some (.new ("Failed to reload monit: before=" ++ toString c ++ " after="
            ++ toString (0 : Int)))
      ∧ numStatus (Reload w opts tr).2 = numStatus tr + 1
      ∧ numSleep (Reload w opts tr).2 = numSleep tr
      ∧ numRunCommand (Reload w opts tr).2 = numRunCommand tr + opts.MaxTries.toNat := by
  have hz : opts.MaxTries.toNat * opts.MaxCheckTries.toNat = 0 := by
    rcases hopts with h | h
    · rw [Int.toNat_eq_zero.mpr h, Nat.zero_mul]
    · rw [Int.toNat_eq_zero.mpr h, Nat.mul_zero]
  obtain ⟨tr', e, h1, h2, h3⟩ := reloadLoop_same w opts c opts.MaxTries.toNat 0
    (tr ++ [Call.clientStatus]) (by intro j hj; rw [hz] at hj; omega)
  rw [hz] at h1 h3
  rw [if_pos hz] at e
  have hR : Reload w opts tr
      = (some (.new ("Failed to reload monit: before=" ++ toString c ++ " after="
            ++ toString (0 : Int))), tr') := by
    rw [Reload, getIncarnation_eq, hold]
    simp only [e]
  rw [hR]
  refine ⟨rfl, ?_, ?_, ?_⟩
  · simp only [h1]; simp [Call.isStatus]
  · simp only [h3]; simp [Call.isSleep]
  · simp only [h2]; simp [Call.isRunCommand]

theorem Reload_without_allowed_check_witness :
    (Reload worldIncarnationConstant
        { MaxTries := 3, MaxCheckTries := 0, DelayBetweenCheckTries := 0 } []).1
        = some (.new ("Failed to reload monit: before=" ++ toString (5 : Int) ++ " after="
            ++ toString (0 : Int)))
      ∧ numStatus (Reload worldIncarnationConstant
          { MaxTries := 3, MaxCheckTries := 0, DelayBetweenCheckTries := 0 } []).2
          = numStatus [] + 1
      ∧ numSleep (Reload worldIncarnationConstant
          { MaxTries := 3, MaxCheckTries := 0, DelayBetweenCheckTries := 0 } []).2 = numSleep []
      ∧ numRunCommand (Reload worldIncarnationConstant
          { MaxTries := 3, MaxCheckTries := 0, DelayBetweenCheckTries := 0 } []).2
          = numRunCommand [] + (3 : Int).toNat :=
  Reload_without_allowed_check worldIncarnationConstant
    { MaxTries := 3, MaxCheckTries := 0, DelayBetweenCheckTries := 0 } [] 5
    (Or.inr (by decide)) rfl

/-! ## Soundness of `Stop` -/

/-- A scan of one poll that ends without an error met no errored service and
collected the names of the services that are monitored or pending. -/
theorem scanServices_ok (services : List Service) (acc out : List String)
    (h : scanServices services acc = .ok out) :
    firstErrored services = none ∧ out = acc ++ pendingNames services := by
  cases he : firstErrored services with
  | some service =>
    rw [scanServices_errored services service acc he] at h
    cases h
  | none =>
    rw [scanServices_clear services acc he] at h
    injection h with h
    exact ⟨rfl, h.symm⟩

/-- The first loop of `Stop` ends without an error only when every stop command
it issued succeeded; it then has issued one for each name and made no status
query. -/
theorem stopServices_success (w : World) :
    ∀ (names : List String) (tr tr1 : Trace), stopServices w names tr = (none, tr1) →
    (∀ i name, names[i]? = some name → w.stopServiceResults (numStopService tr + i) name = none)
      ∧ numStopService tr1 = numStopService tr + names.length
      ∧ numStatus tr1 = numStatus tr ∧ numTimerSelect tr1 = numTimerSelect tr := by
  intro names
  induction names with
  | nil =>
    intro tr tr1 h
    simp only [stopServices, Prod.mk.injEq, true_and] at h
    subst h
    simp
  | cons name rest ih =>
    intro tr tr1 h
    rw [stopServices] at h
    cases hs : w.stopServiceResults
        (numStopService (tr ++ [Call.logDebug monitJobSupervisorLogTag
          ("Stopping service '" ++ name ++ "'")])) name with
    | some err => rw [hs] at h; simp at h
    | none =>
      rw [hs] at h
      simp only at h
      obtain ⟨h1, h2, h3, h4⟩ := ih _ _ h
      have hn : numStopService (tr ++ [Call.logDebug monitJobSupervisorLogTag
          ("Stopping service '" ++ name ++ "'")]) = numStopService tr := by
        simp [Call.isStopService]
      rw [hn] at hs
      refine ⟨?_, ?_, ?_, ?_⟩
      · intro i nm hi
        cases i with
        | zero =>
          simp only [List.getElem?_cons_zero, Option.some.injEq] at hi
          subst hi
          simpa using hs
        | succ i =>
          simp only [List.getElem?_cons_succ] at hi
          have := h1 i nm hi
          simpa [Call.isStopService, Nat.add_assoc, Nat.add_comm 1 i] using this
      · rw [h2]; simp [Call.isStopService]; omega
      · rw [h3]; simp [Call.isStatus]
      · rw [h4]; simp [Call.isTimerSelect]

/-- The polling loop of `Stop` returns success only at a status query that
succeeds and shows no service of the group errored, monitored or pending; that
query is the last call of the run. -/
theorem stopLoop_success (w : World) :
    ∀ (fuel : Nat) (prev : List String) (tr tr' : Trace),
    stopLoop w fuel prev tr = some (none, tr') →
    tr'.getLast? = some Call.clientStatus
      ∧ numStatus tr < numStatus tr'
      ∧ numStopService tr' = numStopService tr
      ∧ (∃ status, w.statusResults (numStatus tr' - 1) = .ok status)
      ∧ firstErrored (pollServices w (numStatus tr' - 1)) = none
      ∧ pendingNames (pollServices w (numStatus tr' - 1)) = [] := by
  intro fuel
  induction fuel with
  | zero => intro prev tr tr' h; simp [stopLoop] at h
  | succ fuel ih =>
    intro prev tr tr' h
    rw [stopLoop] at h
    split at h
    · simp at h
    · simp only at h
      have hn : numStatus (tr ++ [Call.timerSelect]) = numStatus tr := by simp [Call.isStatus]
      rw [hn] at h
      split at h
      · simp at h
      · rename_i status hs
        split at h
        · simp at h
        · rename_i names hscan
          obtain ⟨he, hp⟩ := scanServices_ok _ _ _ hscan
          have hpoll : pollServices w (numStatus tr) = status.ServicesInGroup "vcap" := by
            simp [pollServices, hs]
          split at h
          · rename_i hlen
            simp only [Option.some.injEq, Prod.mk.injEq, true_and] at h
            subst h
            have hlast : numStatus (tr ++ [Call.timerSelect] ++ [Call.clientStatus]) - 1
                = numStatus tr := by
              simp [Call.isStatus]
            rw [hlast, hpoll]
            refine ⟨by simp, by simp [Call.isStatus], by simp [Call.isStopService],
              ⟨status, hs⟩, he, ?_⟩
            have : names = [] := List.length_eq_zero.mp hlen
            rw [this] at hp
            simpa using hp.symm
          · obtain ⟨g1, g2, g3, g4⟩ := ih _ _ _ h
            refine ⟨g1, ?_, ?_, g4⟩
            · have : numStatus (tr ++ [Call.timerSelect] ++ [Call.clientStatus]
                  ++ [Call.clockSleep (500 * Millisecond)]) = numStatus tr + 1 := by
                simp [Call.isStatus]
              omega
            · rw [g3]; simp [Call.isStopService]

/-- When the timer has not fired the loop of `Stop` polls: whatever the run
returns, its calls go on with a timer check and a status query. -/
theorem stopLoop_polls (w : World) (fuel : Nat) (prev : List String) (tr : Trace)
    (r : Option Err × Trace)
    (ht : w.timerFired (numTimerSelect tr) = false)
    (h : stopLoop w (fuel + 1) prev tr = some r) :
    ∃ ext, r.2 = tr ++ [Call.timerSelect, Call.clientStatus] ++ ext := by
  rw [stopLoop] at h
  simp only [ht, Bool.false_eq_true, if_false] at h
  split at h
  · injection h with h; subst h; exact ⟨[], by simp⟩
  · split at h
    · injection h with h; subst h; exact ⟨[], by simp⟩
    · split at h
      · injection h with h; subst h; exact ⟨[], by simp⟩
      · obtain ⟨ext, he⟩ := stopLoop_extends w _ _ _ _ h
        exact ⟨Call.clockSleep (500 * Millisecond) :: ext, by rw [he]; simp⟩

/-- C28: success of `Stop` is sound.  Whenever `Stop` returns success, the
services of the group were listed, every stop command it issued (one for each
listed name) succeeded, and the last status poll of the run, which is its last
call, succeeded and showed no service of the group monitored, pending or
errored.  Conversely, after a poll (poll `k`, reached through polls that left
`Stop` waiting) that shows at least one monitored-or-pending service and none
errored, `Stop` does not return: it sleeps 500ms once and goes on with the next
turn of its loop, which, unless the timer has fired, polls again. -/
theorem Stop_success_is_sound (w : World) (tr : Trace) (fuel : Nat) :
    (∀ tr', Stop w fuel tr = some (none, tr') →
      ∃ names, w.servicesInGroupResults (numServicesInGroup tr) "vcap" = .ok names
        ∧ (∀ i name, names[i]? = some name →
            w.stopServiceResults (numStopService tr + i) name = none)
        ∧ numStopService tr' = numStopService tr + names.length
        ∧ tr'.getLast? = some Call.clientStatus
        ∧ numStatus tr < numStatus tr'
        ∧ (∃ status, w.statusResults (numStatus tr' - 1) = .ok status)
        ∧ ∀ service ∈ pollServices w (numStatus tr' - 1),
            service.Monitored = false ∧ service.Pending = false ∧ service.Errored = false)
    ∧ (∀ (names : List String) (k : Nat),
        w.servicesInGroupResults (numServicesInGroup tr) "vcap" = .ok names →
        (∀ i name, w.stopServiceResults i name = none) →
        (∀ j < k + 1, Waiting w (numTimerSelect tr + j) (numStatus tr + j)) →
        k + 1 < fuel →
        ∃ trk, numStatus trk = numStatus tr + k ∧ numSleep trk = numSleep tr + k
          ∧ Stop w fuel tr
            = stopLoop w (fuel - (k + 1)) (pendingNames (pollServices w (numStatus tr + k)))
                (trk ++ [Call.timerSelect, Call.clientStatus,
                  Call.clockSleep (500 * Millisecond)])
          ∧ (w.timerFired (numTimerSelect tr + (k + 1)) = false →
              ∀ r, Stop w fuel tr = some r →
                ∃ ext, r.2 = trk ++ [Call.timerSelect, Call.clientStatus,
                  Call.clockSleep (500 * Millisecond), Call.timerSelect, Call.clientStatus]
                  ++ ext)) := by
  constructor
  · intro tr' h
    rw [Stop] at h
    cases hg : w.servicesInGroupResults (numServicesInGroup tr) "vcap" with
    | error err => rw [hg] at h; simp at h
    | ok names =>
      rw [hg] at h
      simp only at h
      cases hss : stopServices w names (tr ++ [Call.clientServicesInGroup "vcap"]) with
      | mk e tr1 =>
        rw [hss] at h
        cases e with
        | some err => simp at h
        | none =>
          simp only at h
          obtain ⟨s1, s2, s3, _⟩ := stopServices_success w names _ _ hss
          obtain ⟨g1, g2, g3, g4, g5, g6⟩ := stopLoop_success w _ _ _ _ h
          refine ⟨names, rfl, ?_, ?_, g1, ?_, g4, ?_⟩
          · intro i name hi
            have := s1 i name hi
            simpa [Call.isStopService] using this
          · rw [g3]
            simp only [numStopService_append, s2]
            simp [Call.isStopService]
          · have : numStatus (tr1 ++ [Call.newTimer (10 * Minute)]) = numStatus tr := by
              simp only [numStatus_append, s3]
              simp [Call.isStatus]
            omega
          · intro service hs
            have he : service.Errored = false := by
              have := List.find?_eq_none.mp g5 service hs
              simpa using this
            have hp : (service.Monitored || service.Pending) = false := by
              have := List.filter_eq_nil_iff.mp (List.map_eq_nil_iff.mp g6) service hs
              simpa using this
            simp only [Bool.or_eq_false_iff] at hp
            exact ⟨hp.1, hp.2, he⟩
  · intro names k hg hstop hwait hfuel
    obtain ⟨tr1, e1, a1, a2, a3⟩ := Stop_reaches_loop w tr names fuel hg hstop
    obtain ⟨trk, e2, b1, b2, b3⟩ := stopLoop_wait w k (fuel - k) [] tr1
      (by intro j hj; rw [a1, a2]; exact hwait j (by omega))
    have hf : k + (fuel - k) = fuel := by omega
    have hf' : fuel - k = (fuel - (k + 1)) + 1 := by omega
    rw [hf] at e2
    rw [hf'] at e2
    rw [stopLoop_step_wait w _ _ trk (by rw [b1, b2, a1, a2]; exact hwait k (by omega))] at e2
    have hS : Stop w fuel tr
        = stopLoop w (fuel - (k + 1)) (pendingNames (pollServices w (numStatus tr + k)))
            (trk ++ [Call.timerSelect, Call.clientStatus,
              Call.clockSleep (500 * Millisecond)]) := by
      rw [e1, e2, b1, a1]
      simp
    refine ⟨trk, by rw [b1, a1], by rw [b3, a3], hS, ?_⟩
    intro ht r hr
    rw [hS] at hr
    have hf2 : fuel - (k + 1) = (fuel - (k + 1) - 1) + 1 := by omega
    rw [hf2] at hr
    obtain ⟨ext, he⟩ := stopLoop_polls w _ _ _ r
      (by
        have : numTimerSelect (trk ++ [Call.timerSelect, Call.clientStatus,
            Call.clockSleep (500 * Millisecond)]) = numTimerSelect tr + (k + 1) := by
          simp [Call.isTimerSelect, b2, a2]
          omega
        rw [this]
        exact ht) hr
    exact ⟨ext, by rw [he]; simp⟩

theorem Stop_success_is_sound_witness :
    ∃ tr', Stop worldUnmonitoredPending 2 [] = some (none, tr')
      ∧ (∃ names, worldUnmonitoredPending.servicesInGroupResults (numServicesInGroup []) "vcap"
            = .ok names
          ∧ (∀ i name, names[i]? = some name →
              worldUnmonitoredPending.stopServiceResults (numStopService [] + i) name = none)
          ∧ numStopService tr' = numStopService [] + names.length
          ∧ tr'.getLast? = some Call.clientStatus
          ∧ numStatus [] < numStatus tr'
          ∧ (∃ status, worldUnmonitoredPending.statusResults (numStatus tr' - 1) = .ok status)
          ∧ ∀ service ∈ pollServices worldUnmonitoredPending (numStatus tr' - 1),
              service.Monitored = false ∧ service.Pending = false ∧ service.Errored = false)
      ∧ ∃ trk, numStatus trk = numStatus [] + 0 ∧ numSleep trk = numSleep [] + 0
          ∧ Stop worldUnmonitoredPending 2 []
            = stopLoop worldUnmonitoredPending (2 - (0 + 1))
                (pendingNames (pollServices worldUnmonitoredPending (numStatus [] + 0)))
                (trk ++ [Call.timerSelect, Call.clientStatus,
                  Call.clockSleep (500 * Millisecond)])
          ∧ (worldUnmonitoredPending.timerFired (numTimerSelect [] + (0 + 1)) = false →
              ∀ r, Stop worldUnmonitoredPending 2 [] = some r →
                ∃ ext, r.2 = trk ++ [Call.timerSelect, Call.clientStatus,
                  Call.clockSleep (500 * Millisecond), Call.timerSelect, Call.clientStatus]
                  ++ ext) :=
  ⟨_, rfl, (Stop_success_is_sound worldUnmonitoredPending [] 2).1 _ rfl,
    (Stop_success_is_sound worldUnmonitoredPending [] 2).2 ["a", "b"] 0 rfl (fun _ _ => rfl)
      (by
        intro j hj
        have : j = 0 := by omega
        subst this
        exact ⟨rfl, ⟨_, rfl⟩, by decide, by decide⟩)
      (by decide)⟩

/-! ## Error wrapping -/

/-- An error of the inner loop of `Reload` wraps the error of a status query. -/
theorem checkLoop_ret (w : World) (opts : MonitReloadOptions) (old : Int) (e : Err) :
    ∀ (n : Nat) (cur : Int) (tr tr' : Trace),
    checkLoop w opts old n cur tr = (.ret (some e), tr') →
    ∃ k err, incarnationOf (w.statusResults k) = .error err
      ∧ e = .wrap err "Getting monit incarnation" := by
  intro n
  induction n with
  | zero => intro cur tr tr' h; simp [checkLoop] at h
  | succ n ih =>
    intro cur tr tr' h
    rw [checkLoop, getIncarnation_eq] at h
    cases hq : incarnationOf (w.statusResults (numStatus tr)) with
    | error err =>
      rw [hq] at h
      simp only [Prod.mk.injEq, Flow.ret.injEq, Option.some.injEq] at h
      exact ⟨_, err, hq, h.1.symm⟩
    | ok c =>
      rw [hq] at h
      simp only at h
      split at h
      · simp at h
      · exact ih _ _ _ h

/-- An error of the outer loop of `Reload` wraps the error of a status query. -/
theorem reloadLoop_ret (w : World) (opts : MonitReloadOptions) (old : Int) (e : Err) :
    ∀ (m : Nat) (cur : Int) (tr tr' : Trace),
    reloadLoop w opts old m cur tr = (.ret (some e), tr') →
    ∃ k err, incarnationOf (w.statusResults k) = .error err
      ∧ e = .wrap err "Getting monit incarnation" := by
  intro m
  induction m with
  | zero => intro cur tr tr' h; simp [reloadLoop] at h
  | succ m ih =>
    intro cur tr tr' h
    obtain ⟨tr2, _, _, _, eret, enext⟩ := reloadLoop_step w opts old m cur tr
    cases hcl : checkLoop w opts old opts.MaxCheckTries.toNat cur tr2 with
    | mk f tr3 =>
      cases f with
      | ret err =>
        rw [eret _ _ hcl] at h
        simp only [Prod.mk.injEq, Flow.ret.injEq] at h
        rw [h.1] at hcl
        exact checkLoop_ret w opts old e _ _ _ _ hcl
      | next cur' =>
        rw [enext _ _ hcl] at h
        exact ih _ _ _ h

/-- An error of the loop of `Start` wraps the error of a start call. -/
theorem startServices_err (w : World) (e : Err) :
    ∀ (services : List String) (tr tr' : Trace),
    startServices w services tr = (some e, tr') →
    ∃ k service err, w.startServiceResults k service = some err
      ∧ e = .wrap err ("Starting service " ++ service) := by
  intro services
  induction services with
  | nil => intro tr tr' h; simp [startServices] at h
  | cons service rest ih =>
    intro tr tr' h
    rw [startServices] at h
    cases hs : w.startServiceResults
        (numStartService (tr ++ [Call.logDebug monitJobSupervisorLogTag
          ("Starting service " ++ service)])) service with
    | some err =>
      rw [hs] at h
      simp only [Prod.mk.injEq, Option.some.injEq] at h
      exact ⟨_, service, err, hs, h.1.symm⟩
    | none =>
      rw [hs] at h
      exact ih _ _ h

/-- An error of the loop of `Unmonitor` wraps the error of an unmonitor call. -/
theorem unmonitorServices_err (w : World) (e : Err) :
    ∀ (services : List String) (tr tr' : Trace),
    unmonitorServices w services tr = (some e, tr') →
    ∃ k service err, w.unmonitorServiceResults k service = some err
      ∧ e = .wrap err ("Unmonitoring service " ++ service) := by
  intro services
  induction services with
  | nil => intro tr tr' h; simp [unmonitorServices] at h
  | cons service rest ih =>
    intro tr tr' h
    rw [unmonitorServices] at h
    cases hs : w.unmonitorServiceResults
        (numUnmonitorService (tr ++ [Call.logDebug monitJobSupervisorLogTag
          ("Unmonitoring service " ++ service)])) service with
    | some err =>
      rw [hs] at h
      simp only [Prod.mk.injEq, Option.some.injEq] at h
      exact ⟨_, service, err, hs, h.1.symm⟩
    | none =>
      rw [hs] at h
      exact ih _ _ h

/-- An error of the first loop of `Stop` wraps the error of a stop call. -/
theorem stopServices_err (w : World) (e : Err) :
    ∀ (names : List String) (tr tr' : Trace),
    stopServices w names tr = (some e, tr') →
    ∃ k name err, w.stopServiceResults k name = some err
      ∧ e = .wrap err ("Stopping service '" ++ name ++ "'") := by
  intro names
  induction names with
  | nil => intro tr tr' h; simp [stopServices] at h
  | cons name rest ih =>
    intro tr tr' h
    rw [stopServices] at h
    cases hs : w.stopServiceResults
        (numStopService (tr ++ [Call.logDebug monitJobSupervisorLogTag
          ("Stopping service '" ++ name ++ "'")])) name with
    | some err =>
      rw [hs] at h
      simp only [Prod.mk.injEq, Option.some.injEq] at h
      exact ⟨_, name, err, hs, h.1.symm⟩
    | none =>
      rw [hs] at h
      exact ih _ _ h

/-- An error of the scan of one poll is the error `Stop` builds for an errored
service of the poll. -/
theorem scanServices_err (e : Err) :
    ∀ (services : List Service) (acc : List String), scanServices services acc = .error e →
    ∃ service ∈ services, service.Errored = true ∧ e = erroredErr service := by
  intro services
  induction services with
  | nil => intro acc h; simp [scanServices] at h
  | cons s rest ih =>
    intro acc h
    rw [scanServices] at h
    split at h
    · rename_i he
      injection h with h
      exact ⟨s, List.mem_cons_self _ _, he, h.symm⟩
    · obtain ⟨service, hm, hE, hx⟩ := ih _ h
      exact ⟨service, List.mem_cons_of_mem _ hm, hE, hx⟩

/-- An error of the polling loop of `Stop` wraps the error of a status query, or
is one of the two errors the loop builds itself. -/
theorem stopLoop_err (w : World) (e : Err) :
    ∀ (fuel : Nat) (prev : List String) (tr tr' : Trace),
    stopLoop w fuel prev tr = some (some e, tr') →
    (∃ k err, w.statusResults k = .error err ∧ e = .wrap err "Getting monit status")
      ∨ (∃ names, e = .new ("Timed out waiting for services '"
            ++ String.intercalate ", " names ++ "' to stop after 10 minutes"))
      ∨ (∃ service, service.Errored = true ∧ e = erroredErr service) := by
  intro fuel
  induction fuel with
  | zero => intro prev tr tr' h; simp [stopLoop] at h
  | succ fuel ih =>
    intro prev tr tr' h
    rw [stopLoop] at h
    split at h
    · simp only [Option.some.injEq, Prod.mk.injEq] at h
      exact Or.inr (Or.inl ⟨prev, h.1.symm⟩)
    · simp only at h
      split at h
      · rename_i err hs
        simp only [Option.some.injEq, Prod.mk.injEq] at h
        exact Or.inl ⟨_, err, hs, h.1.symm⟩
      · split at h
        · rename_i err hscan
          simp only [Option.some.injEq, Prod.mk.injEq] at h
          obtain ⟨service, _, hE, hx⟩ := scanServices_err err _ _ hscan
          rw [← h.1]
          exact Or.inr (Or.inr ⟨service, hE, hx⟩)
        · split at h
          · simp at h
          · exact ih _ _ _ h

/-- C26, as stated, fails: `RemoveAllJobs` returns the error of `fs.RemoveAll`
as it is, not wrapped with a stage name, so its message is the bare cause. -/
theorem RemoveAllJobs_returns_bare_cause :
    (RemoveAllJobs removeAllFails "/var/vcap/monit/job" []).1 = some (.new "permission denied")
      ∧ (¬ ∃ cause stage, (RemoveAllJobs removeAllFails "/var/vcap/monit/job" []).1
            = some (.wrap cause stage))
      ∧ ((RemoveAllJobs removeAllFails "/var/vcap/monit/job" []).1.map Err.Error)
          = some "permission denied" := by
  refine ⟨rfl, ?_, rfl⟩
  rintro ⟨cause, stage, h⟩
  simp [RemoveAllJobs, removeAllFails] at h

/-- C26, amended: in `Reload`, `Start`, `Stop`, `Unmonitor`, `AddJob` and
`MonitorJobFailures`, every returned error that is caused by a failing
collaborator call is that cause wrapped with a stage name, so its message is
"<stage>: <cause>"; the other errors they return are the ones `Reload` and
`Stop` build themselves (reload failed, timed out, service errored).
`RemoveAllJobs` is the exception: it returns the result of `fs.RemoveAll`
unchanged. -/
theorem supervisor_errors_are_wrapped (w : World) (fs : FileSystem)
    (opts : MonitReloadOptions) (filepathJoin : String → String → String)
    (monitJobsDir jobName configPath : String) (jobIndex : Int)
    (listenAndServe : String → Option Err) (jobFailuresServerPort : Int)
    (removeAllResults : Nat → String → Option Err) (fuel : Nat) (tr : Trace) (e : Err) :
    ((Reload w opts tr).1 = some e →
        (∃ k err, incarnationOf (w.statusResults k) = .error err
            ∧ e = .wrap err "Getting monit incarnation")
          ∨ ∃ before after : Int, e = .new ("Failed to reload monit: before="
              ++ toString before ++ " after=" ++ toString after))
      ∧ ((Start w tr).1 = some e →
        (∃ k err, w.servicesInGroupResults k "vcap" = .error err
            ∧ e = .wrap err "Getting vcap services")
          ∨ ∃ k service err, w.startServiceResults k service = some err
              ∧ e = .wrap err ("Starting service " ++ service))
      ∧ ((Unmonitor w tr).1 = some e →
        (∃ k err, w.servicesInGroupResults k "vcap" = .error err
            ∧ e = .wrap err "Getting vcap services")
          ∨ ∃ k service err, w.unmonitorServiceResults k service = some err
              ∧ e = .wrap err ("Unmonitoring service " ++ service))
      ∧ (∀ tr', Stop w fuel tr = some (some e, tr') →
        (∃ k err, w.servicesInGroupResults k "vcap" = .error err
            ∧ e = .wrap err "Getting vcap services")
          ∨ (∃ k name err, w.stopServiceResults k name = some err
              ∧ e = .wrap err ("Stopping service '" ++ name ++ "'"))
          ∨ (∃ k err, w.statusResults k = .error err ∧ e = .wrap err "Getting monit status")
          ∨ (∃ names, e = .new ("Timed out waiting for services '"
              ++ String.intercalate ", " names ++ "' to stop after 10 minutes"))
          ∨ ∃ service, service.Errored = true ∧ e = erroredErr service)
      ∧ ((AddJob fs filepathJoin monitJobsDir jobName jobIndex configPath tr).1 = some e →
        (∃ k err, fs.readFileResults k configPath = .error err
            ∧ e = .wrap err "Reading job config from file")
          ∨ ∃ k path content err, fs.writeFileResults k path content = some err
              ∧ e = .wrap err "Writing to job config file")
      ∧ (MonitorJobFailures listenAndServe jobFailuresServerPort = some e →
        ∃ addr err, listenAndServe addr = some err ∧ e = .wrap err "Listen for SMTP")
      ∧ (RemoveAllJobs removeAllResults monitJobsDir tr).1
          = removeAllResults (numRemoveAll tr) monitJobsDir
      ∧ ∀ cause stage, (Err.wrap cause stage).Error = stage ++ ": " ++ cause.Error := by
  refine ⟨?_, ?_, ?_, ?_, ?_, ?_, rfl, fun _ _ => rfl⟩
  · intro h
    rw [Reload, getIncarnation_eq] at h
    cases hq : incarnationOf (w.statusResults (numStatus tr)) with
    | error err =>
      rw [hq] at h
      simp only [Option.some.injEq] at h
      exact Or.inl ⟨_, err, hq, h.symm⟩
    | ok old =>
      rw [hq] at h
      simp only at h
      cases hl : reloadLoop w opts old opts.MaxTries.toNat 0 (tr ++ [Call.clientStatus]) with
      | mk f tr2 =>
        rw [hl] at h
        cases f with
        | ret err =>
          simp only at h
          rw [h] at hl
          exact Or.inl (reloadLoop_ret w opts old e _ _ _ _ hl)
        | next cur =>
          simp only [Option.some.injEq] at h
          exact Or.inr ⟨old, cur, h.symm⟩
  · intro h
    rw [Start] at h
    cases hg : w.servicesInGroupResults (numServicesInGroup tr) "vcap" with
    | error err =>
      rw [hg] at h
      simp only [Option.some.injEq] at h
      exact Or.inl ⟨_, err, hg, h.symm⟩
    | ok services =>
      rw [hg] at h
      simp only at h
      exact Or.inr (startServices_err w e services _ _ (Prod.ext h rfl))
  · intro h
    rw [Unmonitor] at h
    cases hg : w.servicesInGroupResults (numServicesInGroup tr) "vcap" with
    | error err =>
      rw [hg] at h
      simp only [Option.some.injEq] at h
      exact Or.inl ⟨_, err, hg, h.symm⟩
    | ok services =>
      rw [hg] at h
      simp only at h
      exact Or.inr (unmonitorServices_err w e services _ _ (Prod.ext h rfl))
  · intro tr' h
    rw [Stop] at h
    cases hg : w.servicesInGroupResults (numServicesInGroup tr) "vcap" with
    | error err =>
      rw [hg] at h
      simp only [Option.some.injEq, Prod.mk.injEq] at h
      exact Or.inl ⟨_, err, hg, h.1.symm⟩
    | ok names =>
      rw [hg] at h
      simp only at h
      cases hss : stopServices w names (tr ++ [Call.clientServicesInGroup "vcap"]) with
      | mk r tr1 =>
        rw [hss] at h
        cases r with
        | some err =>
          simp only [Option.some.injEq, Prod.mk.injEq] at h
          rw [h.1] at hss
          exact Or.inr (Or.inl (stopServices_err w e names _ _ hss))
        | none =>
          simp only at h
          exact Or.inr (Or.inr (stopLoop_err w e _ _ _ _ h))
  · intro h
    rw [AddJob] at h
    simp only at h
    cases hr : fs.readFileResults (numReadFile tr) configPath with
    | error err =>
      rw [hr] at h
      simp only [Option.some.injEq] at h
      exact Or.inl ⟨_, err, hr, h.symm⟩
    | ok content =>
      rw [hr] at h
      simp only at h
      split at h
      · rename_i err hw
        simp only [Option.some.injEq] at h
        exact Or.inr ⟨_, _, _, err, hw, h.symm⟩
      · simp at h
  · intro h
    rw [MonitorJobFailures] at h
    split at h
    · rename_i err hl
      simp only [Option.some.injEq] at h
      exact ⟨_, err, hl, h.symm⟩
    · simp at h

theorem supervisor_errors_are_wrapped_witness :
    ((∃ k err, worldSecondCallFails.servicesInGroupResults k "vcap" = .error err
          ∧ Err.wrap (.new "start failed") "Starting service b"
              = .wrap err "Getting vcap services")
        ∨ ∃ k service err, worldSecondCallFails.startServiceResults k service = some err
            ∧ Err.wrap (.new "start failed") "Starting service b"
                = .wrap err ("Starting service " ++ service))
      ∧ (Start worldSecondCallFails []).1
          = some (.wrap (.new "start failed") "Starting service b")
      ∧ (Err.wrap (.new "start failed") "Starting service b").Error
          = "Starting service b" ++ ": " ++ (Err.new "start failed").Error :=
  ⟨(supervisor_errors_are_wrapped worldSecondCallFails fsSample
      { MaxTries := 1, MaxCheckTries := 1, DelayBetweenCheckTries := 0 } joinSample
      "/var/vcap/monit/job" "web" "/jobs/web/monit" 0 (fun _ => none) 2825
      (fun _ _ => none) 1 [] (.wrap (.new "start failed") "Starting service b")).2.1 rfl,
    rfl, rfl⟩

end JobSupervisor

namespace Platform

open JobSupervisor (Err)

/-! ## Steps and calls -/

@[simp] theorem perform_calls (answer : Option Err) (stage : String) (call : DiskCall)
    (calls : List DiskCall) : (perform answer stage call calls).2 = calls ++ [call] := by
  cases answer <;> rfl

theorem perform_ok (stage : String) (call : DiskCall) (calls : List DiskCall) :
    perform none stage call calls = (none, calls ++ [call]) := rfl

theorem perform_fail (err : Err) (stage : String) (call : DiskCall) (calls : List DiskCall) :
    perform (some err) stage call calls = (some (.wrap err stage), calls ++ [call]) := rfl

theorem andThen_ok (calls : List DiskCall)
    (next : List DiskCall → Option Err × List DiskCall) :
    andThen (none, calls) next = next calls := rfl

theorem andThen_fail (err : Err) (calls : List DiskCall)
    (next : List DiskCall → Option Err × List DiskCall) :
    andThen (some err, calls) next = (some err, calls) := rfl

@[simp] theorem formatCalls_append (l l' : List DiskCall) :
    formatCalls (l ++ l') = formatCalls l ++ formatCalls l' := by
  simp [formatCalls]

@[simp] theorem formatCalls_nil : formatCalls [] = [] := rfl

@[simp] theorem formatCalls_cons (c : DiskCall) (l : List DiskCall) :
    formatCalls (c :: l)
      = (match c with
          | .format path fsType => [(path, fsType)]
          | _ => []) ++ formatCalls l := by
  cases c <;> simp [formatCalls]

@[simp] theorem mountCalls_append (l l' : List DiskCall) :
    mountCalls (l ++ l') = mountCalls l ++ mountCalls l' := by
  simp [mountCalls]

@[simp] theorem mountCalls_nil : mountCalls [] = [] := rfl

@[simp] theorem mountCalls_cons (c : DiskCall) (l : List DiskCall) :
    mountCalls (c :: l)
      = (match c with
          | .mount path mountPoint options => [(path, mountPoint, options)]
          | _ => []) ++ mountCalls l := by
  cases c <;> simp [mountCalls]

@[simp] theorem swapOnCalls_append (l l' : List DiskCall) :
    swapOnCalls (l ++ l') = swapOnCalls l ++ swapOnCalls l' := by
  simp [swapOnCalls]

@[simp] theorem swapOnCalls_nil : swapOnCalls [] = [] := rfl

@[simp] theorem swapOnCalls_cons (c : DiskCall) (l : List DiskCall) :
    swapOnCalls (c :: l)
      = (match c with
          | .swapOn path => [path]
          | _ => []) ++ swapOnCalls l := by
  cases c <;> simp [swapOnCalls]

@[simp] theorem partitionCalls_append (l l' : List DiskCall) :
    partitionCalls (l ++ l') = partitionCalls l ++ partitionCalls l' := by
  simp [partitionCalls]

@[simp] theorem partitionCalls_nil : partitionCalls [] = [] := rfl

@[simp] theorem partitionCalls_cons (c : DiskCall) (l : List DiskCall) :
    partitionCalls (c :: l)
      = (match c with
          | .partition device partitioner plan => [(device, partitioner, plan)]
          | _ => []) ++ partitionCalls l := by
  cases c <;> simp [partitionCalls]

/-- The stages of an ephemeral plan format, mount and swap on partition paths
of the device only, with the first or second new index. -/
theorem applyEphemeralPlan_paths (env : DiskEnv) (dirs : Dirs) (device : String)
    (start : Nat) (plan : List Partition) (calls : List DiskCall)
    (hf : formatCalls calls = []) (hm : mountCalls calls = []) (hs : swapOnCalls calls = []) :
    (∀ x ∈ formatCalls (applyEphemeralPlan env dirs device start plan calls).2,
        x.1 = partitionPath device (start + 1) ∨ x.1 = partitionPath device (start + 2))
      ∧ (∀ x ∈ mountCalls (applyEphemeralPlan env dirs device start plan calls).2,
        x.1 = partitionPath device (start + 1) ∨ x.1 = partitionPath device (start + 2))
      ∧ (∀ x ∈ swapOnCalls (applyEphemeralPlan env dirs device start plan calls).2,
        x = partitionPath device (start + 1)) := by
  cases h1 : env.partition device "" plan with
  | some err =>
    simp [applyEphemeralPlan, h1, perform_fail, andThen_fail, hf, hm, hs]
  | none =>
    simp only [applyEphemeralPlan, h1, perform_ok, andThen_ok]
    split
    · cases h2 : env.format (partitionPath device (start + 1)) .swap <;>
      cases h3 : env.format (partitionPath device (start + 2)) .ext4 <;>
      cases h4 : env.mount (partitionPath device (start + 2)) dirs.dataDir [] <;>
      cases h5 : env.swapOn (partitionPath device (start + 1)) <;>
      simp [perform_ok, perform_fail, andThen_ok, andThen_fail, hf, hm, hs]
    · cases h2 : env.format (partitionPath device (start + 1)) .ext4 <;>
      cases h3 : env.mount (partitionPath device (start + 1)) dirs.dataDir [] <;>
      simp [perform_ok, perform_fail, andThen_ok, andThen_fail, hf, hm, hs]

/-- Ephemeral setup on a given device formats, mounts and swaps on partition
paths of that device only, with index 1 or 2. -/
theorem SetupEphemeralDiskWithPath_paths (env : DiskEnv) (dirs : Dirs) (opts : LinuxOptions)
    (devicePath : String) (desired : Option Nat) (hpath : devicePath ≠ "") :
    (∀ x ∈ formatCalls (SetupEphemeralDiskWithPath env dirs opts devicePath desired).2,
        x.1 = partitionPath devicePath 1 ∨ x.1 = partitionPath devicePath 2)
      ∧ (∀ x ∈ mountCalls (SetupEphemeralDiskWithPath env dirs opts devicePath desired).2,
        x.1 = partitionPath devicePath 1 ∨ x.1 = partitionPath devicePath 2)
      ∧ (∀ x ∈ swapOnCalls (SetupEphemeralDiskWithPath env dirs opts devicePath desired).2,
        x = partitionPath devicePath 1) := by
  cases h1 : env.mkdirAll dirs.dataDir with
  | some err =>
    simp [SetupEphemeralDiskWithPath, h1, perform_fail, andThen_fail]
  | none =>
    cases hs : opts.SkipDiskSetup with
    | true =>
      simp [SetupEphemeralDiskWithPath, h1, hs, perform_ok, andThen_ok]
    | false =>
      cases hd : env.deviceSize devicePath with
      | error err =>
        simp [SetupEphemeralDiskWithPath, h1, hs, hpath, hd, perform_ok, andThen_ok]
      | ok total =>
        have hr : SetupEphemeralDiskWithPath env dirs opts devicePath desired
            = partitionEphemeralDisk env dirs devicePath 0 total desired
                ([.mkdirAll dirs.dataDir] ++ [.deviceSize devicePath]) := by
          simp [SetupEphemeralDiskWithPath, h1, hs, hpath, hd, perform_ok, andThen_ok]
        rw [hr]
        cases desired with
        | some S =>
          simpa [partitionEphemeralDisk] using
            applyEphemeralPlan_paths env dirs devicePath 0 (ephemeralPlan total 0 (some S))
              ([DiskCall.mkdirAll dirs.dataDir] ++ [DiskCall.deviceSize devicePath])
              (by simp) (by simp) (by simp)
        | none =>
          cases hm : env.memTotal with
          | error err =>
            simp [partitionEphemeralDisk, hm]
          | ok mem =>
            simpa [partitionEphemeralDisk, hm] using
              applyEphemeralPlan_paths env dirs devicePath 0 (ephemeralPlan total mem none)
                ([DiskCall.mkdirAll dirs.dataDir] ++ [DiskCall.deviceSize devicePath]
                  ++ [DiskCall.memStats])
                (by simp) (by simp) (by simp)

@[simp] theorem unmountOrRemountCalls_append (l l' : List DiskCall) :
    unmountOrRemountCalls (l ++ l') = unmountOrRemountCalls l ++ unmountOrRemountCalls l' := by
  simp [unmountOrRemountCalls]

@[simp] theorem unmountOrRemountCalls_nil : unmountOrRemountCalls [] = [] := rfl

@[simp] theorem unmountOrRemountCalls_cons (c : DiskCall) (l : List DiskCall) :
    unmountOrRemountCalls (c :: l)
      = (match c with
          | .unmount target => [target]
          | .remount mountPoint => [mountPoint]
          | _ => []) ++ unmountOrRemountCalls l := by
  cases c <;> simp [unmountOrRemountCalls]

@[simp] theorem unmountCalls_nil : unmountCalls [] = [] := rfl

@[simp] theorem unmountCalls_cons (c : DiskCall) (l : List DiskCall) :
    unmountCalls (c :: l)
      = (match c with
          | .unmount target => [target]
          | _ => []) ++ unmountCalls l := by
  cases c <;> simp [unmountCalls]

@[simp] theorem isMountedCalls_nil : isMountedCalls [] = [] := rfl

@[simp] theorem isMountedCalls_cons (c : DiskCall) (l : List DiskCall) :
    isMountedCalls (c :: l)
      = (match c with
          | .isMounted target => [target]
          | _ => []) ++ isMountedCalls l := by
  cases c <;> simp [isMountedCalls]

/-! ## Partition paths -/

/-- A path cannot start with both `/dev/nvme` and `/dev/mapper/`. -/
theorem not_nvme_of_mapper (path : String)
    (h : startsWith "/dev/mapper/" path = true) : startsWith "/dev/nvme" path = false := by
  cases hn : startsWith "/dev/nvme" path with
  | false => rfl
  | true =>
    exfalso
    simp only [startsWith, List.isPrefixOf_iff_prefix, List.prefix_iff_eq_take] at h hn
    have h6 : List.take 6 (List.take 12 path.toList) = List.take 6 (List.take 9 path.toList) := by
      simp [List.take_take]
    rw [show ("/dev/mapper/".toList).length = 12 from rfl] at h
    rw [show ("/dev/nvme".toList).length = 9 from rfl] at hn
    rw [← h, ← hn] at h6
    revert h6
    decide

theorem partitionPath_nvme (path : String) (n : Nat) (h : startsWith "/dev/nvme" path = true) :
    partitionPath path n = path ++ "p" ++ toString n := by
  simp [partitionPath, classifyDevice, h]

theorem partitionPath_mapper (path : String) (n : Nat)
    (h : startsWith "/dev/mapper/" path = true) :
    partitionPath path n = path ++ "-part" ++ toString n := by
  simp [partitionPath, classifyDevice, h, not_nvme_of_mapper path h]

theorem partitionPath_generic (path : String) (n : Nat)
    (h1 : startsWith "/dev/nvme" path = false) (h2 : startsWith "/dev/mapper/" path = false) :
    partitionPath path n = path ++ toString n := by
  simp [partitionPath, classifyDevice, h1, h2]


/-- Every plan is handed to the partitioner once, before any other stage. -/
theorem applyEphemeralPlan_partitionCalls (env : DiskEnv) (dirs : Dirs) (device : String)
    (start : Nat) (plan : List Partition) (calls : List DiskCall) :
    partitionCalls (applyEphemeralPlan env dirs device start plan calls).2
      = partitionCalls calls ++ [(device, "", plan)] := by
  cases h1 : env.partition device "" plan with
  | some err =>
    simp [applyEphemeralPlan, h1, perform_fail, andThen_fail]
  | none =>
    simp only [applyEphemeralPlan, h1, perform_ok, andThen_ok]
    split
    · cases h2 : env.format (partitionPath device (start + 1)) .swap <;>
      cases h3 : env.format (partitionPath device (start + 2)) .ext4 <;>
      cases h4 : env.mount (partitionPath device (start + 2)) dirs.dataDir [] <;>
      cases h5 : env.swapOn (partitionPath device (start + 1)) <;>
      simp [perform_ok, perform_fail, andThen_ok, andThen_fail]
    · cases h2 : env.format (partitionPath device (start + 1)) .ext4 <;>
      cases h3 : env.mount (partitionPath device (start + 1)) dirs.dataDir [] <;>
      simp [perform_ok, perform_fail, andThen_ok, andThen_fail]

/-- The stages of a plan of one linux partition: partition, format of the first
new partition as ext4, mount of that partition at the data directory. -/
theorem applyEphemeralPlan_single (env : DiskEnv) (dirs : Dirs) (device : String)
    (start D : Nat) (calls : List DiskCall) :
    swapOnCalls (applyEphemeralPlan env dirs device start
        [{ SizeInBytes := D, Kind := .linux }] calls).2 = swapOnCalls calls
      ∧ (formatCalls (applyEphemeralPlan env dirs device start
            [{ SizeInBytes := D, Kind := .linux }] calls).2 = formatCalls calls
          ∨ formatCalls (applyEphemeralPlan env dirs device start
              [{ SizeInBytes := D, Kind := .linux }] calls).2
              = formatCalls calls ++ [(partitionPath device (start + 1), .ext4)])
      ∧ (env.partition device "" [{ SizeInBytes := D, Kind := .linux }] = none →
          env.format (partitionPath device (start + 1)) .ext4 = none →
          env.mount (partitionPath device (start + 1)) dirs.dataDir [] = none →
          applyEphemeralPlan env dirs device start [{ SizeInBytes := D, Kind := .linux }] calls
            = (none, calls ++ [.partition device "" [{ SizeInBytes := D, Kind := .linux }],
                .format (partitionPath device (start + 1)) .ext4,
                .mount (partitionPath device (start + 1)) dirs.dataDir []])) := by
  cases h1 : env.partition device "" [{ SizeInBytes := D, Kind := .linux }] <;>
  cases h2 : env.format (partitionPath device (start + 1)) .ext4 <;>
  cases h3 : env.mount (partitionPath device (start + 1)) dirs.dataDir [] <;>
  simp [applyEphemeralPlan, h1, h2, h3, perform_ok, perform_fail, andThen_ok, andThen_fail]

/-- How ephemeral setup gets to its sizing stage: the data directory is there,
setup is not skipped, the device (or the root disk) is found and has size
`total`. -/
theorem SetupEphemeralDiskWithPath_reaches_sizing (env : DiskEnv) (dirs : Dirs)
    (opts : LinuxOptions) (devicePath device : String) (start total : Nat)
    (desired : Option Nat)
    (hdir : env.mkdirAll dirs.dataDir = none) (hskip : opts.SkipDiskSetup = false)
    (htarget : (devicePath ≠ "" ∧ device = devicePath ∧ start = 0
          ∧ env.deviceSize devicePath = .ok total)
        ∨ (devicePath = "" ∧ opts.CreatePartitionIfNoEphemeralDisk = true
          ∧ env.rootDevice = .ok (device, start) ∧ env.deviceSize device = .ok total
          ∧ total > env.minRootEphemeralSpace)) :
    ∃ calls, partitionCalls calls = [] ∧ formatCalls calls = [] ∧ mountCalls calls = []
      ∧ swapOnCalls calls = []
      ∧ SetupEphemeralDiskWithPath env dirs opts devicePath desired
          = partitionEphemeralDisk env dirs device start total desired calls := by
  rcases htarget with ⟨hp, rfl, rfl, hsize⟩ | ⟨hp, hroot, hrd, hsize, hmin⟩
  · exact ⟨[.mkdirAll dirs.dataDir] ++ [.deviceSize device], by simp, by simp, by simp,
      by simp,
      by simp [SetupEphemeralDiskWithPath, hdir, hskip, hp, hsize, perform_ok, andThen_ok]⟩
  · exact ⟨[.mkdirAll dirs.dataDir] ++ [.rootDevice, .deviceSize device], by simp, by simp,
      by simp, by simp,
      by simp [SetupEphemeralDiskWithPath, hdir, hskip, hp, hroot, hrd, hsize, hmin,
        perform_ok, andThen_ok]⟩

/-! ## Persistent disk -/

/-- Without preformatted mode, `MountPersistentDisk` formats and mounts the
first partition path of the resolved device only. -/
theorem MountPersistentDisk_paths (env : DiskEnv) (dirs : Dirs) (opts : LinuxOptions)
    (diskSettings : DiskSettings) (mountPoint : String)
    (hpre : opts.UsePreformattedPersistentDisk = false) :
    (∀ x ∈ formatCalls (MountPersistentDisk env dirs opts diskSettings mountPoint).2,
        x.1 = partitionPath (env.resolve diskSettings).realPath 1)
      ∧ (∀ x ∈ mountCalls (MountPersistentDisk env dirs opts diskSettings mountPoint).2,
        x.1 = partitionPath (env.resolve diskSettings).realPath 1) := by
  have ht : persistentTarget opts (env.resolve diskSettings).realPath
      = partitionPath (env.resolve diskSettings).realPath 1 := by
    simp [persistentTarget, hpre]
  cases hres : (env.resolve diskSettings).err with
  | some err => simp [MountPersistentDisk, hres]
  | none =>
    rcases hmp : env.isMountPoint mountPoint with ⟨device, isMP, err⟩
    cases err with
    | some err => simp [MountPersistentDisk, hres, hmp]
    | none =>
      cases isMP with
      | true =>
        by_cases hd : device = partitionPath (env.resolve diskSettings).realPath 1
        · simp [MountPersistentDisk, hres, hmp, hd, ht]
        · cases h1 : env.mkdirAll dirs.storeMigrationDir <;>
          simp [MountPersistentDisk, hres, hmp, hd, h1, perform_ok, perform_fail, andThen_ok,
            andThen_fail, ht]
      | false =>
        cases h1 : env.mkdirAll mountPoint with
        | some err =>
          simp [MountPersistentDisk, hres, hmp, h1, perform_fail, andThen_fail]
        | none =>
          cases h2 : env.partition (env.resolve diskSettings).realPath diskSettings.Partitioner
              [{ SizeInBytes := 0, Kind := .linux }] with
          | some err =>
            simp [MountPersistentDisk, hres, hmp, h1, h2, hpre, perform_ok, perform_fail,
              andThen_ok, andThen_fail]
          | none =>
            cases h3 : persistentFileSystem diskSettings.FileSystemType with
            | none =>
              simp [MountPersistentDisk, hres, hmp, h1, h2, h3, hpre, perform_ok, perform_fail,
                andThen_ok, andThen_fail]
            | some fsType =>
              cases h4 : env.format
                  (partitionPath (env.resolve diskSettings).realPath 1) fsType <;>
              cases h5 : env.mount (partitionPath (env.resolve diskSettings).realPath 1)
                  mountPoint diskSettings.MountOptions <;>
              simp [MountPersistentDisk, hres, hmp, h1, h2, h3, h4, h5, hpre, perform_ok,
                perform_fail, andThen_ok, andThen_fail, ht]

/-! ## Partition paths -/

/-- C15: the partition path of device path `P` and index `n` is `P ++ "p" ++ n`
if `P` starts with `/dev/nvme`, `P ++ "-part" ++ n` if `P` starts with
`/dev/mapper/`, and `P ++ n` otherwise; and the operations take their partition
paths from this rule: ephemeral setup on `P` formats, mounts and swaps on
`partitionPath P 1` and `partitionPath P 2` only, and for a disk that resolves
to `P`, outside preformatted mode, persistent mount formats and mounts
`partitionPath P 1` only, unmount unmounts it and the is-mounted check checks
it. -/
theorem partitionPath_rule_and_use (P : String) (n : Nat) (env : DiskEnv) (dirs : Dirs)
    (opts : LinuxOptions) (diskSettings : DiskSettings) (mountPoint : String)
    (desired : Option Nat) :
    (startsWith "/dev/nvme" P = true → partitionPath P n = P ++ "p" ++ toString n)
      ∧ (startsWith "/dev/mapper/" P = true → partitionPath P n = P ++ "-part" ++ toString n)
      ∧ (startsWith "/dev/nvme" P = false → startsWith "/dev/mapper/" P = false →
          partitionPath P n = P ++ toString n)
      ∧ (P ≠ "" →
          (∀ x ∈ formatCalls (SetupEphemeralDiskWithPath env dirs opts P desired).2,
              x.1 = partitionPath P 1 ∨ x.1 = partitionPath P 2)
            ∧ (∀ x ∈ mountCalls (SetupEphemeralDiskWithPath env dirs opts P desired).2,
              x.1 = partitionPath P 1 ∨ x.1 = partitionPath P 2)
            ∧ (∀ x ∈ swapOnCalls (SetupEphemeralDiskWithPath env dirs opts P desired).2,
              x = partitionPath P 1))
      ∧ (opts.UsePreformattedPersistentDisk = false →
          env.resolve diskSettings = { realPath := P, timedOut := false, err := none } →
          (∀ x ∈ formatCalls (MountPersistentDisk env dirs opts diskSettings mountPoint).2,
              x.1 = partitionPath P 1)
            ∧ (∀ x ∈ mountCalls (MountPersistentDisk env dirs opts diskSettings mountPoint).2,
              x.1 = partitionPath P 1)
            ∧ unmountCalls (UnmountPersistentDisk env opts diskSettings).2
                = [partitionPath P 1]
            ∧ isMountedCalls (IsPersistentDiskMounted env opts diskSettings).2
                = [partitionPath P 1]) := by
  refine ⟨partitionPath_nvme P n, partitionPath_mapper P n, partitionPath_generic P n, ?_, ?_⟩
  · intro hP
    exact SetupEphemeralDiskWithPath_paths env dirs opts P desired hP
  · intro hpre hres
    have h := MountPersistentDisk_paths env dirs opts diskSettings mountPoint hpre
    rw [hres] at h
    refine ⟨h.1, h.2, ?_, ?_⟩
    · simp [UnmountPersistentDisk, hres, persistentTarget, hpre]
    · simp [IsPersistentDiskMounted, hres, persistentTarget, hpre]

theorem partitionPath_rule_and_use_witness :
    partitionPath "/dev/nvme2n1" 1 = "/dev/nvme2n1" ++ "p" ++ toString 1
      ∧ partitionPath "/dev/mapper/fake-real-device-path" 1
          = "/dev/mapper/fake-real-device-path" ++ "-part" ++ toString 1
      ∧ partitionPath "/dev/xvda" 2 = "/dev/xvda" ++ toString 2
      ∧ unmountCalls (UnmountPersistentDisk (sampleEnv "/dev/nvme2n1" 0 0 ("", false))
          sampleOptions sampleDisk).2 = [partitionPath "/dev/nvme2n1" 1] :=
  ⟨(partitionPath_rule_and_use "/dev/nvme2n1" 1 (sampleEnv "/dev/nvme2n1" 0 0 ("", false))
      sampleDirs sampleOptions sampleDisk "/mnt/point" none).1 (by decide),
   (partitionPath_rule_and_use "/dev/mapper/fake-real-device-path" 1
      (sampleEnv "/dev/nvme2n1" 0 0 ("", false)) sampleDirs sampleOptions sampleDisk
      "/mnt/point" none).2.1 (by decide),
   (partitionPath_rule_and_use "/dev/xvda" 2 (sampleEnv "/dev/nvme2n1" 0 0 ("", false))
      sampleDirs sampleOptions sampleDisk "/mnt/point" none).2.2.1 (by decide) (by decide),
   ((partitionPath_rule_and_use "/dev/nvme2n1" 1 (sampleEnv "/dev/nvme2n1" 0 0 ("", false))
      sampleDirs sampleOptions sampleDisk "/mnt/point" none).2.2.2.2 rfl rfl).2.2.1⟩

/-! ## Ephemeral sizing -/

/-- C16: with no desired swap size, for every memory size `M` and device size
`D`: if `D > 2M` the plan is `[swap(M), linux(D-M)]`; if `D <= 2M` the plan is
`[swap(D/2), linux(D/2)]` with floor division, so that for odd `D` the plan
covers `D - 1` bytes and one byte is left unallocated.  This plan is the one
ephemeral setup hands to the partitioner when it has read the device size `D`
and the memory size `M`. -/
theorem ephemeralPlan_default (M D : Nat) (env : DiskEnv) (dirs : Dirs) (opts : LinuxOptions)
    (devicePath : String) :
    (D > 2 * M → ephemeralPlan D M none
        = [{ SizeInBytes := M, Kind := .swap }, { SizeInBytes := D - M, Kind := .linux }])
      ∧ (D ≤ 2 * M → ephemeralPlan D M none
        = [{ SizeInBytes := D / 2, Kind := .swap }, { SizeInBytes := D / 2, Kind := .linux }])
      ∧ (D ≤ 2 * M → D % 2 = 1 → planSize (ephemeralPlan D M none) + 1 = D)
      ∧ (env.mkdirAll dirs.dataDir = none → opts.SkipDiskSetup = false → devicePath ≠ "" →
          env.deviceSize devicePath = .ok D → env.memTotal = .ok M →
          partitionCalls (SetupEphemeralDiskWithPath env dirs opts devicePath none).2
            = [(devicePath, "", ephemeralPlan D M none)]) := by
  refine ⟨?_, ?_, ?_, ?_⟩
  · intro h
    simp [ephemeralPlan, h]
  · intro h
    have : ¬ D > 2 * M := by omega
    simp [ephemeralPlan, this]
  · intro h hodd
    have : ¬ D > 2 * M := by omega
    simp [ephemeralPlan, this, planSize]
    omega
  · intro hdir hskip hpath hsize hmem
    obtain ⟨calls, hp, _, _, _, hr⟩ := SetupEphemeralDiskWithPath_reaches_sizing env dirs opts
      devicePath devicePath 0 D none hdir hskip (Or.inl ⟨hpath, rfl, rfl, hsize⟩)
    rw [hr]
    simp [partitionEphemeralDisk, hmem, applyEphemeralPlan_partitionCalls, hp]

theorem ephemeralPlan_default_witness :
    ephemeralPlan 4095 2048 none
        = [{ SizeInBytes := 4095 / 2, Kind := .swap },
           { SizeInBytes := 4095 / 2, Kind := .linux }]
      ∧ planSize (ephemeralPlan 4095 2048 none) + 1 = 4095
      ∧ partitionCalls (SetupEphemeralDiskWithPath (sampleEnv "" 4095 2048 ("", false))
          sampleDirs sampleOptions "/dev/xvda" none).2
          = [("/dev/xvda", "", ephemeralPlan 4095 2048 none)] :=
  ⟨(ephemeralPlan_default 2048 4095 (sampleEnv "" 4095 2048 ("", false)) sampleDirs
      sampleOptions "/dev/xvda").2.1 (by decide),
   (ephemeralPlan_default 2048 4095 (sampleEnv "" 4095 2048 ("", false)) sampleDirs
      sampleOptions "/dev/xvda").2.2.1 (by decide) (by decide),
   (ephemeralPlan_default 2048 4095 (sampleEnv "" 4095 2048 ("", false)) sampleDirs
      sampleOptions "/dev/xvda").2.2.2 rfl rfl (by decide) rfl rfl⟩

/-- C17: with desired swap size 0, when ephemeral setup gets to its sizing
stage (the data directory is there, setup is not skipped, and the device, or
the root disk with enough free space, has size `D`), it makes one partition
call, for the plan of exactly one linux partition of size `D`; the only
partition it formats is the first one after the `start` partitions already
there, as ext4; and it makes no swap-on call.  When partitioning, formatting
and mounting succeed, it formats that partition, mounts it at the data
directory and returns no error. -/
theorem SetupEphemeralDiskWithPath_swap_zero (env : DiskEnv) (dirs : Dirs)
    (opts : LinuxOptions) (devicePath device : String) (start D : Nat)
    (hdir : env.mkdirAll dirs.dataDir = none) (hskip : opts.SkipDiskSetup = false)
    (htarget : (devicePath ≠ "" ∧ device = devicePath ∧ start = 0
          ∧ env.deviceSize devicePath = .ok D)
        ∨ (devicePath = "" ∧ opts.CreatePartitionIfNoEphemeralDisk = true
          ∧ env.rootDevice = .ok (device, start) ∧ env.deviceSize device = .ok D
          ∧ D > env.minRootEphemeralSpace)) :
    partitionCalls (SetupEphemeralDiskWithPath env dirs opts devicePath (some 0)).2
        = [(device, "", [{ SizeInBytes := D, Kind := .linux }])]
      ∧ (∀ x ∈ formatCalls (SetupEphemeralDiskWithPath env dirs opts devicePath (some 0)).2,
          x = (partitionPath device (start + 1), .ext4))
      ∧ swapOnCalls (SetupEphemeralDiskWithPath env dirs opts devicePath (some 0)).2 = []
      ∧ (env.partition device "" [{ SizeInBytes := D, Kind := .linux }] = none →
          env.format (partitionPath device (start + 1)) .ext4 = none →
          env.mount (partitionPath device (start + 1)) dirs.dataDir [] = none →
          (SetupEphemeralDiskWithPath env dirs opts devicePath (some 0)).1 = none
            ∧ formatCalls (SetupEphemeralDiskWithPath env dirs opts devicePath (some 0)).2
                = [(partitionPath device (start + 1), .ext4)]
            ∧ mountCalls (SetupEphemeralDiskWithPath env dirs opts devicePath (some 0)).2
                = [(partitionPath device (start + 1), dirs.dataDir, [])]) := by
  obtain ⟨calls, hp, hf, hm, hs, hr⟩ := SetupEphemeralDiskWithPath_reaches_sizing env dirs opts
    devicePath device start D (some 0) hdir hskip htarget
  have hplan : ephemeralPlan D 0 (some 0) = [{ SizeInBytes := D, Kind := .linux }] := by
    simp [ephemeralPlan]
  rw [hr]
  simp only [partitionEphemeralDisk, hplan]
  obtain ⟨a1, a2, a3⟩ := applyEphemeralPlan_single env dirs device start D calls
  refine ⟨?_, ?_, ?_, ?_⟩
  · rw [applyEphemeralPlan_partitionCalls, hp]
    rfl
  · rcases a2 with a2 | a2
    · rw [a2, hf]
      simp
    · rw [a2, hf]
      simp
  · rw [a1, hs]
  · intro h1 h2 h3
    rw [a3 h1 h2 h3]
    simp [hf, hm]

theorem SetupEphemeralDiskWithPath_swap_zero_witness :
    partitionCalls (SetupEphemeralDiskWithPath
          (sampleEnv "" (2 * 1024 * 1024 * 1024) 0 ("", false)) sampleDirs
          { sampleOptions with CreatePartitionIfNoEphemeralDisk := true } "" (some 0)).2
        = [("/dev/vda", "", [{ SizeInBytes := 2 * 1024 * 1024 * 1024, Kind := .linux }])]
      ∧ swapOnCalls (SetupEphemeralDiskWithPath
          (sampleEnv "" (2 * 1024 * 1024 * 1024) 0 ("", false)) sampleDirs
          { sampleOptions with CreatePartitionIfNoEphemeralDisk := true } "" (some 0)).2 = []
      ∧ formatCalls (SetupEphemeralDiskWithPath
          (sampleEnv "" (2 * 1024 * 1024 * 1024) 0 ("", false)) sampleDirs
          { sampleOptions with CreatePartitionIfNoEphemeralDisk := true } "" (some 0)).2
        = [(partitionPath "/dev/vda" (1 + 1), .ext4)] :=
  ⟨(SetupEphemeralDiskWithPath_swap_zero (sampleEnv "" (2 * 1024 * 1024 * 1024) 0 ("", false))
      sampleDirs { sampleOptions with CreatePartitionIfNoEphemeralDisk := true } ""
      "/dev/vda" 1 (2 * 1024 * 1024 * 1024) rfl rfl
      (Or.inr ⟨rfl, rfl, rfl, rfl, by decide⟩)).1,
   (SetupEphemeralDiskWithPath_swap_zero (sampleEnv "" (2 * 1024 * 1024 * 1024) 0 ("", false))
      sampleDirs { sampleOptions with CreatePartitionIfNoEphemeralDisk := true } ""
      "/dev/vda" 1 (2 * 1024 * 1024 * 1024) rfl rfl
      (Or.inr ⟨rfl, rfl, rfl, rfl, by decide⟩)).2.2.1,
   ((SetupEphemeralDiskWithPath_swap_zero (sampleEnv "" (2 * 1024 * 1024 * 1024) 0 ("", false))
      sampleDirs { sampleOptions with CreatePartitionIfNoEphemeralDisk := true } ""
      "/dev/vda" 1 (2 * 1024 * 1024 * 1024) rfl rfl
      (Or.inr ⟨rfl, rfl, rfl, rfl, by decide⟩)).2.2.2 rfl rfl rfl).2.1⟩


/-- C18, as stated, fails: a desired swap size above the device size gives a
plan larger than the device. -/
theorem ephemeralPlan_exceeds_device :
    (4096 : Nat) < uint64Size ∧ (8192 : Nat) < uint64Size
      ∧ ¬ (planSize (ephemeralPlan 4096 0 (some 8192)) ≤ 4096) := by
  decide

/-- C18, amended: for every device size `D`, memory size `M` and optional
desired swap size `S` that is absent, zero, or non-zero and at most `D`, the
sum of the partition sizes of the ephemeral plan never exceeds `D`. -/
theorem ephemeralPlan_within_device (D M : Nat) (desired : Option Nat)
    (hD : D < uint64Size) (hS : ∀ S, desired = some S → S ≤ D) :
    planSize (ephemeralPlan D M desired) ≤ D := by
  cases desired with
  | none =>
    by_cases h : D > 2 * M
    · simp [ephemeralPlan, h, planSize]
      omega
    · simp [ephemeralPlan, h, planSize]
      omega
  | some S =>
    have hSD := hS S rfl
    by_cases h0 : S = 0
    · simp [ephemeralPlan, h0, planSize]
    · have hm : (D + uint64Size - S) % uint64Size = D - S := by
        have : D + uint64Size - S = (D - S) + uint64Size := by omega
        rw [this, Nat.add_mod_right, Nat.mod_eq_of_lt (by omega)]
      simp only [ephemeralPlan, h0, if_false, planSize, hm, List.map_cons, List.map_nil,
        List.sum_cons, List.sum_nil]
      omega

theorem ephemeralPlan_within_device_witness :
    planSize (ephemeralPlan 4096 1024 (some 2048)) ≤ 4096 :=
  ephemeralPlan_within_device 4096 1024 (some 2048) (by decide)
    (by
      intro S h
      cases h
      decide)

/-! ## Persistent disk -/

/-- C19: whenever the canonical mount point is already a mount point and the
device mounted there equals the target computed from the resolved device,
`MountPersistentDisk` succeeds and makes no partition, format or mount call:
its only calls are the resolution and the mount point check. -/
theorem MountPersistentDisk_same_device (env : DiskEnv) (dirs : Dirs) (opts : LinuxOptions)
    (diskSettings : DiskSettings) (mountPoint : String)
    (hres : (env.resolve diskSettings).err = none)
    (hmp : env.isMountPoint mountPoint
        = (persistentTarget opts (env.resolve diskSettings).realPath, true, none)) :
    MountPersistentDisk env dirs opts diskSettings mountPoint
        = (none, [.resolve diskSettings, .isMountPoint mountPoint])
      ∧ partitionCalls (MountPersistentDisk env dirs opts diskSettings mountPoint).2 = []
      ∧ formatCalls (MountPersistentDisk env dirs opts diskSettings mountPoint).2 = []
      ∧ mountCalls (MountPersistentDisk env dirs opts diskSettings mountPoint).2 = [] := by
  have h : MountPersistentDisk env dirs opts diskSettings mountPoint
      = (none, [.resolve diskSettings, .isMountPoint mountPoint]) := by
    simp [MountPersistentDisk, hres, hmp]
  rw [h]
  simp

theorem MountPersistentDisk_same_device_witness :
    MountPersistentDisk
        (sampleEnv "/dev/nvme2n1" 0 0 ("/dev/nvme2n1p1", true)) sampleDirs sampleOptions
        sampleDisk "/mnt/point"
        = (none, [.resolve sampleDisk, .isMountPoint "/mnt/point"])
      ∧ mountCalls (MountPersistentDisk
          (sampleEnv "/dev/nvme2n1" 0 0 ("/dev/nvme2n1p1", true)) sampleDirs sampleOptions
          sampleDisk "/mnt/point").2 = [] :=
  ⟨(MountPersistentDisk_same_device (sampleEnv "/dev/nvme2n1" 0 0 ("/dev/nvme2n1p1", true))
      sampleDirs sampleOptions sampleDisk "/mnt/point" rfl (by decide)).1,
   (MountPersistentDisk_same_device (sampleEnv "/dev/nvme2n1" 0 0 ("/dev/nvme2n1p1", true))
      sampleDirs sampleOptions sampleDisk "/mnt/point" rfl (by decide)).2.2.2⟩

/-- C20: whenever the canonical mount point is already a mount point for a
device different from the computed target, and the migration-target directory
(another directory than the mount point) has been created on demand, exactly
one mount call is made: of the target at the migration-target directory, with
the mount options of the disk.  No mount call is at the canonical mount point,
and no unmount or remount call is made. -/
theorem MountPersistentDisk_routes_to_migration_target (env : DiskEnv) (dirs : Dirs)
    (opts : LinuxOptions) (diskSettings : DiskSettings) (mountPoint device : String)
    (hres : (env.resolve diskSettings).err = none)
    (hmp : env.isMountPoint mountPoint = (device, true, none))
    (hdiff : device ≠ persistentTarget opts (env.resolve diskSettings).realPath)
    (hdir : env.mkdirAll dirs.storeMigrationDir = none)
    (hne : dirs.storeMigrationDir ≠ mountPoint) :
    mountCalls (MountPersistentDisk env dirs opts diskSettings mountPoint).2
        = [(persistentTarget opts (env.resolve diskSettings).realPath,
            dirs.storeMigrationDir, diskSettings.MountOptions)]
      ∧ (∀ x ∈ mountCalls (MountPersistentDisk env dirs opts diskSettings mountPoint).2,
          x.2.1 ≠ mountPoint)
      ∧ unmountOrRemountCalls (MountPersistentDisk env dirs opts diskSettings mountPoint).2
          = [] := by
  have h : (MountPersistentDisk env dirs opts diskSettings mountPoint).2
      = [.resolve diskSettings, .isMountPoint mountPoint, .mkdirAll dirs.storeMigrationDir,
          .mount (persistentTarget opts (env.resolve diskSettings).realPath)
            dirs.storeMigrationDir diskSettings.MountOptions] := by
    simp [MountPersistentDisk, hres, hmp, hdiff, hdir, perform_ok, andThen_ok]
  rw [h]
  simp [hne]

theorem MountPersistentDisk_routes_to_migration_target_witness :
    mountCalls (MountPersistentDisk
        (sampleEnv "/dev/mapper/fake-real-device-path" 0 0 ("/dev/mapper/another-device", true))
        sampleDirs sampleOptions sampleDisk "/mnt/point").2
      = [(persistentTarget sampleOptions "/dev/mapper/fake-real-device-path",
          "/fake-dir/store_migration_target", ["mntOpt1", "mntOpt2"])] :=
  (MountPersistentDisk_routes_to_migration_target
    (sampleEnv "/dev/mapper/fake-real-device-path" 0 0 ("/dev/mapper/another-device", true))
    sampleDirs sampleOptions sampleDisk "/mnt/point" "/dev/mapper/another-device"
    rfl rfl (by decide) rfl (by decide)).1

/-! ## Raw ephemeral disks -/

/-- The loop of `SetupRawEphemeralDisks` reaches the disk at position `i` when
the disks before it are set up without an error; its commands then begin with
the commands of those disks, followed by the commands of disk `i`. -/
theorem setupRawDisks_reach (showsPartition : JobSupervisor.CmdResult → Nat → Bool)
    (env : CmdEnv) :
    ∀ (devices : List DiskSettings) (s i : Nat) (device : DiskSettings),
    devices[i]? = some device →
    (∀ j d, j < i → devices[j]? = some d →
      (setupRawDisk showsPartition env (s + j) d).1 = none) →
    ∃ post, (setupRawDisks showsPartition env s devices).2
      = (setupRawDisks showsPartition env s (devices.take i)).2
          ++ (setupRawDisk showsPartition env (s + i) device).2 ++ post := by
  intro devices
  induction devices with
  | nil => intro s i device h; simp at h
  | cons d rest ih =>
    intro s i device hdev hbefore
    cases i with
    | zero =>
      simp only [List.getElem?_cons_zero, Option.some.injEq] at hdev
      subst hdev
      rcases hd : setupRawDisk showsPartition env s d with ⟨e, cmds⟩
      cases e with
      | some err => exact ⟨[], by simp [setupRawDisks, hd]⟩
      | none =>
        exact ⟨(setupRawDisks showsPartition env (s + 1) rest).2, by simp [setupRawDisks, hd]⟩
    | succ i =>
      simp only [List.getElem?_cons_succ] at hdev
      have h0 := hbefore 0 d (Nat.succ_pos i) (by simp)
      rw [Nat.add_zero] at h0
      rcases hd : setupRawDisk showsPartition env s d with ⟨e, cmds⟩
      rw [hd] at h0
      simp only at h0
      subst h0
      obtain ⟨post, hp⟩ := ih (s + 1) i device hdev
        (by
          intro j d' hj hd'
          have := hbefore (j + 1) d' (Nat.succ_lt_succ hj) (by simpa using hd')
          rw [Nat.add_assoc, Nat.add_comm 1 j]
          exact this)
      refine ⟨post, ?_⟩
      have hidx : s + 1 + i = s + (i + 1) := by omega
      rw [hidx] at hp
      simp only [setupRawDisks, hd, List.take_succ_cons, hp]
      simp

/-- The commands of `SetupRawEphemeralDisks` hold the commands of the disk at
position `i` once the disks before it are set up without an error. -/
theorem SetupRawEphemeralDisks_reach (showsPartition : JobSupervisor.CmdResult → Nat → Bool)
    (env : CmdEnv) (opts : LinuxOptions)
    (devices : List DiskSettings) (i : Nat) (device : DiskSettings)
    (hskip : opts.SkipDiskSetup = false)
    (hdev : devices[i]? = some device)
    (hbefore : ∀ j d, j < i → devices[j]? = some d →
      (setupRawDisk showsPartition env j d).1 = none) :
    ∃ post, (SetupRawEphemeralDisks showsPartition env opts devices).2
      = (SetupRawEphemeralDisks showsPartition env opts (devices.take i)).2
          ++ (setupRawDisk showsPartition env i device).2 ++ post := by
  obtain ⟨post, hp⟩ := setupRawDisks_reach showsPartition env devices 0 i device hdev
    (by intro j d hj hd; rw [Nat.zero_add]; exact hbefore j d hj hd)
  rw [Nat.zero_add] at hp
  exact ⟨post, by simp [SetupRawEphemeralDisks, hskip, hp]⟩

/-- What the body of the loop does for a disk whose probe is accepted. -/
theorem setupRawDisk_accepted (showsPartition : JobSupervisor.CmdResult → Nat → Bool)
    (env : CmdEnv) (i : Nat) (device : DiskSettings)
    (hres : (env.resolve device).err = none)
    (hacc : probeFailure (probeOf env device) = none) :
    setupRawDisk showsPartition env i device
      = if showsPartition (probeOf env device) i then
          (none, [probeCommand (env.resolve device).realPath])
        else
          (labelError env (env.resolve device).realPath i,
            [probeCommand (env.resolve device).realPath,
              labelCommand (env.resolve device).realPath i]) := by
  unfold probeOf at hacc
  simp only [setupRawDisk, hres, hacc, probeOf]

/-- A disk whose probe shows an existing partition gets its probe and nothing
else. -/
theorem setupRawDisk_partitioned (showsPartition : JobSupervisor.CmdResult → Nat → Bool)
    (env : CmdEnv) (i : Nat) (device : DiskSettings)
    (hres : (env.resolve device).err = none)
    (hshown : showsPartition (probeOf env device) i = true) :
    (setupRawDisk showsPartition env i device).2
      = [probeCommand (env.resolve device).realPath] := by
  unfold probeOf at hshown
  cases hf : probeFailure (env.runCommand (probeCommand (env.resolve device).realPath)) <;>
    simp [setupRawDisk, hres, hf, hshown]

/-- The run of the test of a probe that prints "unrecognised disk label" on
stdout, for any rule. -/
theorem SetupRawEphemeralDisks_onStdout (showsPartition : JobSupervisor.CmdResult → Nat → Bool) :
    SetupRawEphemeralDisks showsPartition envUnrecognisedOnStdout sampleOptions
        [rawDisk "/dev/xvda"]
      = if showsPartition (probeOf envUnrecognisedOnStdout (rawDisk "/dev/xvda")) 0 then
          (none, [probeCommand "/dev/xvda"])
        else (none, [probeCommand "/dev/xvda", labelCommand "/dev/xvda" 0]) := by
  have h := setupRawDisk_accepted showsPartition envUnrecognisedOnStdout 0 (rawDisk "/dev/xvda")
    rfl (by set_option maxRecDepth 100000 in decide)
  have hskip : sampleOptions.SkipDiskSetup = false := rfl
  by_cases hr : showsPartition (probeOf envUnrecognisedOnStdout (rawDisk "/dev/xvda")) 0 = true
  · rw [if_pos hr] at h
    rw [if_pos hr]
    set_option maxRecDepth 100000 in
      simp only [SetupRawEphemeralDisks, hskip, setupRawDisks, h]
    rfl
  · rw [if_neg hr] at h
    rw [if_neg hr]
    set_option maxRecDepth 100000 in
      simp only [SetupRawEphemeralDisks, hskip, setupRawDisks, h]
    rfl

/-- The run of the test of a probe that prints "unrecognised disk label" on
stderr, for any rule. -/
theorem SetupRawEphemeralDisks_onStderr (showsPartition : JobSupervisor.CmdResult → Nat → Bool) :
    SetupRawEphemeralDisks showsPartition envUnrecognisedOnStderr sampleOptions
        [rawDisk "/dev/xvda"]
      = if showsPartition (probeOf envUnrecognisedOnStderr (rawDisk "/dev/xvda")) 0 then
          (none, [probeCommand "/dev/xvda"])
        else (none, [probeCommand "/dev/xvda", labelCommand "/dev/xvda" 0]) := by
  have h := setupRawDisk_accepted showsPartition envUnrecognisedOnStderr 0 (rawDisk "/dev/xvda")
    rfl (by set_option maxRecDepth 100000 in decide)
  have hskip : sampleOptions.SkipDiskSetup = false := rfl
  by_cases hr : showsPartition (probeOf envUnrecognisedOnStderr (rawDisk "/dev/xvda")) 0 = true
  · rw [if_pos hr] at h
    rw [if_pos hr]
    set_option maxRecDepth 100000 in
      simp only [SetupRawEphemeralDisks, hskip, setupRawDisks, h]
    rfl
  · rw [if_neg hr] at h
    rw [if_neg hr]
    set_option maxRecDepth 100000 in
      simp only [SetupRawEphemeralDisks, hskip, setupRawDisks, h]
    rfl

/-- The run of the test "labels the raw ephemeral paths for unpartitioned
disks", for any rule. -/
theorem SetupRawEphemeralDisks_unpartitioned
    (showsPartition : JobSupervisor.CmdResult → Nat → Bool) :
    (SetupRawEphemeralDisks showsPartition envUnpartitioned sampleOptions
        [rawDisk "/dev/xvdb", rawDisk "/dev/xvdc"]).2
      = (if showsPartition (probeOf envUnpartitioned (rawDisk "/dev/xvdb")) 0 then
          [probeCommand "/dev/xvdb"]
        else [probeCommand "/dev/xvdb", labelCommand "/dev/xvdb" 0])
        ++ (if showsPartition (probeOf envUnpartitioned (rawDisk "/dev/xvdc")) 1 then
          [probeCommand "/dev/xvdc"]
        else [probeCommand "/dev/xvdc", labelCommand "/dev/xvdc" 1]) := by
  have hb := setupRawDisk_accepted showsPartition envUnpartitioned 0 (rawDisk "/dev/xvdb")
    rfl (by set_option maxRecDepth 100000 in decide)
  have hc := setupRawDisk_accepted showsPartition envUnpartitioned 1 (rawDisk "/dev/xvdc")
    rfl (by set_option maxRecDepth 100000 in decide)
  have hskip : sampleOptions.SkipDiskSetup = false := rfl
  by_cases hrb : showsPartition (probeOf envUnpartitioned (rawDisk "/dev/xvdb")) 0 = true <;>
  by_cases hrc : showsPartition (probeOf envUnpartitioned (rawDisk "/dev/xvdc")) 1 = true <;>
  · simp only [hrb, hrc, if_true, if_false, Bool.false_eq_true] at hb hc ⊢
    set_option maxRecDepth 100000 in
      simp only [SetupRawEphemeralDisks, hskip, setupRawDisks, hb, hc]
    rfl

/-- C21, as stated, fails: in the two tests of a probe that prints
"unrecognised disk label", on stdout and on stderr, and returns an error, the
probe is the only command that runs (`RunCommands` has length 1).  No rule for
"shows an existing partition" makes the claim true and passes either test; the
tests themselves can be passed, for one by the rule `gptShown`, under which
no labeling command follows the probe. -/
theorem SetupRawEphemeralDisks_unrecognised_without_labeling :
    printsUnrecognisedLabel (probeOf envUnrecognisedOnStdout (rawDisk "/dev/xvda")) = true
      ∧ printsUnrecognisedLabel (probeOf envUnrecognisedOnStderr (rawDisk "/dev/xvda")) = true
      ∧ (¬ ∃ showsPartition : JobSupervisor.CmdResult → Nat → Bool,
          (∀ (env : CmdEnv) (i : Nat) (device : DiskSettings),
              (env.resolve device).err = none →
              printsUnrecognisedLabel (probeOf env device) = true →
              (setupRawDisk showsPartition env i device).2
                = [probeCommand (env.resolve device).realPath,
                    labelCommand (env.resolve device).realPath i])
            ∧ (SetupRawEphemeralDisks showsPartition envUnrecognisedOnStdout sampleOptions
                [rawDisk "/dev/xvda"]).2 = [["parted", "-s", "/dev/xvda", "p"]])
      ∧ (¬ ∃ showsPartition : JobSupervisor.CmdResult → Nat → Bool,
          (∀ (env : CmdEnv) (i : Nat) (device : DiskSettings),
              (env.resolve device).err = none →
              printsUnrecognisedLabel (probeOf env device) = true →
              (setupRawDisk showsPartition env i device).2
                = [probeCommand (env.resolve device).realPath,
                    labelCommand (env.resolve device).realPath i])
            ∧ (SetupRawEphemeralDisks showsPartition envUnrecognisedOnStderr sampleOptions
                [rawDisk "/dev/xvda"]).2 = [["parted", "-s", "/dev/xvda", "p"]])
      ∧ SetupRawEphemeralDisks gptShown envUnrecognisedOnStdout sampleOptions
          [rawDisk "/dev/xvda"] = (none, [["parted", "-s", "/dev/xvda", "p"]])
      ∧ SetupRawEphemeralDisks gptShown envUnrecognisedOnStderr sampleOptions
          [rawDisk "/dev/xvda"] = (none, [["parted", "-s", "/dev/xvda", "p"]]) := by
  have p1 : printsUnrecognisedLabel (probeOf envUnrecognisedOnStdout (rawDisk "/dev/xvda"))
      = true := by set_option maxRecDepth 100000 in decide
  have p2 : printsUnrecognisedLabel (probeOf envUnrecognisedOnStderr (rawDisk "/dev/xvda"))
      = true := by set_option maxRecDepth 100000 in decide
  refine ⟨p1, p2, ?_, ?_, by set_option maxRecDepth 100000 in decide,
    by set_option maxRecDepth 100000 in decide⟩
  · rintro ⟨showsPartition, hclaim, htest⟩
    have h2 := hclaim envUnrecognisedOnStdout 0 (rawDisk "/dev/xvda") rfl p1
    rw [SetupRawEphemeralDisks_onStdout] at htest
    by_cases hr : showsPartition (probeOf envUnrecognisedOnStdout (rawDisk "/dev/xvda")) 0
        = true
    · rw [setupRawDisk_partitioned showsPartition _ _ _ rfl hr] at h2
      simp at h2
    · rw [if_neg hr] at htest
      exact absurd htest (by decide)
  · rintro ⟨showsPartition, hclaim, htest⟩
    have h2 := hclaim envUnrecognisedOnStderr 0 (rawDisk "/dev/xvda") rfl p2
    rw [SetupRawEphemeralDisks_onStderr] at htest
    by_cases hr : showsPartition (probeOf envUnrecognisedOnStderr (rawDisk "/dev/xvda")) 0
        = true
    · rw [setupRawDisk_partitioned showsPartition _ _ _ rfl hr] at h2
      simp at h2
    · rw [if_neg hr] at htest
      exact absurd htest (by decide)

/-- C21, amended: for every raw disk whose parted probe prints "unrecognised
disk label" on stdout or on stderr, no error is returned for the probe, whatever
the probe returned; exactly one additional command, the labeling command, is
run for that disk unless the probe output already shows an existing partition,
in which case the probe is the only command for that disk.  The only error the
disk can give is the error of the labeling command.  This holds for every rule
`showsPartition`; a rule that passes the two tests of such a probe counts their
output, a GPT table with partition 1, as showing an existing partition.  The
disk is at position `i` of the list, it resolves, and the disks before it are
set up without an error, so that the loop reaches it. -/
theorem SetupRawEphemeralDisks_unrecognised_label
    (showsPartition : JobSupervisor.CmdResult → Nat → Bool) (env : CmdEnv)
    (opts : LinuxOptions) (devices : List DiskSettings) (i : Nat) (device : DiskSettings)
    (hskip : opts.SkipDiskSetup = false)
    (hdev : devices[i]? = some device)
    (hbefore : ∀ j d, j < i → devices[j]? = some d →
      (setupRawDisk showsPartition env j d).1 = none)
    (hres : (env.resolve device).err = none)
    (hprint : printsUnrecognisedLabel (probeOf env device) = true) :
    (∃ post, (SetupRawEphemeralDisks showsPartition env opts devices).2
        = (SetupRawEphemeralDisks showsPartition env opts (devices.take i)).2
            ++ (setupRawDisk showsPartition env i device).2 ++ post)
      ∧ (showsPartition (probeOf env device) i = true →
          setupRawDisk showsPartition env i device
            = (none, [probeCommand (env.resolve device).realPath]))
      ∧ (showsPartition (probeOf env device) i = false →
          setupRawDisk showsPartition env i device
            = (labelError env (env.resolve device).realPath i,
               [probeCommand (env.resolve device).realPath,
                 labelCommand (env.resolve device).realPath i])
            ∧ (labelError env (env.resolve device).realPath i = none
                ↔ (env.runCommand (labelCommand (env.resolve device).realPath i)).err = none))
      ∧ ((SetupRawEphemeralDisks showsPartition envUnrecognisedOnStdout sampleOptions
            [rawDisk "/dev/xvda"]).2 = [["parted", "-s", "/dev/xvda", "p"]] →
          showsPartition (probeOf envUnrecognisedOnStdout (rawDisk "/dev/xvda")) 0 = true)
      ∧ ((SetupRawEphemeralDisks showsPartition envUnrecognisedOnStderr sampleOptions
            [rawDisk "/dev/xvda"]).2 = [["parted", "-s", "/dev/xvda", "p"]] →
          showsPartition (probeOf envUnrecognisedOnStderr (rawDisk "/dev/xvda")) 0 = true) := by
  have hacc : probeFailure (probeOf env device) = none := by
    simp [probeFailure, hprint]
  refine ⟨SetupRawEphemeralDisks_reach showsPartition env opts devices i device hskip hdev
    hbefore, ?_, ?_, ?_, ?_⟩
  · intro h
    rw [setupRawDisk_accepted showsPartition env i device hres hacc, if_pos h]
  · intro h
    rw [setupRawDisk_accepted showsPartition env i device hres hacc, h]
    exact ⟨by simp, by simp [labelError]⟩
  · intro htest
    rw [SetupRawEphemeralDisks_onStdout] at htest
    by_cases hr : showsPartition (probeOf envUnrecognisedOnStdout (rawDisk "/dev/xvda")) 0
        = true
    · exact hr
    · rw [if_neg hr] at htest
      exact absurd htest (by decide)
  · intro htest
    rw [SetupRawEphemeralDisks_onStderr] at htest
    by_cases hr : showsPartition (probeOf envUnrecognisedOnStderr (rawDisk "/dev/xvda")) 0
        = true
    · exact hr
    · rw [if_neg hr] at htest
      exact absurd htest (by decide)

theorem SetupRawEphemeralDisks_unrecognised_label_witness :
    printsUnrecognisedLabel (probeOf envNoLabel (rawDisk "/dev/xvda")) = true
      ∧ gptShown (probeOf envNoLabel (rawDisk "/dev/xvda")) 0 = false
      ∧ setupRawDisk gptShown envNoLabel 0 (rawDisk "/dev/xvda")
          = (labelError envNoLabel (envNoLabel.resolve (rawDisk "/dev/xvda")).realPath 0,
             [probeCommand (envNoLabel.resolve (rawDisk "/dev/xvda")).realPath,
               labelCommand (envNoLabel.resolve (rawDisk "/dev/xvda")).realPath 0])
      ∧ gptShown (probeOf envUnrecognisedOnStdout (rawDisk "/dev/xvda")) 0 = true :=
  ⟨by decide, by decide,
   ((SetupRawEphemeralDisks_unrecognised_label gptShown envNoLabel sampleOptions
      [rawDisk "/dev/xvda"] 0 (rawDisk "/dev/xvda") rfl rfl
      (fun j _ hj => absurd hj (Nat.not_lt_zero j)) rfl (by decide)).2.2.1 (by decide)).1,
   (SetupRawEphemeralDisks_unrecognised_label gptShown envNoLabel sampleOptions
      [rawDisk "/dev/xvda"] 0 (rawDisk "/dev/xvda") rfl rfl
      (fun j _ hj => absurd hj (Nat.not_lt_zero j)) rfl (by decide)).2.2.2.1
      (by set_option maxRecDepth 100000 in decide)⟩

/-- C22, as stated, fails: in the test "labels the raw ephemeral paths for
unpartitioned disks" the probe output of each disk shows a numbered partition
(row 1 of a `loop` table, an `ext3` file system), and the test expects each disk
to be labeled.  No rule for "shows an existing partition" that counts every
numbered row passes the test; the test itself can be passed, for one by the rule
`gptShown`. -/
theorem SetupRawEphemeralDisks_labels_numbered_partition :
    showsNumberedPartition (probeOf envUnpartitioned (rawDisk "/dev/xvdb")).stdout = true
      ∧ showsNumberedPartition (probeOf envUnpartitioned (rawDisk "/dev/xvdc")).stdout = true
      ∧ (¬ ∃ showsPartition : JobSupervisor.CmdResult → Nat → Bool,
          (∀ probe i, showsNumberedPartition probe.stdout = true → showsPartition probe i = true)
            ∧ (SetupRawEphemeralDisks showsPartition envUnpartitioned sampleOptions
                [rawDisk "/dev/xvdb", rawDisk "/dev/xvdc"]).2
              = [["parted", "-s", "/dev/xvdb", "p"],
                 ["parted", "-s", "/dev/xvdb", "mklabel", "gpt", "unit", "%", "mkpart",
                   "raw-ephemeral-0", "0", "100"],
                 ["parted", "-s", "/dev/xvdc", "p"],
                 ["parted", "-s", "/dev/xvdc", "mklabel", "gpt", "unit", "%", "mkpart",
                   "raw-ephemeral-1", "0", "100"]])
      ∧ SetupRawEphemeralDisks gptShown envUnpartitioned sampleOptions
          [rawDisk "/dev/xvdb", rawDisk "/dev/xvdc"]
        = (none,
           [["parted", "-s", "/dev/xvdb", "p"],
            ["parted", "-s", "/dev/xvdb", "mklabel", "gpt", "unit", "%", "mkpart",
              "raw-ephemeral-0", "0", "100"],
            ["parted", "-s", "/dev/xvdc", "p"],
            ["parted", "-s", "/dev/xvdc", "mklabel", "gpt", "unit", "%", "mkpart",
              "raw-ephemeral-1", "0", "100"]]) := by
  have n1 : showsNumberedPartition (probeOf envUnpartitioned (rawDisk "/dev/xvdb")).stdout
      = true := by set_option maxRecDepth 100000 in decide
  have n2 : showsNumberedPartition (probeOf envUnpartitioned (rawDisk "/dev/xvdc")).stdout
      = true := by set_option maxRecDepth 100000 in decide
  refine ⟨n1, n2, ?_, by set_option maxRecDepth 100000 in decide⟩
  rintro ⟨showsPartition, hclaim, htest⟩
  rw [SetupRawEphemeralDisks_unpartitioned, if_pos (hclaim _ 0 n1), if_pos (hclaim _ 1 n2)]
    at htest
  exact absurd htest (by decide)

/-- C22, amended: for every raw disk whose parted probe output shows an
existing partition, zero labeling commands are run for that disk (only the
probe runs); otherwise, once the probe is accepted (it succeeded, or it printed
"unrecognised disk label"), the disk at position `i` of the input list is
labeled GPT with one partition named `raw-ephemeral-i` spanning 0% to 100%.
This holds for every rule `showsPartition`; a rule that passes the test of
unpartitioned disks does not count the numbered row of its `loop` table as an
existing partition.  The disk resolves, and the disks before it are set up
without an error, so that the loop reaches it. -/
theorem SetupRawEphemeralDisks_labels_unless_partitioned
    (showsPartition : JobSupervisor.CmdResult → Nat → Bool) (env : CmdEnv)
    (opts : LinuxOptions) (devices : List DiskSettings) (i : Nat) (device : DiskSettings)
    (hskip : opts.SkipDiskSetup = false)
    (hdev : devices[i]? = some device)
    (hbefore : ∀ j d, j < i → devices[j]? = some d →
      (setupRawDisk showsPartition env j d).1 = none)
    (hres : (env.resolve device).err = none) :
    (∃ post, (SetupRawEphemeralDisks showsPartition env opts devices).2
        = (SetupRawEphemeralDisks showsPartition env opts (devices.take i)).2
            ++ (setupRawDisk showsPartition env i device).2 ++ post)
      ∧ (showsPartition (probeOf env device) i = true →
          (setupRawDisk showsPartition env i device).2
            = [["parted", "-s", (env.resolve device).realPath, "p"]])
      ∧ (showsPartition (probeOf env device) i = false →
          probeFailure (probeOf env device) = none →
          (setupRawDisk showsPartition env i device).2
            = [["parted", "-s", (env.resolve device).realPath, "p"],
               ["parted", "-s", (env.resolve device).realPath, "mklabel", "gpt", "unit", "%",
                 "mkpart", "raw-ephemeral-" ++ toString i, "0", "100"]])
      ∧ ((SetupRawEphemeralDisks showsPartition envUnpartitioned sampleOptions
            [rawDisk "/dev/xvdb", rawDisk "/dev/xvdc"]).2
            = [["parted", "-s", "/dev/xvdb", "p"],
               ["parted", "-s", "/dev/xvdb", "mklabel", "gpt", "unit", "%", "mkpart",
                 "raw-ephemeral-0", "0", "100"],
               ["parted", "-s", "/dev/xvdc", "p"],
               ["parted", "-s", "/dev/xvdc", "mklabel", "gpt", "unit", "%", "mkpart",
                 "raw-ephemeral-1", "0", "100"]] →
          showsPartition (probeOf envUnpartitioned (rawDisk "/dev/xvdb")) 0 = false
            ∧ showsPartition (probeOf envUnpartitioned (rawDisk "/dev/xvdc")) 1 = false) := by
  refine ⟨SetupRawEphemeralDisks_reach showsPartition env opts devices i device hskip hdev
    hbefore, ?_, ?_, ?_⟩
  · intro h
    rw [setupRawDisk_partitioned showsPartition env i device hres h]
    rfl
  · intro h hacc
    rw [setupRawDisk_accepted showsPartition env i device hres hacc, h]
    rfl
  · intro htest
    rw [SetupRawEphemeralDisks_unpartitioned] at htest
    by_cases hrb : showsPartition (probeOf envUnpartitioned (rawDisk "/dev/xvdb")) 0 = true <;>
    by_cases hrc : showsPartition (probeOf envUnpartitioned (rawDisk "/dev/xvdc")) 1 = true
    · rw [if_pos hrb, if_pos hrc] at htest
      exact absurd htest (by decide)
    · rw [if_pos hrb, if_neg hrc] at htest
      exact absurd htest (by decide)
    · rw [if_neg hrb, if_pos hrc] at htest
      exact absurd htest (by decide)
    · exact ⟨by simpa using hrb, by simpa using hrc⟩

theorem SetupRawEphemeralDisks_labels_unless_partitioned_witness :
    gptShown (probeOf envUnpartitioned (rawDisk "/dev/xvdc")) 1 = false
      ∧ (setupRawDisk gptShown envUnpartitioned 1 (rawDisk "/dev/xvdc")).2
          = [["parted", "-s", (envUnpartitioned.resolve (rawDisk "/dev/xvdc")).realPath, "p"],
             ["parted", "-s", (envUnpartitioned.resolve (rawDisk "/dev/xvdc")).realPath,
               "mklabel", "gpt", "unit", "%", "mkpart", "raw-ephemeral-" ++ toString 1,
               "0", "100"]]
      ∧ ∃ post, (SetupRawEphemeralDisks gptShown envUnpartitioned sampleOptions
            [rawDisk "/dev/xvdb", rawDisk "/dev/xvdc"]).2
          = (SetupRawEphemeralDisks gptShown envUnpartitioned sampleOptions
              ([rawDisk "/dev/xvdb", rawDisk "/dev/xvdc"].take 1)).2
              ++ (setupRawDisk gptShown envUnpartitioned 1 (rawDisk "/dev/xvdc")).2 ++ post :=
  ⟨by set_option maxRecDepth 100000 in decide,
   (SetupRawEphemeralDisks_labels_unless_partitioned gptShown envUnpartitioned sampleOptions
      [rawDisk "/dev/xvdb", rawDisk "/dev/xvdc"] 1 (rawDisk "/dev/xvdc") rfl rfl
      (by
        intro j d hj hd
        have : j = 0 := by omega
        subst this
        simp only [List.getElem?_cons_zero, Option.some.injEq] at hd
        subst hd
        set_option maxRecDepth 100000 in decide)
      rfl).2.2.1 (by set_option maxRecDepth 100000 in decide)
      (by set_option maxRecDepth 100000 in decide),
   (SetupRawEphemeralDisks_labels_unless_partitioned gptShown envUnpartitioned sampleOptions
      [rawDisk "/dev/xvdb", rawDisk "/dev/xvdc"] 1 (rawDisk "/dev/xvdc") rfl rfl
      (by
        intro j d hj hd
        have : j = 0 := by omega
        subst this
        simp only [List.getElem?_cons_zero, Option.some.injEq] at hd
        subst hd
        set_option maxRecDepth 100000 in decide)
      rfl).1⟩

/-! ## Unmount and mountability -/

/-- C23: `UnmountPersistentDisk`.  If the resolution of the device path reports
a timeout, the result is (false, no error) and nothing is unmounted; if it fails
without a timeout, the result is (false, the resolver's error wrapped as "Getting
real device path"); if it succeeds, the unmount primitive is called once, on the
target of the persistent disk (partition 1 of the resolved device, or the device
itself in preformatted mode), and its (didUnmount, error) result is returned
unchanged. -/
theorem UnmountPersistentDisk_resolution_and_result (env : DiskEnv) (opts : LinuxOptions)
    (diskSettings : DiskSettings) :
    ((env.resolve diskSettings).timedOut = true →
        UnmountPersistentDisk env opts diskSettings
          = ((false, none), [DiskCall.resolve diskSettings]))
      ∧ (∀ err, (env.resolve diskSettings).timedOut = false →
          (env.resolve diskSettings).err = some err →
          UnmountPersistentDisk env opts diskSettings
            = ((false, some (.wrap err "Getting real device path")),
               [DiskCall.resolve diskSettings]))
      ∧ ((env.resolve diskSettings).timedOut = false →
          (env.resolve diskSettings).err = none →
          (UnmountPersistentDisk env opts diskSettings).1
              = env.unmount (persistentTarget opts (env.resolve diskSettings).realPath)
            ∧ unmountCalls (UnmountPersistentDisk env opts diskSettings).2
              = [persistentTarget opts (env.resolve diskSettings).realPath]
            ∧ (opts.UsePreformattedPersistentDisk = false →
                persistentTarget opts (env.resolve diskSettings).realPath
                  = partitionPath (env.resolve diskSettings).realPath 1)) := by
  refine ⟨?_, ?_, ?_⟩
  · intro ht
    simp [UnmountPersistentDisk, ht]
  · intro err ht he
    simp [UnmountPersistentDisk, ht, he]
  · intro ht he
    refine ⟨by simp [UnmountPersistentDisk, ht, he],
      by simp [UnmountPersistentDisk, ht, he, unmountCalls], ?_⟩
    intro hpre
    simp [persistentTarget, hpre]

theorem UnmountPersistentDisk_resolution_and_result_witness :
    UnmountPersistentDisk envUnmountTimesOut sampleOptions sampleDisk
        = ((false, none), [DiskCall.resolve sampleDisk])
      ∧ UnmountPersistentDisk envUnmountResolveFails sampleOptions sampleDisk
        = ((false, some (.wrap (.new "fake-get-real-device-path-err")
              "Getting real device path")), [DiskCall.resolve sampleDisk])
      ∧ ((UnmountPersistentDisk envUnmountFails sampleOptions sampleDisk).1
            = envUnmountFails.unmount
                (persistentTarget sampleOptions (envUnmountFails.resolve sampleDisk).realPath)
          ∧ unmountCalls (UnmountPersistentDisk envUnmountFails sampleOptions sampleDisk).2
            = [persistentTarget sampleOptions (envUnmountFails.resolve sampleDisk).realPath]
          ∧ (sampleOptions.UsePreformattedPersistentDisk = false →
              persistentTarget sampleOptions (envUnmountFails.resolve sampleDisk).realPath
                = partitionPath (envUnmountFails.resolve sampleDisk).realPath 1)) :=
  ⟨(UnmountPersistentDisk_resolution_and_result envUnmountTimesOut sampleOptions sampleDisk).1
      rfl,
   (UnmountPersistentDisk_resolution_and_result envUnmountResolveFails sampleOptions
      sampleDisk).2.1 _ rfl rfl,
   (UnmountPersistentDisk_resolution_and_result envUnmountFails sampleOptions sampleDisk).2.2
      rfl rfl⟩

/-- C24, as stated, fails: in the test "when the specified drive does not
exist" the resolution of the device path reports a timeout, and the result of
`IsPersistentDiskMountable` is an error, not (false, no error). -/
theorem IsPersistentDiskMountable_timeout_is_an_error :
    (envResolutionTimesOut.resolve (rawDisk "/fake/device")).timedOut = true
      ∧ (IsPersistentDiskMountable envResolutionTimesOut (rawDisk "/fake/device")).1
          ≠ (false, none)
      ∧ (∃ stage, (IsPersistentDiskMountable envResolutionTimesOut (rawDisk "/fake/device")).1
          = (false, some (.wrap (.new "fake-timeout-error") stage))) := by
  exact ⟨by decide, by decide, _, rfl⟩

/-- C24, amended: if the resolution of the device path fails, with or without
a timeout, the result of `IsPersistentDiskMountable` is mountable=false with an
error that wraps the resolver's error, and the partition table is not probed. -/
theorem IsPersistentDiskMountable_resolution_failure (env : CmdEnv)
    (diskSettings : DiskSettings) (err : Err)
    (he : (env.resolve diskSettings).err = some err) :
    (IsPersistentDiskMountable env diskSettings).1.1 = false
      ∧ (∃ stage, (IsPersistentDiskMountable env diskSettings).1.2 = some (.wrap err stage))
      ∧ (IsPersistentDiskMountable env diskSettings).2 = [] := by
  simp [IsPersistentDiskMountable, he]

theorem IsPersistentDiskMountable_resolution_failure_witness :
    (IsPersistentDiskMountable envResolutionTimesOut (rawDisk "/fake/device")).1.1 = false
      ∧ (∃ stage, (IsPersistentDiskMountable envResolutionTimesOut (rawDisk "/fake/device")).1.2
          = some (.wrap (.new "fake-timeout-error") stage))
      ∧ (IsPersistentDiskMountable envResolutionTimesOut (rawDisk "/fake/device")).2 = [] :=
  IsPersistentDiskMountable_resolution_failure envResolutionTimesOut (rawDisk "/fake/device")
    (.new "fake-timeout-error") rfl

/-! ## The managed disk record -/

@[simp] theorem writesTo_append (path : String) (l l' : List DiskCall) :
    writesTo path (l ++ l') = writesTo path l ++ writesTo path l' := by
  simp [writesTo]

@[simp] theorem writesTo_nil (path : String) : writesTo path [] = [] := rfl

@[simp] theorem writesTo_cons (path : String) (c : DiskCall) (l : List DiskCall) :
    writesTo path (c :: l)
      = (match c with
          | .writeFile p content => if p = path then [content] else []
          | _ => []) ++ writesTo path l := by
  cases c with
  | writeFile p content => by_cases h : p = path <;> simp [writesTo, h]
  | _ => simp [writesTo]

/-- C25: the managed disk record round trip.  For every disk id `X`, after a
successful `MountPersistentDisk` of a disk with ID `X` at a mount point that is
not yet a mount point, the record has been written once, and reading it back
yields exactly `X`. -/
theorem MountPersistentDisk_record_round_trip (env : DiskEnv) (dirs : Dirs)
    (opts : LinuxOptions) (diskSettings : DiskSettings) (mountPoint : String) (X : String)
    (hid : diskSettings.ID = X)
    (hnot : (env.isMountPoint mountPoint).2.1 = false)
    (hok : (MountPersistentDisk env dirs opts diskSettings mountPoint).1 = none) :
    readFileString (MountPersistentDisk env dirs opts diskSettings mountPoint).2
        dirs.managedDiskSettingsPath = some X
      ∧ writesTo dirs.managedDiskSettingsPath
          (MountPersistentDisk env dirs opts diskSettings mountPoint).2 = [X] := by
  have key : writesTo dirs.managedDiskSettingsPath
      (MountPersistentDisk env dirs opts diskSettings mountPoint).2 = [X] := by
    subst hid
    revert hok
    cases hres : (env.resolve diskSettings).err with
    | some err => simp [MountPersistentDisk, hres]
    | none =>
      rcases hmp : env.isMountPoint mountPoint with ⟨device, isMP, err⟩
      rw [hmp] at hnot
      simp only at hnot
      subst hnot
      cases err with
      | some err => simp [MountPersistentDisk, hres, hmp]
      | none =>
        cases h1 : env.mkdirAll mountPoint with
        | some err =>
          simp [MountPersistentDisk, hres, hmp, h1, perform_fail, andThen_fail]
        | none =>
          cases hpre : opts.UsePreformattedPersistentDisk with
          | true =>
            cases h5 : env.mount (env.resolve diskSettings).realPath
                mountPoint diskSettings.MountOptions <;>
            cases h6 : env.writeFile dirs.managedDiskSettingsPath diskSettings.ID <;>
            simp [MountPersistentDisk, hres, hmp, h1, h5, h6, hpre, perform_ok,
              perform_fail, andThen_ok, andThen_fail, persistentTarget]
          | false =>
            cases h2 : env.partition (env.resolve diskSettings).realPath
                diskSettings.Partitioner [{ SizeInBytes := 0, Kind := .linux }] with
            | some err =>
              simp [MountPersistentDisk, hres, hmp, h1, h2, hpre, perform_ok, perform_fail,
                andThen_ok, andThen_fail]
            | none =>
              cases h3 : persistentFileSystem diskSettings.FileSystemType with
              | none =>
                simp [MountPersistentDisk, hres, hmp, h1, h2, h3, hpre, perform_ok,
                  perform_fail, andThen_ok, andThen_fail]
              | some fsType =>
                cases h4 : env.format
                    (partitionPath (env.resolve diskSettings).realPath 1) fsType <;>
                cases h5 : env.mount (partitionPath (env.resolve diskSettings).realPath 1)
                    mountPoint diskSettings.MountOptions <;>
                cases h6 : env.writeFile dirs.managedDiskSettingsPath diskSettings.ID <;>
                simp [MountPersistentDisk, hres, hmp, h1, h2, h3, h4, h5, h6, hpre, perform_ok,
                  perform_fail, andThen_ok, andThen_fail, persistentTarget]
  exact ⟨by rw [readFileString, key]; rfl, key⟩

theorem MountPersistentDisk_record_round_trip_witness :
    readFileString
        (MountPersistentDisk (sampleEnv "/dev/mapper/fake-real-device-path" 0 0 ("", false))
          sampleDirs sampleOptions sampleDisk "/mnt/point").2
        sampleDirs.managedDiskSettingsPath = some "fake-unique-id"
      ∧ writesTo sampleDirs.managedDiskSettingsPath
          (MountPersistentDisk (sampleEnv "/dev/mapper/fake-real-device-path" 0 0 ("", false))
            sampleDirs sampleOptions sampleDisk "/mnt/point").2 = ["fake-unique-id"] :=
  MountPersistentDisk_record_round_trip
    (sampleEnv "/dev/mapper/fake-real-device-path" 0 0 ("", false))
    sampleDirs sampleOptions sampleDisk "/mnt/point" "fake-unique-id" rfl rfl (by decide)

end Platform
